import Mathlib

/-!
# cp6502: a cycle-counted 6502 core

Shallow embedding of `src/core/cos6502.hpp` (memory, CPU state, accessors and
addressing modes) and `src/core/cp6502.cpp` (`CPU::Execute` with its local
lambdas and the dispatch switch), followed by theorems about them.

Representation.
* A `Byte` or `Word` is a `Nat`; every assignment to a `Byte`/`Word` variable
  is reduced modulo 256 / 65536 exactly where the C++ conversion truncates.
* The cycle counter, an `s32`, is an `Int`. From a budget in the range of
  `s32` the counter only goes down and never below -7, so it stays in that
  range. The difference that `Execute` returns is brought into the range of
  `s32` by `toS32`: it wraps when it overflows, as the compiled code does.
* The 1-bit status bit-fields are `Bool`.
* Functions that take `s32& cycles` and the memory by reference and mutate the
  CPU thread a `Machine` value (cycle counter, CPU, memory) through.
-/

namespace cp6502

/-- Conversion of an `int` value to `Byte`. -/
def toByte (i : Int) : Nat := (i % 256).toNat

/-- Conversion of an `int` value to `Word`. -/
def toWord (i : Int) : Nat := (i % 65536).toNat

/-- An integer brought into the range of `s32` (`signed int`: 32 bits, two's
complement), as the machine does when an `s32` operation overflows. -/
def toS32 (i : Int) : Int := (i + 2147483648) % 4294967296 - 2147483648

/-- Assignment of an integer value to a 1-bit bit-field keeps its lowest bit. -/
def toBit (n : Nat) : Bool := decide (n % 2 = 1)

/-- The struct `Mem`: the array `Data`, as a map from index to cell. -/
structure Mem where
  Data : Nat → Nat

namespace Mem

/-- The constant `Mem::MAX_MEM`. -/
def MAX_MEM : Nat := 1024 * 64

/-- The assignment `Data[address] = value`. -/
def write (memory : Mem) (address : Nat) (value : Nat) : Mem :=
  ⟨fun i => if i = address then value else memory.Data i⟩

/-- The first `n` iterations of the loop of `Mem::Initialise`
(`i = 0, 1, ..., n - 1`). -/
def InitialiseLoop : Nat → Mem → Mem
  | 0, memory => memory
  | n + 1, memory => (InitialiseLoop n memory).write n 0

/-- The function `Mem::Initialise`. -/
def Initialise (memory : Mem) : Mem := InitialiseLoop MAX_MEM memory

end Mem

/-- The struct `CPU`. The bit `Unused` is not declared in `cos6502.hpp`; it is
the reserved status bit that `cp6502.cpp` names (`Unused = false`). -/
structure CPU where
  PC : Nat
  SP : Nat
  A : Nat
  X : Nat
  Y : Nat
  C : Bool
  Z : Bool
  I : Bool
  D : Bool
  B : Bool
  Unused : Bool
  V : Bool
  N : Bool

/-- What the body of `Execute` and the accessors work on: the local `cycles`,
the CPU (`this`) and the memory passed by reference. -/
structure Machine where
  cycles : Int
  cpu : CPU
  memory : Mem

namespace CPU

/-- The function `CPU::Reset`. -/
def Reset (pc : Nat) (cpu : CPU) (memory : Mem) : CPU × Mem :=
  ({ cpu with PC := pc, SP := 0xFF,
              C := false, Z := false, I := false, D := false, B := false,
              V := false, N := false,
              A := 0, X := 0, Y := 0 },
   memory.Initialise)

/-- The function `CPU::FetchByte`. -/
def FetchByte (s : Machine) : Nat × Machine :=
  (s.memory.Data s.cpu.PC,
   { s with cpu := { s.cpu with PC := (s.cpu.PC + 1) % 65536 },
            cycles := s.cycles - 1 })

/-- The function `CPU::FetchWord`. -/
def FetchWord (s : Machine) : Nat × Machine :=
  let lo := s.memory.Data s.cpu.PC
  let pc1 := (s.cpu.PC + 1) % 65536
  let hi := s.memory.Data pc1
  let pc2 := (pc1 + 1) % 65536
  ((lo ||| (hi <<< 8)) % 65536,
   { s with cpu := { s.cpu with PC := pc2 }, cycles := s.cycles - 2 })

/-- The function `CPU::ReadByte`. -/
def ReadByte (addr : Nat) (s : Machine) : Nat × Machine :=
  (s.memory.Data addr, { s with cycles := s.cycles - 1 })

/-- The function `CPU::ReadWord`. -/
def ReadWord (addr : Nat) (s : Machine) : Nat × Machine :=
  let r1 := ReadByte addr s
  let r2 := ReadByte ((addr + 1) % 65536) r1.2
  ((r1.1 ||| (r2.1 <<< 8)) % 65536, r2.2)

/-- The function `CPU::WriteByte`. -/
def WriteByte (value : Nat) (addr : Nat) (s : Machine) : Machine :=
  { s with memory := s.memory.write addr value, cycles := s.cycles - 1 }

/-- The function `CPU::WriteWord`. -/
def WriteWord (value : Nat) (address : Nat) (s : Machine) : Machine :=
  { s with memory := (s.memory.write address (value &&& 0xFF)).write (address + 1)
                        ((value >>> 8) % 256),
           cycles := s.cycles - 2 }

/-- The function `CPU::SPToAddress`. -/
def SPToAddress (cpu : CPU) : Nat := (0x0100 + cpu.SP) % 65536

/-- The function `CPU::PushPCToStack`. -/
def PushPCToStack (s : Machine) : Machine :=
  let s1 := WriteWord s.cpu.PC (SPToAddress s.cpu) s
  { s1 with cpu := { s1.cpu with SP := toByte ((s1.cpu.SP : Int) - 2) } }

/-- The function `CPU::PopWordFromStack`. -/
def PopWordFromStack (s : Machine) : Nat × Machine :=
  let s1 : Machine := { s with cpu := { s.cpu with SP := (s.cpu.SP + 2) % 256 } }
  let r := ReadWord (SPToAddress s1.cpu) s1
  (r.1, { r.2 with cycles := r.2.cycles - 1 })

/-- The function `CPU::LoadRegisterSetStatus`. -/
def LoadRegisterSetStatus (reg : Nat) (cpu : CPU) : CPU :=
  { cpu with Z := decide (reg = 0), N := decide ((reg &&& 0b10000000) > 0) }

/-- The function `CPU::AddrZeroPage`. -/
def AddrZeroPage (s : Machine) : Nat × Machine :=
  FetchByte s

/-- The function `CPU::AddrZeroPageXY`. -/
def AddrZeroPageXY (regXY : Nat) (s : Machine) : Nat × Machine :=
  let r := FetchByte s
  ((r.1 + regXY) % 256, { r.2 with cycles := r.2.cycles - 1 })

/-- The function `CPU::AddrAbsolute`. -/
def AddrAbsolute (s : Machine) : Nat × Machine :=
  FetchWord s

/-- The function `CPU::AddrAbsoluteXY`. The comparison is done on `int`. -/
def AddrAbsoluteXY (regXY : Nat) (s : Machine) : Nat × Machine :=
  let r := FetchWord s
  let absAddr := r.1
  let addr := (absAddr + regXY) % 65536
  if (addr : Int) - (absAddr : Int) ≥ 0xFF then
    (addr, { r.2 with cycles := r.2.cycles - 1 })
  else
    (addr, r.2)

/-- The function `CPU::AddrAbsoluteXY_5`. -/
def AddrAbsoluteXY_5 (regXY : Nat) (s : Machine) : Nat × Machine :=
  let r := FetchWord s
  ((r.1 + regXY) % 65536, { r.2 with cycles := r.2.cycles - 1 })

/-- The function `CPU::AddrIndirectX`. -/
def AddrIndirectX (s : Machine) : Nat × Machine :=
  let r := FetchByte s
  let zpAddr := (r.1 + r.2.cpu.X) % 256
  ReadWord zpAddr { r.2 with cycles := r.2.cycles - 1 }

/-- The function `CPU::AddrIndirectY`. The comparison is done on `int`. -/
def AddrIndirectY (s : Machine) : Nat × Machine :=
  let r := FetchByte s
  let w := ReadWord r.1 r.2
  let effectiveAddr := w.1
  let effectiveAddrY := (effectiveAddr + w.2.cpu.Y) % 65536
  if (effectiveAddrY : Int) - (effectiveAddr : Int) ≥ 0xFF then
    (effectiveAddrY, { w.2 with cycles := w.2.cycles - 1 })
  else
    (effectiveAddrY, w.2)

/-- The function `CPU::AddrIndirectY_6`. -/
def AddrIndirectY_6 (s : Machine) : Nat × Machine :=
  let r := FetchByte s
  let w := ReadWord r.1 r.2
  ((w.1 + w.2.cpu.Y) % 65536, { w.2 with cycles := w.2.cycles - 1 })

/-- Modelled from the spec: the constant `NegativeFlag` of the absent header
`cp6502.hpp`; bit 7 of the packed status byte `N V U B D I Z C`. -/
def NegativeFlag : Nat := 0b10000000

/-- Modelled from the spec: the constant `BreakFlag` of the absent header;
bit 4 of the packed status byte `N V U B D I Z C`. -/
def BreakFlag : Nat := 0b00010000

/-- Modelled from the spec: the constant `UnusedFlag` of the absent header;
bit 5 of the packed status byte `N V U B D I Z C`. -/
def UnusedFlag : Nat := 0b00100000

/-- Modelled from the spec: reading the member `PS` that the absent header
overlays on the flag bit-fields; the packed status byte, bit 7 to bit 0 being
`N V U B D I Z C`. -/
def PS (cpu : CPU) : Nat :=
  cpu.C.toNat + 2 * cpu.Z.toNat + 4 * cpu.I.toNat + 8 * cpu.D.toNat +
  16 * cpu.B.toNat + 32 * cpu.Unused.toNat + 64 * cpu.V.toNat + 128 * cpu.N.toNat

/-- Modelled from the spec: assigning to the member `PS` of the absent header;
every flag takes its bit of the packed status byte `N V U B D I Z C`. -/
def setPS (value : Nat) (cpu : CPU) : CPU :=
  { cpu with C := value.testBit 0, Z := value.testBit 1, I := value.testBit 2,
             D := value.testBit 3, B := value.testBit 4, Unused := value.testBit 5,
             V := value.testBit 6, N := value.testBit 7 }

/-- Modelled from the spec: `PushByteOntoStack` of the absent header. "Push
writes to 0x0100+SP then decrements SP"; the write is one access through the
CPU's accessors, charged one cycle; SP arithmetic is modulo 256. -/
def PushByteOntoStack (value : Nat) (s : Machine) : Machine :=
  let s1 := WriteByte value (SPToAddress s.cpu) s
  { s1 with cpu := { s1.cpu with SP := toByte ((s1.cpu.SP : Int) - 1) } }

/-- Modelled from the spec: `PopByteFromStack` of the absent header. "Pop
increments SP then reads"; the read is one access through the CPU's
accessors, charged one cycle; SP arithmetic is modulo 256. -/
def PopByteFromStack (s : Machine) : Nat × Machine :=
  let s1 : Machine := { s with cpu := { s.cpu with SP := (s.cpu.SP + 1) % 256 } }
  ReadByte (SPToAddress s1.cpu) s1

/-- Modelled from the spec: the word push behind `PushPCMinusOneToStack` and
`PushPCPlusOneToStack` of the absent header. The spec has the word pushed
"so that a subsequent word-pop yields" it; the word pop that `case INS_RTS`
and `case INS_RTI` call is `PopWordFromStack`, which reads the word at
0x0100+SP after `SP += 2`. So the push is the one that `PopWordFromStack`
undoes: the word written by `WriteWord` at `SPToAddress()`, then `SP -= 2`,
which is what `PushPCToStack` does with PC and what `case INS_JSR` called
before (the call is still there as a comment). -/
def PushWordToStack (value : Nat) (s : Machine) : Machine :=
  let s1 := WriteWord value (SPToAddress s.cpu) s
  { s1 with cpu := { s1.cpu with SP := toByte ((s1.cpu.SP : Int) - 2) } }

/-- Modelled from the spec: `PushPCMinusOneToStack` of the absent header;
JSR pushes (PC - 1) as a word. -/
def PushPCMinusOneToStack (s : Machine) : Machine :=
  PushWordToStack (toWord ((s.cpu.PC : Int) - 1)) s

/-- Modelled from the spec: `PushPCPlusOneToStack` of the absent header;
BRK pushes PC + 1 as a word. -/
def PushPCPlusOneToStack (s : Machine) : Machine :=
  PushWordToStack ((s.cpu.PC + 1) % 65536) s

/-- Modelled from the spec: the cast `static_cast<SByte>(offset)`, `SByte`
being declared in the absent header; the byte read as a two's-complement
8-bit value. -/
def SByte (offset : Nat) : Int :=
  if offset % 256 < 128 then ((offset % 256 : Nat) : Int) else ((offset % 256 : Nat) : Int) - 256

/-- Writing the register `A`. -/
def setA (v : Nat) (cpu : CPU) : CPU := { cpu with A := v }
/-- Writing the register `X`. -/
def setX (v : Nat) (cpu : CPU) : CPU := { cpu with X := v }
/-- Writing the register `Y`. -/
def setY (v : Nat) (cpu : CPU) : CPU := { cpu with Y := v }

/-- The lambda `LoadRegister` of `Execute`; `setReg` writes the register that
the reference `reg` names. -/
def LoadRegister (addr : Nat) (setReg : Nat → CPU → CPU) (s : Machine) : Machine :=
  let r := ReadByte addr s
  { r.2 with cpu := LoadRegisterSetStatus r.1 (setReg r.1 r.2.cpu) }

/-- The lambda `And` of `Execute`. -/
def And (addr : Nat) (s : Machine) : Machine :=
  let r := ReadByte addr s
  let a := r.2.cpu.A &&& r.1
  { r.2 with cpu := LoadRegisterSetStatus a { r.2.cpu with A := a } }

/-- The lambda `Eor` of `Execute`. -/
def Eor (addr : Nat) (s : Machine) : Machine :=
  let r := ReadByte addr s
  let a := r.2.cpu.A ^^^ r.1
  { r.2 with cpu := LoadRegisterSetStatus a { r.2.cpu with A := a } }

/-- The lambda `Ora` of `Execute`. -/
def Ora (addr : Nat) (s : Machine) : Machine :=
  let r := ReadByte addr s
  let a := r.2.cpu.A ||| r.1
  { r.2 with cpu := LoadRegisterSetStatus a { r.2.cpu with A := a } }

/-- The lambda `Bit` of `Execute`. -/
def Bit (addr : Nat) (s : Machine) : Machine :=
  let r := ReadByte addr s
  let value := r.1
  { r.2 with cpu := { r.2.cpu with Z := decide ((r.2.cpu.A &&& value) = 0),
                                   N := toBit ((value >>> 7) &&& 1),
                                   V := toBit ((value >>> 6) &&& 1) } }

/-- The lambda `Inc` of `Execute`. -/
def Inc (addr : Nat) (s : Machine) : Machine :=
  let r := ReadByte addr s
  let value := (r.1 + 1) % 256
  let s1 := WriteByte value addr r.2
  { s1 with cpu := LoadRegisterSetStatus value s1.cpu }

/-- The lambda `Dec` of `Execute`. -/
def Dec (addr : Nat) (s : Machine) : Machine :=
  let r := ReadByte addr s
  let value := toByte ((r.1 : Int) - 1)
  let s1 := WriteByte value addr r.2
  { s1 with cpu := LoadRegisterSetStatus value s1.cpu }

/-- The lambda `BranchIf` of `Execute`. -/
def BranchIf (predicate : CPU → Bool) (s : Machine) : Machine :=
  let r := FetchByte s
  let offset := r.1
  if predicate r.2.cpu then
    let oldPC := r.2.cpu.PC
    let newPC := toWord ((oldPC : Int) + SByte offset)
    let s1 : Machine := { r.2 with cpu := { r.2.cpu with PC := newPC },
                                   cycles := r.2.cycles - 1 }
    if (newPC >>> 8) ≠ (oldPC >>> 8) then
      { s1 with cycles := s1.cycles - 1 }
    else s1
  else r.2

/-- The lambda `ADC` of `Execute`. The `printf` under `if (D)` changes no
state and is left out. -/
def ADC (operand : Nat) (cpu : CPU) : CPU :=
  let ASign := cpu.A &&& NegativeFlag
  let operandSign := operand &&& NegativeFlag
  let sum0 : Nat := cpu.A % 65536
  let sum1 : Nat := (sum0 + cpu.C.toNat) % 65536
  let sum : Nat := (sum1 + operand) % 65536
  let a := sum &&& 0xFF
  { cpu with A := a,
             C := decide (sum > 0xFF),
             Z := decide (a = 0),
             V := decide (ASign = operandSign) && decide ((a &&& NegativeFlag) ≠ ASign),
             N := decide ((a &&& NegativeFlag) > 0) }

/-- The lambda `SBC` of `Execute`: `~operand` converted to `Byte`. -/
def SBC (operand : Nat) (cpu : CPU) : CPU :=
  ADC ((operand ^^^ 0xFF) % 256) cpu

/-- The lambda `Compare` of `Execute`. -/
def Compare (operand : Nat) (reg : Nat) (cpu : CPU) : CPU :=
  let diff := toByte ((reg : Int) - (operand : Int))
  { cpu with C := decide (reg ≥ operand),
             Z := decide (reg = operand),
             N := decide ((diff &&& NegativeFlag) > 0) }

/-- The lambda `ASL` of `Execute`. -/
def ASL (operand : Nat) (s : Machine) : Nat × Machine :=
  let result := (operand <<< 1) % 256
  (result,
   { s with cpu := { s.cpu with C := toBit ((operand &&& NegativeFlag) >>> 7),
                                Z := decide (result = 0),
                                N := toBit ((result &&& NegativeFlag) >>> 7) },
            cycles := s.cycles - 1 })

/-- The lambda `LSR` of `Execute`. -/
def LSR (operand : Nat) (s : Machine) : Nat × Machine :=
  let result := operand >>> 1
  (result,
   { s with cpu := { s.cpu with C := decide ((operand &&& 0b00000001) > 0),
                                Z := decide (result = 0),
                                N := false },
            cycles := s.cycles - 1 })

/-- The lambda `ROL` of `Execute`. -/
def ROL (operand : Nat) (s : Machine) : Nat × Machine :=
  let result0 := (operand <<< 1) % 256
  let result := (result0 ||| (s.cpu.C.toNat &&& 0b00000001)) % 256
  (result,
   { s with cpu := { s.cpu with C := toBit ((operand &&& NegativeFlag) >>> 7),
                                Z := decide (result = 0),
                                N := toBit ((result &&& NegativeFlag) >>> 7) },
            cycles := s.cycles - 1 })

/-- The lambda `ROR` of `Execute`. -/
def ROR (operand : Nat) (s : Machine) : Nat × Machine :=
  let result0 := operand >>> 1
  let result := (result0 ||| (s.cpu.C.toNat <<< 7)) % 256
  (result,
   { s with cpu := { s.cpu with C := toBit (operand &&& 0b00000001),
                                Z := decide (result = 0),
                                N := toBit ((result &&& NegativeFlag) >>> 7) },
            cycles := s.cycles - 1 })

/-- The lambda `PushPSToStack` of `Execute`. -/
def PushPSToStack (s : Machine) : Machine :=
  let PSStack := (PS s.cpu ||| BreakFlag) ||| UnusedFlag
  PushByteOntoStack PSStack s

/-- The lambda `PopPSFromStack` of `Execute`. -/
def PopPSFromStack (s : Machine) : Machine :=
  let r := PopByteFromStack s
  { r.2 with cpu := { setPS r.1 r.2.cpu with B := false, Unused := false } }

/-- The labels of the dispatch switch of `Execute`, one per `case`, in the
order of the switch. -/
inductive Ins where
  | INS_LDA_IM
  | INS_LDX_IM
  | INS_LDY_IM
  | INS_LDA_ZP
  | INS_LDX_ZP
  | INS_LDY_ZP
  | INS_LDA_ZPX
  | INS_LDX_ZPY
  | INS_LDY_ZPX
  | INS_LDA_ABS
  | INS_LDX_ABS
  | INS_LDY_ABS
  | INS_LDA_ABSX
  | INS_LDA_ABSY
  | INS_LDX_ABSY
  | INS_LDY_ABSX
  | INS_LDA_INDX
  | INS_LDA_INDY
  | INS_STA_ZP
  | INS_STX_ZP
  | INS_STY_ZP
  | INS_STA_ABS
  | INS_STX_ABS
  | INS_STY_ABS
  | INS_STA_ZPX
  | INS_STX_ZPY
  | INS_STY_ZPX
  | INS_STA_ABSX
  | INS_STA_ABSY
  | INS_STA_INDX
  | INS_STA_INDY
  | INS_JSR
  | INS_RTS
  | INS_JMP_ABS
  | INS_JMP_IND
  | INS_TSX
  | INS_TXS
  | INS_PHA
  | INS_PLA
  | INS_PHP
  | INS_PLP
  | INS_AND_IM
  | INS_EOR_IM
  | INS_ORA_IM
  | INS_AND_ZP
  | INS_EOR_ZP
  | INS_ORA_ZP
  | INS_AND_ZPX
  | INS_EOR_ZPX
  | INS_ORA_ZPX
  | INS_AND_ABS
  | INS_EOR_ABS
  | INS_ORA_ABS
  | INS_AND_ABSX
  | INS_EOR_ABSX
  | INS_ORA_ABSX
  | INS_AND_ABSY
  | INS_EOR_ABSY
  | INS_ORA_ABSY
  | INS_AND_INDX
  | INS_EOR_INDX
  | INS_ORA_INDX
  | INS_AND_INDY
  | INS_EOR_INDY
  | INS_ORA_INDY
  | INS_BIT_ZP
  | INS_BIT_ABS
  | INS_TAX
  | INS_TAY
  | INS_TXA
  | INS_TYA
  | INS_INX
  | INS_INY
  | INS_DEX
  | INS_DEY
  | INS_INC_ZP
  | INS_INC_ZPX
  | INS_INC_ABS
  | INS_INC_ABSX
  | INS_DEC_ZP
  | INS_DEC_ZPX
  | INS_DEC_ABS
  | INS_DEC_ABSX
  | INS_BEQ
  | INS_BNE
  | INS_BCC
  | INS_BCS
  | INS_BMI
  | INS_BPL
  | INS_BVS
  | INS_BVC
  | INS_CLC
  | INS_CLD
  | INS_CLI
  | INS_CLV
  | INS_SEC
  | INS_SED
  | INS_SEI
  | INS_NOP
  | INS_ADC_IM
  | INS_ADC_ZP
  | INS_ADC_ZPX
  | INS_ADC_ABS
  | INS_ADC_ABSX
  | INS_ADC_ABSY
  | INS_ADC_INDX
  | INS_ADC_INDY
  | INS_CMP_IM
  | INS_CMP_ZP
  | INS_CMP_ZPX
  | INS_CMP_ABS
  | INS_CMP_ABSX
  | INS_CMP_ABSY
  | INS_CMP_INDX
  | INS_CMP_INDY
  | INS_CPX_IM
  | INS_CPX_ZP
  | INS_CPX_ABS
  | INS_CPY_IM
  | INS_CPY_ZP
  | INS_CPY_ABS
  | INS_SBC_IM
  | INS_SBC_ZP
  | INS_SBC_ZPX
  | INS_SBC_ABS
  | INS_SBC_ABSX
  | INS_SBC_ABSY
  | INS_SBC_INDX
  | INS_SBC_INDY
  | INS_ASL_ACC
  | INS_ASL_ZP
  | INS_ASL_ZPX
  | INS_ASL_ABS
  | INS_ASL_ABSX
  | INS_LSR_ACC
  | INS_LSR_ZP
  | INS_LSR_ZPX
  | INS_LSR_ABS
  | INS_LSR_ABSX
  | INS_ROL_ACC
  | INS_ROL_ZP
  | INS_ROL_ZPX
  | INS_ROL_ABS
  | INS_ROL_ABSX
  | INS_ROR_ACC
  | INS_ROR_ZP
  | INS_ROR_ZPX
  | INS_ROR_ABS
  | INS_ROR_ABSX
  | INS_BRK
  | INS_RTI

open Ins

/-- The opcode constants that `cos6502.hpp` declares (loads, stores, JSR, RTS). -/
def declaredOpcodes : List (Nat × Ins) :=
  [(0xA9, INS_LDA_IM), (0xA2, INS_LDX_IM), (0xA0, INS_LDY_IM),
   (0xA5, INS_LDA_ZP), (0xA6, INS_LDX_ZP), (0xA4, INS_LDY_ZP),
   (0xB5, INS_LDA_ZPX), (0xB6, INS_LDX_ZPY), (0xB4, INS_LDY_ZPX),
   (0xAD, INS_LDA_ABS), (0xAE, INS_LDX_ABS), (0xAC, INS_LDY_ABS),
   (0xBD, INS_LDA_ABSX), (0xB9, INS_LDA_ABSY), (0xBE, INS_LDX_ABSY),
   (0xBC, INS_LDY_ABSX), (0xA1, INS_LDA_INDX), (0xB1, INS_LDA_INDY),
   (0x85, INS_STA_ZP), (0x86, INS_STX_ZP), (0x84, INS_STY_ZP),
   (0x8D, INS_STA_ABS), (0x8E, INS_STX_ABS), (0x8C, INS_STY_ABS),
   (0x95, INS_STA_ZPX), (0x96, INS_STX_ZPY), (0x94, INS_STY_ZPX),
   (0x9D, INS_STA_ABSX), (0x99, INS_STA_ABSY), (0x81, INS_STA_INDX),
   (0x91, INS_STA_INDY), (0x20, INS_JSR), (0x60, INS_RTS)]

/-- Modelled from the spec: the opcode constants of the other `case` labels,
declared in the absent header `cp6502.hpp`. They carry the MOS 6502 encoding
that the scenarios of the spec use (`69` ADC immediate, `E9` SBC immediate,
`F0` BEQ, `00` BRK). -/
def otherOpcodes : List (Nat × Ins) :=
  [(0x4C, INS_JMP_ABS), (0x6C, INS_JMP_IND), (0xBA, INS_TSX),
   (0x9A, INS_TXS), (0x48, INS_PHA), (0x68, INS_PLA),
   (0x08, INS_PHP), (0x28, INS_PLP), (0x29, INS_AND_IM),
   (0x49, INS_EOR_IM), (0x09, INS_ORA_IM), (0x25, INS_AND_ZP),
   (0x45, INS_EOR_ZP), (0x05, INS_ORA_ZP), (0x35, INS_AND_ZPX),
   (0x55, INS_EOR_ZPX), (0x15, INS_ORA_ZPX), (0x2D, INS_AND_ABS),
   (0x4D, INS_EOR_ABS), (0x0D, INS_ORA_ABS), (0x3D, INS_AND_ABSX),
   (0x5D, INS_EOR_ABSX), (0x1D, INS_ORA_ABSX), (0x39, INS_AND_ABSY),
   (0x59, INS_EOR_ABSY), (0x19, INS_ORA_ABSY), (0x21, INS_AND_INDX),
   (0x41, INS_EOR_INDX), (0x01, INS_ORA_INDX), (0x31, INS_AND_INDY),
   (0x51, INS_EOR_INDY), (0x11, INS_ORA_INDY), (0x24, INS_BIT_ZP),
   (0x2C, INS_BIT_ABS), (0xAA, INS_TAX), (0xA8, INS_TAY),
   (0x8A, INS_TXA), (0x98, INS_TYA), (0xE8, INS_INX),
   (0xC8, INS_INY), (0xCA, INS_DEX), (0x88, INS_DEY),
   (0xE6, INS_INC_ZP), (0xF6, INS_INC_ZPX), (0xEE, INS_INC_ABS),
   (0xFE, INS_INC_ABSX), (0xC6, INS_DEC_ZP), (0xD6, INS_DEC_ZPX),
   (0xCE, INS_DEC_ABS), (0xDE, INS_DEC_ABSX), (0xF0, INS_BEQ),
   (0xD0, INS_BNE), (0x90, INS_BCC), (0xB0, INS_BCS),
   (0x30, INS_BMI), (0x10, INS_BPL), (0x70, INS_BVS),
   (0x50, INS_BVC), (0x18, INS_CLC), (0xD8, INS_CLD),
   (0x58, INS_CLI), (0xB8, INS_CLV), (0x38, INS_SEC),
   (0xF8, INS_SED), (0x78, INS_SEI), (0xEA, INS_NOP),
   (0x69, INS_ADC_IM), (0x65, INS_ADC_ZP), (0x75, INS_ADC_ZPX),
   (0x6D, INS_ADC_ABS), (0x7D, INS_ADC_ABSX), (0x79, INS_ADC_ABSY),
   (0x61, INS_ADC_INDX), (0x71, INS_ADC_INDY), (0xC9, INS_CMP_IM),
   (0xC5, INS_CMP_ZP), (0xD5, INS_CMP_ZPX), (0xCD, INS_CMP_ABS),
   (0xDD, INS_CMP_ABSX), (0xD9, INS_CMP_ABSY), (0xC1, INS_CMP_INDX),
   (0xD1, INS_CMP_INDY), (0xE0, INS_CPX_IM), (0xE4, INS_CPX_ZP),
   (0xEC, INS_CPX_ABS), (0xC0, INS_CPY_IM), (0xC4, INS_CPY_ZP),
   (0xCC, INS_CPY_ABS), (0xE9, INS_SBC_IM), (0xE5, INS_SBC_ZP),
   (0xF5, INS_SBC_ZPX), (0xED, INS_SBC_ABS), (0xFD, INS_SBC_ABSX),
   (0xF9, INS_SBC_ABSY), (0xE1, INS_SBC_INDX), (0xF1, INS_SBC_INDY),
   (0x0A, INS_ASL_ACC), (0x06, INS_ASL_ZP), (0x16, INS_ASL_ZPX),
   (0x0E, INS_ASL_ABS), (0x1E, INS_ASL_ABSX), (0x4A, INS_LSR_ACC),
   (0x46, INS_LSR_ZP), (0x56, INS_LSR_ZPX), (0x4E, INS_LSR_ABS),
   (0x5E, INS_LSR_ABSX), (0x2A, INS_ROL_ACC), (0x26, INS_ROL_ZP),
   (0x36, INS_ROL_ZPX), (0x2E, INS_ROL_ABS), (0x3E, INS_ROL_ABSX),
   (0x6A, INS_ROR_ACC), (0x66, INS_ROR_ZP), (0x76, INS_ROR_ZPX),
   (0x6E, INS_ROR_ABS), (0x7E, INS_ROR_ABSX), (0x00, INS_BRK),
   (0x40, INS_RTI)]

/-- The decoding done by `switch (ins)`: the `case` whose constant equals the
byte, or `none` for the `default` label. -/
def decode (ins : Nat) : Option Ins := (declaredOpcodes ++ otherOpcodes).lookup ins

/-- The body of the `case` of the dispatch switch, run on the machine as the
opcode fetch left it. -/
def exec (i : Ins) (s : Machine) : Machine :=
  match i with
  | INS_LDA_IM =>
      let r := FetchByte s
      { r.2 with cpu := LoadRegisterSetStatus r.1 (setA r.1 r.2.cpu) }
  | INS_LDX_IM =>
      let r := FetchByte s
      { r.2 with cpu := LoadRegisterSetStatus r.1 (setX r.1 r.2.cpu) }
  | INS_LDY_IM =>
      let r := FetchByte s
      { r.2 with cpu := LoadRegisterSetStatus r.1 (setY r.1 r.2.cpu) }
  | INS_LDA_ZP =>
      let a := AddrZeroPage s
      LoadRegister a.1 setA a.2
  | INS_LDX_ZP =>
      let a := AddrZeroPage s
      LoadRegister a.1 setX a.2
  | INS_LDY_ZP =>
      let a := AddrZeroPage s
      LoadRegister a.1 setY a.2
  | INS_LDA_ZPX =>
      let a := AddrZeroPageXY s.cpu.X s
      LoadRegister a.1 setA a.2
  | INS_LDX_ZPY =>
      let a := AddrZeroPageXY s.cpu.Y s
      LoadRegister a.1 setX a.2
  | INS_LDY_ZPX =>
      let a := AddrZeroPageXY s.cpu.X s
      LoadRegister a.1 setY a.2
  | INS_LDA_ABS =>
      let a := AddrAbsolute s
      LoadRegister a.1 setA a.2
  | INS_LDX_ABS =>
      let a := AddrAbsolute s
      LoadRegister a.1 setX a.2
  | INS_LDY_ABS =>
      let a := AddrAbsolute s
      LoadRegister a.1 setY a.2
  | INS_LDA_ABSX =>
      let a := AddrAbsoluteXY s.cpu.X s
      LoadRegister a.1 setA a.2
  | INS_LDA_ABSY =>
      let a := AddrAbsoluteXY s.cpu.Y s
      LoadRegister a.1 setA a.2
  | INS_LDX_ABSY =>
      let a := AddrAbsoluteXY s.cpu.Y s
      LoadRegister a.1 setX a.2
  | INS_LDY_ABSX =>
      let a := AddrAbsoluteXY s.cpu.X s
      LoadRegister a.1 setY a.2
  | INS_LDA_INDX =>
      let a := AddrIndirectX s
      let r := ReadByte a.1 a.2
      { r.2 with cpu := LoadRegisterSetStatus r.1 (setA r.1 r.2.cpu) }
  | INS_LDA_INDY =>
      let a := AddrIndirectY s
      let r := ReadByte a.1 a.2
      { r.2 with cpu := LoadRegisterSetStatus r.1 (setA r.1 r.2.cpu) }
  | INS_STA_ZP =>
      let a := AddrZeroPage s
      WriteByte a.2.cpu.A a.1 a.2
  | INS_STX_ZP =>
      let a := AddrZeroPage s
      WriteByte a.2.cpu.X a.1 a.2
  | INS_STY_ZP =>
      let a := AddrZeroPage s
      WriteByte a.2.cpu.Y a.1 a.2
  | INS_STA_ABS =>
      let a := AddrAbsolute s
      WriteByte a.2.cpu.A a.1 a.2
  | INS_STX_ABS =>
      let a := AddrAbsolute s
      WriteByte a.2.cpu.X a.1 a.2
  | INS_STY_ABS =>
      let a := AddrAbsolute s
      WriteByte a.2.cpu.Y a.1 a.2
  | INS_STA_ZPX =>
      let a := AddrZeroPageXY s.cpu.X s
      WriteByte a.2.cpu.A a.1 a.2
  | INS_STX_ZPY =>
      let a := AddrZeroPageXY s.cpu.Y s
      WriteByte a.2.cpu.X a.1 a.2
  | INS_STY_ZPX =>
      let a := AddrZeroPageXY s.cpu.X s
      WriteByte a.2.cpu.Y a.1 a.2
  | INS_STA_ABSX =>
      let a := AddrAbsoluteXY_5 s.cpu.X s
      WriteByte a.2.cpu.A a.1 a.2
  | INS_STA_ABSY =>
      let a := AddrAbsoluteXY_5 s.cpu.Y s
      WriteByte a.2.cpu.A a.1 a.2
  | INS_STA_INDX =>
      let a := AddrIndirectX s
      WriteByte a.2.cpu.A a.1 a.2
  | INS_STA_INDY =>
      let a := AddrIndirectY_6 s
      WriteByte a.2.cpu.A a.1 a.2
  | INS_JSR =>
      let w := FetchWord s
      let s1 := PushPCMinusOneToStack w.2
      { s1 with cpu := { s1.cpu with PC := w.1 }, cycles := s1.cycles - 1 }
  | INS_RTS =>
      let r := PopWordFromStack s
      { r.2 with cpu := { r.2.cpu with PC := (r.1 + 1) % 65536 }, cycles := r.2.cycles - 2 }
  | INS_JMP_ABS =>
      let a := AddrAbsolute s
      { a.2 with cpu := { a.2.cpu with PC := a.1 } }
  | INS_JMP_IND =>
      let a := AddrAbsolute s
      let w := ReadWord a.1 a.2
      { w.2 with cpu := { w.2.cpu with PC := w.1 } }
  | INS_TSX =>
      { s with cpu := LoadRegisterSetStatus s.cpu.SP (setX s.cpu.SP s.cpu), cycles := s.cycles - 1 }
  | INS_TXS =>
      { s with cpu := { s.cpu with SP := s.cpu.X }, cycles := s.cycles - 1 }
  | INS_PHA =>
      PushByteOntoStack s.cpu.A s
  | INS_PLA =>
      let r := PopByteFromStack s
      { r.2 with cpu := LoadRegisterSetStatus r.1 (setA r.1 r.2.cpu), cycles := r.2.cycles - 1 }
  | INS_PHP =>
      PushPSToStack s
  | INS_PLP =>
      let s1 := PopPSFromStack s
      { s1 with cycles := s1.cycles - 1 }
  | INS_AND_IM =>
      let r := FetchByte s
      let a := r.2.cpu.A &&& r.1
      { r.2 with cpu := LoadRegisterSetStatus a (setA a r.2.cpu) }
  | INS_EOR_IM =>
      let r := FetchByte s
      let a := r.2.cpu.A ^^^ r.1
      { r.2 with cpu := LoadRegisterSetStatus a (setA a r.2.cpu) }
  | INS_ORA_IM =>
      let r := FetchByte s
      let a := r.2.cpu.A ||| r.1
      { r.2 with cpu := LoadRegisterSetStatus a (setA a r.2.cpu) }
  | INS_AND_ZP =>
      let a := AddrZeroPage s
      And a.1 a.2
  | INS_EOR_ZP =>
      let a := AddrZeroPage s
      Eor a.1 a.2
  | INS_ORA_ZP =>
      let a := AddrZeroPage s
      Ora a.1 a.2
  | INS_AND_ZPX =>
      let a := AddrZeroPageXY s.cpu.X s
      And a.1 a.2
  | INS_EOR_ZPX =>
      let a := AddrZeroPageXY s.cpu.X s
      Eor a.1 a.2
  | INS_ORA_ZPX =>
      let a := AddrZeroPageXY s.cpu.X s
      Ora a.1 a.2
  | INS_AND_ABS =>
      let a := AddrAbsolute s
      And a.1 a.2
  | INS_EOR_ABS =>
      let a := AddrAbsolute s
      Eor a.1 a.2
  | INS_ORA_ABS =>
      let a := AddrAbsolute s
      Ora a.1 a.2
  | INS_AND_ABSX =>
      let a := AddrAbsoluteXY s.cpu.X s
      And a.1 a.2
  | INS_EOR_ABSX =>
      let a := AddrAbsoluteXY s.cpu.X s
      Eor a.1 a.2
  | INS_ORA_ABSX =>
      let a := AddrAbsoluteXY s.cpu.X s
      Ora a.1 a.2
  | INS_AND_ABSY =>
      let a := AddrAbsoluteXY s.cpu.Y s
      And a.1 a.2
  | INS_EOR_ABSY =>
      let a := AddrAbsoluteXY s.cpu.Y s
      Eor a.1 a.2
  | INS_ORA_ABSY =>
      let a := AddrAbsoluteXY s.cpu.Y s
      Ora a.1 a.2
  | INS_AND_INDX =>
      let a := AddrIndirectX s
      And a.1 a.2
  | INS_EOR_INDX =>
      let a := AddrIndirectX s
      Eor a.1 a.2
  | INS_ORA_INDX =>
      let a := AddrIndirectX s
      Ora a.1 a.2
  | INS_AND_INDY =>
      let a := AddrIndirectY s
      And a.1 a.2
  | INS_EOR_INDY =>
      let a := AddrIndirectY s
      Eor a.1 a.2
  | INS_ORA_INDY =>
      let a := AddrIndirectY s
      Ora a.1 a.2
  | INS_BIT_ZP =>
      let a := AddrZeroPage s
      Bit a.1 a.2
  | INS_BIT_ABS =>
      let a := AddrAbsolute s
      Bit a.1 a.2
  | INS_TAX =>
      { s with cpu := LoadRegisterSetStatus s.cpu.A (setX s.cpu.A s.cpu), cycles := s.cycles - 2 }
  | INS_TAY =>
      { s with cpu := LoadRegisterSetStatus s.cpu.A (setY s.cpu.A s.cpu), cycles := s.cycles - 2 }
  | INS_TXA =>
      { s with cpu := LoadRegisterSetStatus s.cpu.X (setA s.cpu.X s.cpu), cycles := s.cycles - 2 }
  | INS_TYA =>
      { s with cpu := LoadRegisterSetStatus s.cpu.Y (setA s.cpu.Y s.cpu), cycles := s.cycles - 2 }
  | INS_INX =>
      let v := (s.cpu.X + 1) % 256
      { s with cpu := LoadRegisterSetStatus v (setX v s.cpu), cycles := s.cycles - 2 }
  | INS_INY =>
      let v := (s.cpu.Y + 1) % 256
      { s with cpu := LoadRegisterSetStatus v (setY v s.cpu), cycles := s.cycles - 2 }
  | INS_DEX =>
      let v := toByte ((s.cpu.X : Int) - 1)
      { s with cpu := LoadRegisterSetStatus v (setX v s.cpu), cycles := s.cycles - 2 }
  | INS_DEY =>
      let v := toByte ((s.cpu.Y : Int) - 1)
      { s with cpu := LoadRegisterSetStatus v (setY v s.cpu), cycles := s.cycles - 2 }
  | INS_INC_ZP =>
      let a := AddrZeroPage s
      let s1 := Inc a.1 a.2
      { s1 with cycles := s1.cycles - 2 }
  | INS_INC_ZPX =>
      let a := AddrZeroPageXY s.cpu.X s
      let s1 := Inc a.1 a.2
      { s1 with cycles := s1.cycles - 2 }
  | INS_INC_ABS =>
      let a := AddrAbsolute s
      let s1 := Inc a.1 a.2
      { s1 with cycles := s1.cycles - 2 }
  | INS_INC_ABSX =>
      let a := AddrAbsoluteXY s.cpu.X s
      let s1 := Inc a.1 a.2
      { s1 with cycles := s1.cycles - 2 }
  | INS_DEC_ZP =>
      let a := AddrZeroPage s
      let s1 := Dec a.1 a.2
      { s1 with cycles := s1.cycles - 2 }
  | INS_DEC_ZPX =>
      let a := AddrZeroPageXY s.cpu.X s
      let s1 := Dec a.1 a.2
      { s1 with cycles := s1.cycles - 2 }
  | INS_DEC_ABS =>
      let a := AddrAbsolute s
      let s1 := Dec a.1 a.2
      { s1 with cycles := s1.cycles - 2 }
  | INS_DEC_ABSX =>
      let a := AddrAbsoluteXY s.cpu.X s
      let s1 := Dec a.1 a.2
      { s1 with cycles := s1.cycles - 2 }
  | INS_BEQ =>
      BranchIf (fun c => c.Z) s
  | INS_BNE =>
      BranchIf (fun c => !c.Z) s
  | INS_BCC =>
      BranchIf (fun c => !c.C) s
  | INS_BCS =>
      BranchIf (fun c => c.C) s
  | INS_BMI =>
      BranchIf (fun c => c.N) s
  | INS_BPL =>
      BranchIf (fun c => !c.N) s
  | INS_BVS =>
      BranchIf (fun c => c.V) s
  | INS_BVC =>
      BranchIf (fun c => !c.V) s
  | INS_CLC =>
      { s with cpu := { s.cpu with C := false }, cycles := s.cycles - 1 }
  | INS_CLD =>
      { s with cpu := { s.cpu with D := false }, cycles := s.cycles - 1 }
  | INS_CLI =>
      { s with cpu := { s.cpu with I := false }, cycles := s.cycles - 1 }
  | INS_CLV =>
      { s with cpu := { s.cpu with V := false }, cycles := s.cycles - 1 }
  | INS_SEC =>
      { s with cpu := { s.cpu with C := true }, cycles := s.cycles - 1 }
  | INS_SED =>
      { s with cpu := { s.cpu with D := true }, cycles := s.cycles - 1 }
  | INS_SEI =>
      { s with cpu := { s.cpu with I := true }, cycles := s.cycles - 1 }
  | INS_NOP =>
      { s with cycles := s.cycles - 1 }
  | INS_ADC_IM =>
      let r := FetchByte s
      { r.2 with cpu := ADC r.1 r.2.cpu }
  | INS_ADC_ZP =>
      let a := AddrZeroPage s
      let r := ReadByte a.1 a.2
      { r.2 with cpu := ADC r.1 r.2.cpu }
  | INS_ADC_ZPX =>
      let a := AddrZeroPageXY s.cpu.X s
      let r := ReadByte a.1 a.2
      { r.2 with cpu := ADC r.1 r.2.cpu }
  | INS_ADC_ABS =>
      let a := AddrAbsolute s
      let r := ReadByte a.1 a.2
      { r.2 with cpu := ADC r.1 r.2.cpu }
  | INS_ADC_ABSX =>
      let a := AddrAbsoluteXY s.cpu.X s
      let r := ReadByte a.1 a.2
      { r.2 with cpu := ADC r.1 r.2.cpu }
  | INS_ADC_ABSY =>
      let a := AddrAbsoluteXY s.cpu.Y s
      let r := ReadByte a.1 a.2
      { r.2 with cpu := ADC r.1 r.2.cpu }
  | INS_ADC_INDX =>
      let a := AddrIndirectX s
      let r := ReadByte a.1 a.2
      { r.2 with cpu := ADC r.1 r.2.cpu }
  | INS_ADC_INDY =>
      let a := AddrIndirectY s
      let r := ReadByte a.1 a.2
      { r.2 with cpu := ADC r.1 r.2.cpu }
  | INS_CMP_IM =>
      let r := FetchByte s
      { r.2 with cpu := Compare r.1 r.2.cpu.A r.2.cpu }
  | INS_CMP_ZP =>
      let a := AddrZeroPage s
      let r := ReadByte a.1 a.2
      { r.2 with cpu := Compare r.1 r.2.cpu.A r.2.cpu }
  | INS_CMP_ZPX =>
      let a := AddrZeroPageXY s.cpu.X s
      let r := ReadByte a.1 a.2
      { r.2 with cpu := Compare r.1 r.2.cpu.A r.2.cpu }
  | INS_CMP_ABS =>
      let a := AddrAbsolute s
      let r := ReadByte a.1 a.2
      { r.2 with cpu := Compare r.1 r.2.cpu.A r.2.cpu }
  | INS_CMP_ABSX =>
      let a := AddrAbsoluteXY s.cpu.X s
      let r := ReadByte a.1 a.2
      { r.2 with cpu := Compare r.1 r.2.cpu.A r.2.cpu }
  | INS_CMP_ABSY =>
      let a := AddrAbsoluteXY s.cpu.Y s
      let r := ReadByte a.1 a.2
      { r.2 with cpu := Compare r.1 r.2.cpu.A r.2.cpu }
  | INS_CMP_INDX =>
      let a := AddrIndirectX s
      let r := ReadByte a.1 a.2
      { r.2 with cpu := Compare r.1 r.2.cpu.A r.2.cpu }
  | INS_CMP_INDY =>
      let a := AddrIndirectY s
      let r := ReadByte a.1 a.2
      { r.2 with cpu := Compare r.1 r.2.cpu.A r.2.cpu }
  | INS_CPX_IM =>
      let r := FetchByte s
      { r.2 with cpu := Compare r.1 r.2.cpu.X r.2.cpu }
  | INS_CPX_ZP =>
      let a := AddrZeroPage s
      let r := ReadByte a.1 a.2
      { r.2 with cpu := Compare r.1 r.2.cpu.X r.2.cpu }
  | INS_CPX_ABS =>
      let a := AddrAbsolute s
      let r := ReadByte a.1 a.2
      { r.2 with cpu := Compare r.1 r.2.cpu.X r.2.cpu }
  | INS_CPY_IM =>
      let r := FetchByte s
      { r.2 with cpu := Compare r.1 r.2.cpu.Y r.2.cpu }
  | INS_CPY_ZP =>
      let a := AddrZeroPage s
      let r := ReadByte a.1 a.2
      { r.2 with cpu := Compare r.1 r.2.cpu.Y r.2.cpu }
  | INS_CPY_ABS =>
      let a := AddrAbsolute s
      let r := ReadByte a.1 a.2
      { r.2 with cpu := Compare r.1 r.2.cpu.Y r.2.cpu }
  | INS_SBC_IM =>
      let r := FetchByte s
      { r.2 with cpu := SBC r.1 r.2.cpu }
  | INS_SBC_ZP =>
      let a := AddrZeroPage s
      let r := ReadByte a.1 a.2
      { r.2 with cpu := SBC r.1 r.2.cpu }
  | INS_SBC_ZPX =>
      let a := AddrZeroPageXY s.cpu.X s
      let r := ReadByte a.1 a.2
      { r.2 with cpu := SBC r.1 r.2.cpu }
  | INS_SBC_ABS =>
      let a := AddrAbsolute s
      let r := ReadByte a.1 a.2
      { r.2 with cpu := SBC r.1 r.2.cpu }
  | INS_SBC_ABSX =>
      let a := AddrAbsoluteXY s.cpu.X s
      let r := ReadByte a.1 a.2
      { r.2 with cpu := SBC r.1 r.2.cpu }
  | INS_SBC_ABSY =>
      let a := AddrAbsoluteXY s.cpu.Y s
      let r := ReadByte a.1 a.2
      { r.2 with cpu := SBC r.1 r.2.cpu }
  | INS_SBC_INDX =>
      let a := AddrIndirectX s
      let r := ReadByte a.1 a.2
      { r.2 with cpu := SBC r.1 r.2.cpu }
  | INS_SBC_INDY =>
      let a := AddrIndirectY s
      let r := ReadByte a.1 a.2
      { r.2 with cpu := SBC r.1 r.2.cpu }
  | INS_ASL_ACC =>
      let r := ASL s.cpu.A s
      { r.2 with cpu := setA r.1 r.2.cpu }
  | INS_ASL_ZP =>
      let a := AddrZeroPage s
      let r := ReadByte a.1 a.2
      let t := ASL r.1 r.2
      WriteByte t.1 a.1 t.2
  | INS_ASL_ZPX =>
      let a := AddrZeroPageXY s.cpu.X s
      let r := ReadByte a.1 a.2
      let t := ASL r.1 r.2
      WriteByte t.1 a.1 t.2
  | INS_ASL_ABS =>
      let a := AddrAbsolute s
      let r := ReadByte a.1 a.2
      let t := ASL r.1 r.2
      WriteByte t.1 a.1 t.2
  | INS_ASL_ABSX =>
      let a := AddrAbsoluteXY_5 s.cpu.X s
      let r := ReadByte a.1 a.2
      let t := ASL r.1 r.2
      WriteByte t.1 a.1 t.2
  | INS_LSR_ACC =>
      let r := LSR s.cpu.A s
      { r.2 with cpu := setA r.1 r.2.cpu }
  | INS_LSR_ZP =>
      let a := AddrZeroPage s
      let r := ReadByte a.1 a.2
      let t := LSR r.1 r.2
      WriteByte t.1 a.1 t.2
  | INS_LSR_ZPX =>
      let a := AddrZeroPageXY s.cpu.X s
      let r := ReadByte a.1 a.2
      let t := LSR r.1 r.2
      WriteByte t.1 a.1 t.2
  | INS_LSR_ABS =>
      let a := AddrAbsolute s
      let r := ReadByte a.1 a.2
      let t := LSR r.1 r.2
      WriteByte t.1 a.1 t.2
  | INS_LSR_ABSX =>
      let a := AddrAbsoluteXY_5 s.cpu.X s
      let r := ReadByte a.1 a.2
      let t := LSR r.1 r.2
      WriteByte t.1 a.1 t.2
  | INS_ROL_ACC =>
      let r := ROL s.cpu.A s
      { r.2 with cpu := setA r.1 r.2.cpu }
  | INS_ROL_ZP =>
      let a := AddrZeroPage s
      let r := ReadByte a.1 a.2
      let t := ROL r.1 r.2
      WriteByte t.1 a.1 t.2
  | INS_ROL_ZPX =>
      let a := AddrZeroPageXY s.cpu.X s
      let r := ReadByte a.1 a.2
      let t := ROL r.1 r.2
      WriteByte t.1 a.1 t.2
  | INS_ROL_ABS =>
      let a := AddrAbsolute s
      let r := ReadByte a.1 a.2
      let t := ROL r.1 r.2
      WriteByte t.1 a.1 t.2
  | INS_ROL_ABSX =>
      let a := AddrAbsoluteXY_5 s.cpu.X s
      let r := ReadByte a.1 a.2
      let t := ROL r.1 r.2
      WriteByte t.1 a.1 t.2
  | INS_ROR_ACC =>
      let r := ROR s.cpu.A s
      { r.2 with cpu := setA r.1 r.2.cpu }
  | INS_ROR_ZP =>
      let a := AddrZeroPage s
      let r := ReadByte a.1 a.2
      let t := ROR r.1 r.2
      WriteByte t.1 a.1 t.2
  | INS_ROR_ZPX =>
      let a := AddrZeroPageXY s.cpu.X s
      let r := ReadByte a.1 a.2
      let t := ROR r.1 r.2
      WriteByte t.1 a.1 t.2
  | INS_ROR_ABS =>
      let a := AddrAbsolute s
      let r := ReadByte a.1 a.2
      let t := ROR r.1 r.2
      WriteByte t.1 a.1 t.2
  | INS_ROR_ABSX =>
      let a := AddrAbsoluteXY_5 s.cpu.X s
      let r := ReadByte a.1 a.2
      let t := ROR r.1 r.2
      WriteByte t.1 a.1 t.2
  | INS_BRK =>
      let s1 := PushPCPlusOneToStack s
      let s2 := PushPSToStack s1
      let w := ReadWord 0xFFFE s2
      { w.2 with cpu := { w.2.cpu with PC := w.1, B := true, I := true } }
  | INS_RTI =>
      let s1 := PopPSFromStack s
      let r := PopWordFromStack s1
      { r.2 with cpu := { r.2.cpu with PC := r.1 } }

/-- How a run of the dispatch loop ends: the loop exits, the `default` label
throws, or the iteration bound given to the embedding is used up. -/
inductive Run (α : Type) where
  | done (a : α)
  | thrown (code : Int) (cpu : CPU) (memory : Mem)
  | unfinished

/-- One iteration of the `while` body: the opcode fetch, then the switch; the
`default` label does `throw -1`. -/
def step (s : Machine) : Except Int Machine :=
  let f := FetchByte s
  match decode f.1 with
  | some i => .ok (exec i f.2)
  | none => .error (-1)

/-- The loop `while (cycles > 0)` of `Execute`, run for at most `fuel`
iterations. -/
def ExecuteLoop : Nat → Machine → Run Machine
  | 0, s => if s.cycles > 0 then .unfinished else .done s
  | fuel + 1, s =>
    if s.cycles > 0 then
      match step s with
      | .ok s1 => ExecuteLoop fuel s1
      | .error code => .thrown code (FetchByte s).2.cpu (FetchByte s).2.memory
    else .done s

/-- The function `CPU::Execute`: the value returned with the CPU and the
memory as the call leaves them. Every iteration takes at least one cycle off
the counter, so `cycles` iterations are allowed for. `cycles` is an `s32`.
In the loop the counter only goes down and stops at -7 or above, so it stays
in the range of `s32`; the difference `cyclesRequested - cycles` is an `s32`
too and wraps when the last instruction overshoots a budget that is within
7 of 2147483647. -/
def Execute (cycles : Int) (cpu : CPU) (memory : Mem) : Run (Int × CPU × Mem) :=
  let cyclesRequested := cycles
  match ExecuteLoop cycles.toNat ⟨cycles, cpu, memory⟩ with
  | .done s => .done (toS32 (cyclesRequested - s.cycles), s.cpu, s.memory)
  | .thrown code c m => .thrown code c m
  | .unfinished => .unfinished


/-! ## Definitions used to state the properties -/

/-- The instruction boundaries of a run: `Boundary s t` says that the loop
entered with machine `s` comes to the loop test with machine `t` after some
number of completed iterations, each begun with a positive counter. -/
inductive Boundary : Machine → Machine → Prop where
  | here (s : Machine) : Boundary s s
  | next {s s1 t : Machine} : 0 < s.cycles → step s = .ok s1 → Boundary s1 t → Boundary s t

/-- A CPU with the program counter at `pc`, the stack pointer at 0xFF and
every register and flag cleared. -/
def cpuAt (pc : Nat) : CPU :=
  { PC := pc, SP := 0xFF, A := 0, X := 0, Y := 0, C := false, Z := false, I := false,
    D := false, B := false, Unused := false, V := false, N := false }

/-- A memory that holds `bytes` from address `base` on and 0 everywhere else. -/
def memOf (base : Nat) (bytes : List Nat) : Mem :=
  ⟨fun a => if base ≤ a then bytes.getD (a - base) 0 else 0⟩

/-- The overflow formula of the design notes of the spec:
`V = ((A_old ^ result) & (operand ^ result) & 0x80) != 0`. -/
def overflowFormula (A_old operand result : Nat) : Bool :=
  ((A_old ^^^ result) &&& (operand ^^^ result) &&& 0x80) != 0

/-- The three general registers. -/
inductive Reg where
  | A
  | X
  | Y

/-- The value of a general register. -/
def reg (cpu : CPU) : Reg → Nat
  | .A => cpu.A
  | .X => cpu.X
  | .Y => cpu.Y

/-- The addressing modes of the table in section 4.4 of the spec. -/
inductive Mode where
  | IM
  | ZP
  | ZPX
  | ZPY
  | ABS
  | ABSX
  | ABSY
  | INDX
  | INDY

/-- The little-endian 16-bit value held in the cells `a` (low byte) and
`a + 1` (high byte). -/
def wordAt (memory : Mem) (a : Nat) : Nat :=
  memory.Data a + 256 * memory.Data ((a + 1) % 65536)

/-- The address that an instruction located at `p` reads or writes, by the
table in section 4.4 of the spec; `op` is the byte after the opcode. For the
immediate mode it is the address of that byte. The pointer of the two
indirect modes is the little-endian word at its zero-page address. -/
def effectiveAddress (mode : Mode) (p : Nat) (cpu : CPU) (memory : Mem) : Nat :=
  let op := memory.Data ((p + 1) % 65536)
  match mode with
  | .IM => (p + 1) % 65536
  | .ZP => op
  | .ZPX => (op + cpu.X) % 256
  | .ZPY => (op + cpu.Y) % 256
  | .ABS => wordAt memory ((p + 1) % 65536)
  | .ABSX => (wordAt memory ((p + 1) % 65536) + cpu.X) % 65536
  | .ABSY => (wordAt memory ((p + 1) % 65536) + cpu.Y) % 65536
  | .INDX => wordAt memory ((op + cpu.X) % 256)
  | .INDY => (wordAt memory op + cpu.Y) % 65536

/-- The operand of the instruction that the machine `s` is about to fetch:
the byte at its effective address. -/
def operandOf (mode : Mode) (s : Machine) : Nat :=
  s.memory.Data (effectiveAddress mode s.cpu.PC s.cpu s.memory)

/-- The load opcodes, each with the register it writes and its addressing
mode. -/
def loadOpcodes : List (Ins × Reg × Mode) :=
  [(INS_LDA_IM, .A, .IM), (INS_LDX_IM, .X, .IM), (INS_LDY_IM, .Y, .IM),
   (INS_LDA_ZP, .A, .ZP), (INS_LDX_ZP, .X, .ZP), (INS_LDY_ZP, .Y, .ZP),
   (INS_LDA_ZPX, .A, .ZPX), (INS_LDX_ZPY, .X, .ZPY), (INS_LDY_ZPX, .Y, .ZPX),
   (INS_LDA_ABS, .A, .ABS), (INS_LDX_ABS, .X, .ABS), (INS_LDY_ABS, .Y, .ABS),
   (INS_LDA_ABSX, .A, .ABSX), (INS_LDA_ABSY, .A, .ABSY), (INS_LDX_ABSY, .X, .ABSY),
   (INS_LDY_ABSX, .Y, .ABSX), (INS_LDA_INDX, .A, .INDX), (INS_LDA_INDY, .A, .INDY)]

/-- The store opcodes, each with the register it stores and its addressing
mode. -/
def storeOpcodes : List (Ins × Reg × Mode) :=
  [(INS_STA_ZP, .A, .ZP), (INS_STX_ZP, .X, .ZP), (INS_STY_ZP, .Y, .ZP),
   (INS_STA_ABS, .A, .ABS), (INS_STX_ABS, .X, .ABS), (INS_STY_ABS, .Y, .ABS),
   (INS_STA_ZPX, .A, .ZPX), (INS_STX_ZPY, .X, .ZPY), (INS_STY_ZPX, .Y, .ZPX),
   (INS_STA_ABSX, .A, .ABSX), (INS_STA_ABSY, .A, .ABSY), (INS_STA_INDX, .A, .INDX),
   (INS_STA_INDY, .A, .INDY)]

/-- The compare opcodes (CMP, CPX, CPY), each with the register it compares
and its addressing mode. -/
def compareOpcodes : List (Ins × Reg × Mode) :=
  [(INS_CMP_IM, .A, .IM), (INS_CMP_ZP, .A, .ZP), (INS_CMP_ZPX, .A, .ZPX),
   (INS_CMP_ABS, .A, .ABS), (INS_CMP_ABSX, .A, .ABSX), (INS_CMP_ABSY, .A, .ABSY),
   (INS_CMP_INDX, .A, .INDX), (INS_CMP_INDY, .A, .INDY),
   (INS_CPX_IM, .X, .IM), (INS_CPX_ZP, .X, .ZP), (INS_CPX_ABS, .X, .ABS),
   (INS_CPY_IM, .Y, .IM), (INS_CPY_ZP, .Y, .ZP), (INS_CPY_ABS, .Y, .ABS)]

/-- The branch opcodes, each with the condition on the flags under which it
is taken. -/
def branchOpcodes : List (Ins × (CPU → Bool)) :=
  [(INS_BEQ, fun c => c.Z), (INS_BNE, fun c => !c.Z),
   (INS_BCC, fun c => !c.C), (INS_BCS, fun c => c.C),
   (INS_BMI, fun c => c.N), (INS_BPL, fun c => !c.N),
   (INS_BVS, fun c => c.V), (INS_BVC, fun c => !c.V)]

/-- A displacement byte read as a two's-complement 8-bit value (-128..127). -/
def signExtend (d : Nat) : Int :=
  if d < 128 then (d : Int) else (d : Int) - 256

/-- The opcodes that write one of the registers A, X, Y (loads, TAX, TAY,
TXA, TYA, TSX, PLA, AND, ORA, EOR, INX, INY, DEX, DEY, ADC, SBC and the
accumulator forms of ASL, LSR, ROL, ROR), each with the register it writes. -/
def writtenRegister : Ins → Option Reg
  | INS_LDA_IM | INS_LDA_ZP | INS_LDA_ZPX | INS_LDA_ABS | INS_LDA_ABSX | INS_LDA_ABSY
    | INS_LDA_INDX | INS_LDA_INDY | INS_AND_IM | INS_EOR_IM | INS_ORA_IM | INS_AND_ZP
    | INS_EOR_ZP | INS_ORA_ZP | INS_AND_ZPX | INS_EOR_ZPX | INS_ORA_ZPX | INS_AND_ABS
    | INS_EOR_ABS | INS_ORA_ABS | INS_AND_ABSX | INS_EOR_ABSX | INS_ORA_ABSX
    | INS_AND_ABSY | INS_EOR_ABSY | INS_ORA_ABSY | INS_AND_INDX | INS_EOR_INDX
    | INS_ORA_INDX | INS_AND_INDY | INS_EOR_INDY | INS_ORA_INDY | INS_ADC_IM
    | INS_ADC_ZP | INS_ADC_ZPX | INS_ADC_ABS | INS_ADC_ABSX | INS_ADC_ABSY
    | INS_ADC_INDX | INS_ADC_INDY | INS_SBC_IM | INS_SBC_ZP | INS_SBC_ZPX | INS_SBC_ABS
    | INS_SBC_ABSX | INS_SBC_ABSY | INS_SBC_INDX | INS_SBC_INDY | INS_TXA | INS_TYA
    | INS_PLA | INS_ASL_ACC | INS_LSR_ACC | INS_ROL_ACC | INS_ROR_ACC => some .A
  | INS_LDX_IM | INS_LDX_ZP | INS_LDX_ZPY | INS_LDX_ABS | INS_LDX_ABSY | INS_TAX
    | INS_TSX | INS_INX | INS_DEX => some .X
  | INS_LDY_IM | INS_LDY_ZP | INS_LDY_ZPX | INS_LDY_ABS | INS_LDY_ABSX | INS_TAY
    | INS_INY | INS_DEY => some .Y
  | _ => none

/-- The length in bytes of the instructions other than JMP, JSR, RTS, RTI and
BRK: 1 for the implied and accumulator forms, 2 for the immediate, zero-page,
zero-page-indexed, (indirect,X), (indirect),Y and relative forms, 3 for the
absolute and absolute-indexed forms. -/
def instructionLength : Ins → Option Nat
  | INS_TSX | INS_TXS | INS_PHA | INS_PLA | INS_PHP | INS_PLP | INS_TAX | INS_TAY
    | INS_TXA | INS_TYA | INS_INX | INS_INY | INS_DEX | INS_DEY | INS_CLC | INS_CLD
    | INS_CLI | INS_CLV | INS_SEC | INS_SED | INS_SEI | INS_NOP | INS_ASL_ACC
    | INS_LSR_ACC | INS_ROL_ACC | INS_ROR_ACC => some 1
  | INS_LDA_IM | INS_LDX_IM | INS_LDY_IM | INS_LDA_ZP | INS_LDX_ZP | INS_LDY_ZP
    | INS_LDA_ZPX | INS_LDX_ZPY | INS_LDY_ZPX | INS_LDA_INDX | INS_LDA_INDY | INS_STA_ZP
    | INS_STX_ZP | INS_STY_ZP | INS_STA_ZPX | INS_STX_ZPY | INS_STY_ZPX | INS_STA_INDX
    | INS_STA_INDY | INS_AND_IM | INS_EOR_IM | INS_ORA_IM | INS_AND_ZP | INS_EOR_ZP
    | INS_ORA_ZP | INS_AND_ZPX | INS_EOR_ZPX | INS_ORA_ZPX | INS_AND_INDX | INS_EOR_INDX
    | INS_ORA_INDX | INS_AND_INDY | INS_EOR_INDY | INS_ORA_INDY | INS_BIT_ZP
    | INS_INC_ZP | INS_INC_ZPX | INS_DEC_ZP | INS_DEC_ZPX | INS_BEQ | INS_BNE | INS_BCC
    | INS_BCS | INS_BMI | INS_BPL | INS_BVS | INS_BVC | INS_ADC_IM | INS_ADC_ZP
    | INS_ADC_ZPX | INS_ADC_INDX | INS_ADC_INDY | INS_CMP_IM | INS_CMP_ZP | INS_CMP_ZPX
    | INS_CMP_INDX | INS_CMP_INDY | INS_CPX_IM | INS_CPX_ZP | INS_CPY_IM | INS_CPY_ZP
    | INS_SBC_IM | INS_SBC_ZP | INS_SBC_ZPX | INS_SBC_INDX | INS_SBC_INDY | INS_ASL_ZP
    | INS_ASL_ZPX | INS_LSR_ZP | INS_LSR_ZPX | INS_ROL_ZP | INS_ROL_ZPX | INS_ROR_ZP
    | INS_ROR_ZPX => some 2
  | INS_LDA_ABS | INS_LDX_ABS | INS_LDY_ABS | INS_LDA_ABSX | INS_LDA_ABSY | INS_LDX_ABSY
    | INS_LDY_ABSX | INS_STA_ABS | INS_STX_ABS | INS_STY_ABS | INS_STA_ABSX
    | INS_STA_ABSY | INS_AND_ABS | INS_EOR_ABS | INS_ORA_ABS | INS_AND_ABSX
    | INS_EOR_ABSX | INS_ORA_ABSX | INS_AND_ABSY | INS_EOR_ABSY | INS_ORA_ABSY
    | INS_BIT_ABS | INS_INC_ABS | INS_INC_ABSX | INS_DEC_ABS | INS_DEC_ABSX
    | INS_ADC_ABS | INS_ADC_ABSX | INS_ADC_ABSY | INS_CMP_ABS | INS_CMP_ABSX
    | INS_CMP_ABSY | INS_CPX_ABS | INS_CPY_ABS | INS_SBC_ABS | INS_SBC_ABSX
    | INS_SBC_ABSY | INS_ASL_ABS | INS_ASL_ABSX | INS_LSR_ABS | INS_LSR_ABSX
    | INS_ROL_ABS | INS_ROL_ABSX | INS_ROR_ABS | INS_ROR_ABSX => some 3
  | _ => none

/-- How a call of `LoadProg` stands after a bounded number of loop
iterations: it has returned `loadAddr` and left `memory`, or its `for` loop
is still running with the loop variable `i`, the buffer index `at_` and the
memory written so far. -/
inductive Loading where
  | returned (loadAddr : Nat) (memory : Mem)
  | running (i : Nat) (at_ : Nat) (memory : Mem)

/-- The `for` loop of `CPU::LoadProg`, run for at most `fuel` iterations.
`bound` is the value of `loadAddr + numBytes - 2`, an `unsigned int`; the
loop variable `i` is a `Word`, so `++i` wraps at 65536; `at_` is the `u32`
index `at`. `prog k` is the byte that `prog[k]` reads. -/
def LoadProgLoop (prog : Nat → Nat) (loadAddr bound : Nat) : Nat → Nat → Nat → Mem → Loading
  | 0, i, at_, memory =>
    if i < bound then .running i at_ memory else .returned loadAddr memory
  | fuel + 1, i, at_, memory =>
    if i < bound then
      LoadProgLoop prog loadAddr bound fuel ((i + 1) % 65536) ((at_ + 1) % 4294967296)
        (memory.write i (prog at_))
    else .returned loadAddr memory

/-- The function `CPU::LoadProg`, its loop run for at most `fuel` iterations;
`prog = none` is the null pointer. The two `at++` of the initialiser of
`loadAddr` are taken from left to right. -/
def LoadProg (fuel : Nat) (prog : Option (Nat → Nat)) (numBytes : Nat) (memory : Mem) :
    Loading :=
  match prog with
  | some p =>
    let loadAddr := (p 0 ||| (p 1 <<< 8)) % 65536
    let bound := ((((loadAddr : Nat) : Int) + (numBytes : Int) - 2) % 4294967296).toNat
    LoadProgLoop p loadAddr bound fuel loadAddr 2 memory
  | none => .returned 0 memory

/-- The buffer that holds `bytes` and, read past its end, zeros. -/
def bufferOf (bytes : List Nat) : Nat → Nat :=
  fun k => bytes.getD k 0

/-- The (indirect,X) effective address as the claim words it: with
z = (op + X) mod 256, the value memory[z] | memory[(z + 1) mod 256] << 8,
both pointer bytes taken from the zero page. -/
def zeroPageWrappedPointer (memory : Mem) (op x : Nat) : Nat :=
  memory.Data ((op + x) % 256) ||| (memory.Data (((op + x) % 256 + 1) % 256) <<< 8)

/-- A memory whose every cell holds `v`. -/
def memFill (v : Nat) : Mem := ⟨fun _ => v⟩

/-- The machine `s` with `d` more cycles on its counter. -/
def shift (d : Int) (s : Machine) : Machine :=
  { s with cycles := s.cycles + d }

/-! ## Cycle accounting of the accessors, addressing modes and lambdas -/

@[simp] theorem FetchByte_cycles (s : Machine) : (FetchByte s).2.cycles = s.cycles - 1 := rfl

@[simp] theorem FetchWord_cycles (s : Machine) : (FetchWord s).2.cycles = s.cycles - 2 := rfl

@[simp] theorem ReadByte_cycles (a : Nat) (s : Machine) :
    (ReadByte a s).2.cycles = s.cycles - 1 := rfl

@[simp] theorem ReadWord_cycles (a : Nat) (s : Machine) :
    (ReadWord a s).2.cycles = s.cycles - 1 - 1 := rfl

@[simp] theorem WriteByte_cycles (v a : Nat) (s : Machine) :
    (WriteByte v a s).cycles = s.cycles - 1 := rfl

@[simp] theorem AddrZeroPage_cycles (s : Machine) :
    (AddrZeroPage s).2.cycles = s.cycles - 1 := rfl

@[simp] theorem AddrZeroPageXY_cycles (r : Nat) (s : Machine) :
    (AddrZeroPageXY r s).2.cycles = s.cycles - 1 - 1 := rfl

@[simp] theorem AddrAbsolute_cycles (s : Machine) :
    (AddrAbsolute s).2.cycles = s.cycles - 2 := rfl

theorem AddrAbsoluteXY_cycles (r : Nat) (s : Machine) :
    (AddrAbsoluteXY r s).2.cycles = s.cycles - 2 ∨
      (AddrAbsoluteXY r s).2.cycles = s.cycles - 3 := by
  unfold AddrAbsoluteXY
  dsimp only
  split
  · right; show s.cycles - 2 - 1 = _; omega
  · left; rfl

@[simp] theorem AddrAbsoluteXY_5_cycles (r : Nat) (s : Machine) :
    (AddrAbsoluteXY_5 r s).2.cycles = s.cycles - 2 - 1 := rfl

@[simp] theorem AddrIndirectX_cycles (s : Machine) :
    (AddrIndirectX s).2.cycles = s.cycles - 1 - 1 - 1 - 1 := rfl

theorem AddrIndirectY_cycles (s : Machine) :
    (AddrIndirectY s).2.cycles = s.cycles - 3 ∨ (AddrIndirectY s).2.cycles = s.cycles - 4 := by
  unfold AddrIndirectY
  dsimp only
  split
  · right; show s.cycles - 1 - 1 - 1 - 1 = _; omega
  · left; show s.cycles - 1 - 1 - 1 = _; omega

@[simp] theorem AddrIndirectY_6_cycles (s : Machine) :
    (AddrIndirectY_6 s).2.cycles = s.cycles - 1 - 1 - 1 - 1 := rfl

@[simp] theorem LoadRegister_cycles (a : Nat) (f : Nat → CPU → CPU) (s : Machine) :
    (LoadRegister a f s).cycles = s.cycles - 1 := rfl

@[simp] theorem And_cycles (a : Nat) (s : Machine) : (And a s).cycles = s.cycles - 1 := rfl

@[simp] theorem Eor_cycles (a : Nat) (s : Machine) : (Eor a s).cycles = s.cycles - 1 := rfl

@[simp] theorem Ora_cycles (a : Nat) (s : Machine) : (Ora a s).cycles = s.cycles - 1 := rfl

@[simp] theorem Bit_cycles (a : Nat) (s : Machine) : (Bit a s).cycles = s.cycles - 1 := rfl

@[simp] theorem Inc_cycles (a : Nat) (s : Machine) : (Inc a s).cycles = s.cycles - 1 - 1 := rfl

@[simp] theorem Dec_cycles (a : Nat) (s : Machine) : (Dec a s).cycles = s.cycles - 1 - 1 := rfl

theorem BranchIf_cycles (p : CPU → Bool) (s : Machine) :
    s.cycles - 3 ≤ (BranchIf p s).cycles ∧ (BranchIf p s).cycles ≤ s.cycles - 1 := by
  unfold BranchIf
  dsimp only
  split
  · split
    · show s.cycles - 3 ≤ s.cycles - 1 - 1 - 1 ∧ s.cycles - 1 - 1 - 1 ≤ s.cycles - 1; omega
    · show s.cycles - 3 ≤ s.cycles - 1 - 1 ∧ s.cycles - 1 - 1 ≤ s.cycles - 1; omega
  · show s.cycles - 3 ≤ s.cycles - 1 ∧ s.cycles - 1 ≤ s.cycles - 1; omega

@[simp] theorem ASL_cycles (v : Nat) (s : Machine) : (ASL v s).2.cycles = s.cycles - 1 := rfl

@[simp] theorem LSR_cycles (v : Nat) (s : Machine) : (LSR v s).2.cycles = s.cycles - 1 := rfl

@[simp] theorem ROL_cycles (v : Nat) (s : Machine) : (ROL v s).2.cycles = s.cycles - 1 := rfl

@[simp] theorem ROR_cycles (v : Nat) (s : Machine) : (ROR v s).2.cycles = s.cycles - 1 := rfl

@[simp] theorem PushByteOntoStack_cycles (v : Nat) (s : Machine) :
    (PushByteOntoStack v s).cycles = s.cycles - 1 := rfl

@[simp] theorem PopByteFromStack_cycles (s : Machine) :
    (PopByteFromStack s).2.cycles = s.cycles - 1 := rfl

@[simp] theorem PushPCMinusOneToStack_cycles (s : Machine) :
    (PushPCMinusOneToStack s).cycles = s.cycles - 2 := rfl

@[simp] theorem PushPCPlusOneToStack_cycles (s : Machine) :
    (PushPCPlusOneToStack s).cycles = s.cycles - 2 := rfl

@[simp] theorem PushPSToStack_cycles (s : Machine) :
    (PushPSToStack s).cycles = s.cycles - 1 := rfl

@[simp] theorem PopPSFromStack_cycles (s : Machine) :
    (PopPSFromStack s).cycles = s.cycles - 1 := rfl

@[simp] theorem PopWordFromStack_cycles (s : Machine) :
    (PopWordFromStack s).2.cycles = s.cycles - 1 - 1 - 1 := rfl

set_option maxHeartbeats 4000000 in
/-- Every `case` body takes between 0 and 7 cycles off the counter that the
opcode fetch left. -/
theorem exec_cycles (i : Ins) (s : Machine) :
    s.cycles - 7 ≤ (exec i s).cycles ∧ (exec i s).cycles ≤ s.cycles := by
  have hX := AddrAbsoluteXY_cycles s.cpu.X s
  have hY := AddrAbsoluteXY_cycles s.cpu.Y s
  have hI := AddrIndirectY_cycles s
  cases i <;>
    simp only [exec, FetchByte_cycles, FetchWord_cycles, ReadByte_cycles, ReadWord_cycles,
      WriteByte_cycles, AddrZeroPage_cycles, AddrZeroPageXY_cycles, AddrAbsolute_cycles,
      AddrAbsoluteXY_5_cycles, AddrIndirectX_cycles, AddrIndirectY_6_cycles,
      LoadRegister_cycles, And_cycles, Eor_cycles, Ora_cycles, Bit_cycles, Inc_cycles,
      Dec_cycles, ASL_cycles, LSR_cycles, ROL_cycles, ROR_cycles, PushByteOntoStack_cycles,
      PopByteFromStack_cycles, PushPCMinusOneToStack_cycles, PushPCPlusOneToStack_cycles,
      PushPSToStack_cycles, PopPSFromStack_cycles, PopWordFromStack_cycles] <;>
    first
    | omega
    | exact ⟨le_trans (by omega) (BranchIf_cycles _ s).1,
        le_trans (BranchIf_cycles _ s).2 (by omega)⟩

/-- A completed iteration of the loop takes between 1 and 8 cycles. -/
theorem step_cycles {s s1 : Machine} (h : step s = .ok s1) :
    s.cycles - 8 ≤ s1.cycles ∧ s1.cycles ≤ s.cycles - 1 := by
  unfold step at h
  dsimp only at h
  split at h
  · rename_i i _
    injection h with h
    subst h
    have := exec_cycles i (FetchByte s).2
    rw [FetchByte_cycles] at this
    omega
  · cases h

/-- With a counter that is not positive the loop exits at once. -/
theorem ExecuteLoop_of_nonpos (fuel : Nat) (s : Machine) (h : s.cycles ≤ 0) :
    ExecuteLoop fuel s = .done s := by
  cases fuel <;> simp only [ExecuteLoop] <;> rw [if_neg (by omega)]

/-- The loop exits only with a counter that is not positive. -/
theorem ExecuteLoop_done_nonpos (fuel : Nat) (s final : Machine)
    (h : ExecuteLoop fuel s = .done final) : final.cycles ≤ 0 := by
  induction fuel generalizing s with
  | zero =>
    simp only [ExecuteLoop] at h
    split at h
    · cases h
    · injection h with h; subst h; omega
  | succ n ih =>
    simp only [ExecuteLoop] at h
    split at h
    · split at h
      · exact ih _ h
      · cases h
    · injection h with h; subst h; omega

/-- The last instruction leaves the counter no lower than -7. -/
theorem ExecuteLoop_done_overshoot (fuel : Nat) (s final : Machine) (hs : 0 < s.cycles)
    (h : ExecuteLoop fuel s = .done final) : -7 ≤ final.cycles := by
  induction fuel generalizing s with
  | zero =>
    simp only [ExecuteLoop] at h
    rw [if_pos hs] at h
    cases h
  | succ n ih =>
    simp only [ExecuteLoop] at h
    rw [if_pos hs] at h
    split at h
    · rename_i s1 hstep
      have hc := step_cycles hstep
      by_cases h1 : 0 < s1.cycles
      · exact ih s1 h1 h
      · rw [ExecuteLoop_of_nonpos n s1 (by omega)] at h
        injection h with h
        subst h
        omega
    · cases h

/-- As many iterations as the counter holds cycles are enough: the loop
never stops for want of iterations. -/
theorem ExecuteLoop_finishes (fuel : Nat) (s : Machine) (h : s.cycles ≤ fuel) :
    ExecuteLoop fuel s ≠ .unfinished := by
  induction fuel generalizing s with
  | zero =>
    simp only [ExecuteLoop]
    rw [if_neg (by simpa using h)]
    intro h'; cases h'
  | succ n ih =>
    simp only [ExecuteLoop]
    split
    · split
      · rename_i s1 hstep
        have hc := step_cycles hstep
        exact ih s1 (by push_cast at h; omega)
      · intro h'; cases h'
    · intro h'; cases h'

/-- The function `Execute` never stops for want of iterations. -/
theorem Execute_finishes (b : Int) (cpu : CPU) (memory : Mem) :
    Execute b cpu memory ≠ .unfinished := by
  have h := ExecuteLoop_finishes b.toNat ⟨b, cpu, memory⟩ (by show b ≤ (b.toNat : Int); omega)
  unfold Execute
  dsimp only
  split
  · intro h'; cases h'
  · intro h'; cases h'
  · rename_i h'; exact absurd h' h
/-! ## The value returned by `Execute` -/

/-- A value in the range of `s32` is left as it is. -/
theorem toS32_of_range (i : Int) (h1 : -2147483648 ≤ i) (h2 : i ≤ 2147483647) :
    toS32 i = i := by
  unfold toS32
  omega

/-- On a memory filled with the byte `A9` every iteration of the loop runs
`LDA #$A9`, which takes 2 cycles and leaves the memory as it is. -/
theorem step_memFill_LDA (c : Int) (cpu : CPU) :
    ∃ cpu1, step ⟨c, cpu, memFill 0xA9⟩ = .ok ⟨c - 2, cpu1, memFill 0xA9⟩ := by
  refine ⟨(exec INS_LDA_IM (FetchByte ⟨c, cpu, memFill 0xA9⟩).2).cpu, ?_⟩
  have e : c - 1 - 1 = c - 2 := by omega
  rw [← e]
  rfl

/-- On a memory filled with the byte `A9` the loop, started with an odd
counter 2k + 1, exits with the counter at -1. -/
theorem ExecuteLoop_memFill_LDA (k : Nat) :
    ∀ (fuel : Nat) (cpu : CPU), k + 1 ≤ fuel →
      ∃ cpu1, ExecuteLoop fuel ⟨2 * (k : Int) + 1, cpu, memFill 0xA9⟩
        = .done ⟨-1, cpu1, memFill 0xA9⟩ := by
  induction k with
  | zero =>
    intro fuel cpu hf
    obtain ⟨f, rfl⟩ : ∃ f, fuel = f + 1 := ⟨fuel - 1, by omega⟩
    obtain ⟨cpu1, hstep⟩ := step_memFill_LDA (2 * ((0 : Nat) : Int) + 1) cpu
    refine ⟨cpu1, ?_⟩
    simp only [ExecuteLoop]
    rw [if_pos (by show 2 * ((0 : Nat) : Int) + 1 > 0; omega), hstep]
    dsimp only
    rw [ExecuteLoop_of_nonpos f _ (by show 2 * ((0 : Nat) : Int) + 1 - 2 ≤ 0; omega)]
    congr 2
  | succ n ih =>
    intro fuel cpu hf
    obtain ⟨f, rfl⟩ : ∃ f, fuel = f + 1 := ⟨fuel - 1, by omega⟩
    obtain ⟨cpu1, hstep⟩ := step_memFill_LDA (2 * ((n + 1 : Nat) : Int) + 1) cpu
    obtain ⟨cpu2, h2⟩ := ih f cpu1 (by omega)
    refine ⟨cpu2, ?_⟩
    simp only [ExecuteLoop]
    rw [if_pos (by show 2 * ((n + 1 : Nat) : Int) + 1 > 0; omega), hstep]
    dsimp only
    have e : 2 * ((n + 1 : Nat) : Int) + 1 - 2 = 2 * (n : Int) + 1 := by push_cast; omega
    rw [e]
    exact h2

/-- On a memory filled with the byte `A9`, `Execute` with an odd budget
2k + 1 returns the `s32` of 2k + 1 - (-1). -/
theorem Execute_memFill_LDA (k : Nat) (cpu : CPU) :
    ∃ cpu1, Execute (2 * (k : Int) + 1) cpu (memFill 0xA9)
      = .done (toS32 (2 * (k : Int) + 1 - (-1)), cpu1, memFill 0xA9) := by
  obtain ⟨cpu1, h⟩ := ExecuteLoop_memFill_LDA k (2 * (k : Int) + 1).toNat cpu (by omega)
  refine ⟨cpu1, ?_⟩
  unfold Execute
  dsimp only
  rw [h]

/-- The value 2147483647 + 1 taken as an `s32`. -/
theorem toS32_wraps : toS32 (2147483647 - (-1)) = -2147483648 := rfl

/-- C1 fails for budgets next to the largest `s32`. On a memory filled with
the byte `A9` (`LDA #$A9`, 2 cycles) and with the budget 2147483647, the
loop exits with the counter at -1; the difference 2147483647 - (-1) is not
an `s32`, and `Execute` returns -2147483648, which is negative and below the
budget. -/
theorem Execute_returns_consumed_counterexample :
    (∃ cpu1, Execute 2147483647 (cpuAt 0x1000) (memFill 0xA9)
      = .done (-2147483648, cpu1, memFill 0xA9)) ∧
    ¬ ((2147483647 : Int) ≤ -2147483648) ∧ (-2147483648 : Int) < 0 := by
  refine ⟨?_, by decide, by decide⟩
  have h := Execute_memFill_LDA 1073741823 (cpuAt 0x1000)
  have e : 2 * ((1073741823 : Nat) : Int) + 1 = 2147483647 := by norm_num
  rw [e, toS32_wraps] at h
  exact h

/-- C1, amended. For a budget `b ≤ 0` the call returns 0 and leaves the CPU
and the memory as they were (nothing is fetched). For `0 < b ≤ 2147483640`,
whenever the call returns `c`, the loop has exited in a machine `final` that
carries the returned CPU and memory, `c = b - final.cycles`, and `c ≥ b`. -/
theorem Execute_returns_consumed (b : Int) (cpu : CPU) (memory : Mem) :
    (b ≤ 0 → Execute b cpu memory = .done (0, cpu, memory)) ∧
    (0 < b → b ≤ 2147483640 → ∀ (c : Int) (cpu1 : CPU) (memory1 : Mem),
      Execute b cpu memory = .done (c, cpu1, memory1) →
      ∃ final : Machine, ExecuteLoop b.toNat ⟨b, cpu, memory⟩ = .done final ∧
        final.cpu = cpu1 ∧ final.memory = memory1 ∧ c = b - final.cycles ∧ b ≤ c) := by
  constructor
  · intro hb
    unfold Execute
    dsimp only
    rw [ExecuteLoop_of_nonpos _ _ (by exact hb)]
    dsimp only
    rw [sub_self]
    rfl
  · intro hb hmax c cpu1 memory1 h
    unfold Execute at h
    dsimp only at h
    split at h
    · rename_i final hloop
      injection h with h
      injection h with h1 h2
      injection h2 with h2 h3
      have hn := ExecuteLoop_done_nonpos _ _ _ hloop
      have ho := ExecuteLoop_done_overshoot _ _ _ (by exact hb) hloop
      rw [toS32_of_range _ (by omega) (by omega)] at h1
      exact ⟨final, hloop, h2, h3, h1.symm, by omega⟩
    · cases h
    · cases h

/-- C1 amended, at concrete inputs: budget 0 on `LDA #0` returns 0 and
changes nothing; budget 2 on the same program returns 2. -/
theorem Execute_returns_consumed_witness :
    Execute 0 (cpuAt 0x1000) (memOf 0x1000 [0xA9, 0x00]) =
        .done (0, cpuAt 0x1000, memOf 0x1000 [0xA9, 0x00]) ∧
    (Execute 2 (cpuAt 0x1000) (memOf 0x1000 [0xA9, 0x00]) =
        .done (2, { cpuAt 0x1002 with Z := true }, memOf 0x1000 [0xA9, 0x00]) ∧
     ∃ final : Machine,
        ExecuteLoop (2 : Int).toNat ⟨2, cpuAt 0x1000, memOf 0x1000 [0xA9, 0x00]⟩ = .done final ∧
        final.cpu = { cpuAt 0x1002 with Z := true } ∧
        final.memory = memOf 0x1000 [0xA9, 0x00] ∧
        (2 : Int) = 2 - final.cycles ∧ (2 : Int) ≤ 2) :=
  ⟨(Execute_returns_consumed 0 (cpuAt 0x1000) (memOf 0x1000 [0xA9, 0x00])).1 (by decide),
   rfl,
   (Execute_returns_consumed 2 (cpuAt 0x1000) (memOf 0x1000 [0xA9, 0x00])).2 (by decide)
     (by decide) 2 { cpuAt 0x1002 with Z := true } (memOf 0x1000 [0xA9, 0x00]) rfl⟩

/-- C2 fails as stated: with budget 1, `LDA $0000` (opcode `AD`, 4 cycles)
makes `Execute` return 4, which is more than 1 + 2. -/
theorem Execute_overshoot_counterexample :
    Execute 1 (cpuAt 0x1000) (memOf 0x1000 [0xAD, 0x00, 0x00]) =
        .done (4, { cpuAt 0x1003 with Z := true }, memOf 0x1000 [0xAD, 0x00, 0x00]) ∧
    ¬ ((4 : Int) ≤ 1 + 2) :=
  ⟨rfl, by decide⟩

/-- C2, amended. Whenever `Execute` with a budget `0 < b ≤ 2147483640`
returns `c`, `b ≤ c ≤ b + 7`: the last instruction is run to its end, no
instruction takes more than 8 cycles, and up to that budget the difference
returned is an `s32`. -/
theorem Execute_overshoot_le (b : Int) (cpu : CPU) (memory : Mem) (hb : 0 < b)
    (hmax : b ≤ 2147483640) (r : Int × CPU × Mem) (h : Execute b cpu memory = .done r) :
    b ≤ r.1 ∧ r.1 ≤ b + 7 := by
  unfold Execute at h
  dsimp only at h
  split at h
  · rename_i final hloop
    injection h with h
    subst h
    have h1 := ExecuteLoop_done_nonpos _ _ _ hloop
    have h2 := ExecuteLoop_done_overshoot _ _ _ (by exact hb) hloop
    dsimp only
    rw [toS32_of_range _ (by omega) (by omega)]
    omega
  · cases h
  · cases h

/-- C2 amended, at a concrete input: budget 1 on `LDA $0000` returns 4. -/
theorem Execute_overshoot_le_witness :
    Execute 1 (cpuAt 0x1000) (memOf 0x1000 [0xAD, 0x00, 0x00]) =
        .done (4, { cpuAt 0x1003 with Z := true }, memOf 0x1000 [0xAD, 0x00, 0x00]) ∧
    ((1 : Int) ≤ 4 ∧ (4 : Int) ≤ 1 + 7) :=
  ⟨rfl, Execute_overshoot_le 1 (cpuAt 0x1000) (memOf 0x1000 [0xAD, 0x00, 0x00]) (by decide)
    (by decide) (4, { cpuAt 0x1003 with Z := true }, memOf 0x1000 [0xAD, 0x00, 0x00]) rfl⟩

/-- The bound of 7 is met: with budget 1 and X = 0xFF, `INC $0000,X` (opcode
`FE`) takes 8 cycles. -/
theorem Execute_overshoot_attained :
    ∃ cpu1 memory1, Execute 1 { cpuAt 0x1000 with X := 0xFF } (memOf 0x1000 [0xFE, 0x00, 0x00]) =
        .done (8, cpu1, memory1) :=
  ⟨_, _, rfl⟩

/-! ## Decode errors -/

/-- A loop that throws has come to an instruction boundary with a positive
counter and an opcode byte outside the switch. -/
theorem ExecuteLoop_thrown_boundary (fuel : Nat) (s : Machine) (code : Int) (c : CPU) (m : Mem)
    (h : ExecuteLoop fuel s = .thrown code c m) :
    ∃ t, Boundary s t ∧ 0 < t.cycles ∧ decode (t.memory.Data t.cpu.PC) = none := by
  induction fuel generalizing s with
  | zero =>
    simp only [ExecuteLoop] at h
    split at h <;> cases h
  | succ n ih =>
    simp only [ExecuteLoop] at h
    split at h
    · rename_i hs
      split at h
      · rename_i s1 hstep
        obtain ⟨t, ht, hpos, hdec⟩ := ih s1 h
        exact ⟨t, Boundary.next hs hstep ht, hpos, hdec⟩
      · rename_i e hstep
        refine ⟨s, Boundary.here s, hs, ?_⟩
        unfold step at hstep
        dsimp only at hstep
        split at hstep
        · cases hstep
        · rename_i hd
          exact hd
    · cases h

/-- A loop that comes to an instruction boundary with a positive counter and
an opcode byte outside the switch throws. -/
theorem ExecuteLoop_boundary_thrown {s t : Machine} (hb : Boundary s t) (hpos : 0 < t.cycles)
    (hdec : decode (t.memory.Data t.cpu.PC) = none) (fuel : Nat) (hf : s.cycles ≤ fuel) :
    ∃ code c m, ExecuteLoop fuel s = .thrown code c m := by
  induction hb generalizing fuel with
  | here s =>
    cases fuel with
    | zero => simp at hf; omega
    | succ n =>
      simp only [ExecuteLoop]
      rw [if_pos hpos]
      have hstep : step s = .error (-1) := by
        unfold step
        dsimp only
        have : decode (FetchByte s).1 = none := hdec
        rw [this]
      rw [hstep]
      exact ⟨_, _, _, rfl⟩
  | next hs hstep _ ih =>
    rename_i s0 s1 t0
    cases fuel with
    | zero => simp at hf; omega
    | succ n =>
      simp only [ExecuteLoop]
      rw [if_pos hs, hstep]
      have hc := step_cycles hstep
      exact ih hpos hdec n (by push_cast at hf; omega)

/-- C3. `Execute` throws exactly when the run comes to an instruction
boundary with a strictly positive counter and a byte at PC that no `case` of
the switch handles; and a call that does not throw returns normally. -/
theorem Execute_thrown_iff (b : Int) (cpu : CPU) (memory : Mem) :
    ((∃ code c m, Execute b cpu memory = .thrown code c m) ↔
      ∃ t, Boundary ⟨b, cpu, memory⟩ t ∧ 0 < t.cycles ∧
        decode (t.memory.Data t.cpu.PC) = none) ∧
    ((¬ ∃ code c m, Execute b cpu memory = .thrown code c m) →
      ∃ r, Execute b cpu memory = .done r) := by
  constructor
  · constructor
    · rintro ⟨code, c, m, h⟩
      unfold Execute at h
      dsimp only at h
      split at h
      · cases h
      · rename_i hloop
        exact ExecuteLoop_thrown_boundary _ _ _ _ _ hloop
      · cases h
    · rintro ⟨t, hb, hpos, hdec⟩
      obtain ⟨code, c, m, h⟩ := ExecuteLoop_boundary_thrown hb hpos hdec b.toNat
        (by show b ≤ (b.toNat : Int); omega)
      exact ⟨code, c, m, by unfold Execute; dsimp only; rw [h]⟩
  · intro hn
    have hfin := Execute_finishes b cpu memory
    cases hres : Execute b cpu memory with
    | done r => exact ⟨r, rfl⟩
    | thrown code c m => exact absurd ⟨code, c, m, hres⟩ hn
    | unfinished => exact absurd hres hfin

/-- C3 at a concrete input: the byte `02` is no opcode of the switch, so with
budget 1 the call throws; with the opcode `A9` in its place it returns. -/
theorem Execute_thrown_iff_witness :
    (∃ code c m, Execute 1 (cpuAt 0x1000) (memOf 0x1000 [0x02]) = .thrown code c m) ∧
    (∃ r, Execute 1 (cpuAt 0x1000) (memOf 0x1000 [0xA9, 0x00]) = .done r) :=
  ⟨(Execute_thrown_iff 1 (cpuAt 0x1000) (memOf 0x1000 [0x02])).1.2
      ⟨_, Boundary.here _, by decide, rfl⟩,
   (Execute_thrown_iff 1 (cpuAt 0x1000) (memOf 0x1000 [0xA9, 0x00])).2
      (by rintro ⟨code, c, m, h⟩; cases h)⟩

/-- The throw of the `default` label at a concrete input: with budget 1 on
the byte `02` the call throws -1, the PC having moved past the byte. -/
theorem Execute_thrown_example :
    Execute 1 (cpuAt 0x1000) (memOf 0x1000 [0x02]) =
      .thrown (-1) (cpuAt 0x1001) (memOf 0x1000 [0x02]) :=
  rfl

/-! ## Reset -/

/-- After `n` iterations of the loop of `Initialise` the cells below `n` hold
0 and the others are as before. -/
theorem InitialiseLoop_Data (n : Nat) (memory : Mem) (a : Nat) :
    (Mem.InitialiseLoop n memory).Data a = if a < n then 0 else memory.Data a := by
  induction n with
  | zero => simp [Mem.InitialiseLoop]
  | succ k ih =>
    simp only [Mem.InitialiseLoop, Mem.write]
    by_cases h : a = k
    · subst h; simp
    · rw [if_neg h, ih]
      by_cases h1 : a < k
      · rw [if_pos h1, if_pos (by omega)]
      · rw [if_neg h1, if_neg (by omega)]

/-- C4. After `Reset(pc, memory)`, whatever the CPU and the memory held:
PC = pc, SP = 0xFF, A = X = Y = 0, the flags C, Z, I, D, B, V, N are 0, and
each of the 65,536 cells of the memory is 0. -/
theorem Reset_state (pc : Nat) (cpu : CPU) (memory : Mem) :
    (Reset pc cpu memory).1.PC = pc ∧ (Reset pc cpu memory).1.SP = 0xFF ∧
    (Reset pc cpu memory).1.A = 0 ∧ (Reset pc cpu memory).1.X = 0 ∧
    (Reset pc cpu memory).1.Y = 0 ∧
    (Reset pc cpu memory).1.C = false ∧ (Reset pc cpu memory).1.Z = false ∧
    (Reset pc cpu memory).1.I = false ∧ (Reset pc cpu memory).1.D = false ∧
    (Reset pc cpu memory).1.B = false ∧ (Reset pc cpu memory).1.V = false ∧
    (Reset pc cpu memory).1.N = false ∧
    (∀ a, a < 65536 → (Reset pc cpu memory).2.Data a = 0) := by
  refine ⟨rfl, rfl, rfl, rfl, rfl, rfl, rfl, rfl, rfl, rfl, rfl, rfl, ?_⟩
  intro a ha
  show (Mem.InitialiseLoop Mem.MAX_MEM memory).Data a = 0
  rw [InitialiseLoop_Data, if_pos (by simpa [Mem.MAX_MEM] using ha)]

/-- C4 at a concrete input: a reset at 0x1000 of a CPU and a memory that hold
other values. -/
theorem Reset_state_witness :
    (Reset 0x1000 { cpuAt 0x2000 with A := 7, C := true } (memOf 0 [1, 2, 3])).1.PC = 0x1000 ∧
    (Reset 0x1000 { cpuAt 0x2000 with A := 7, C := true } (memOf 0 [1, 2, 3])).1.A = 0 ∧
    (Reset 0x1000 { cpuAt 0x2000 with A := 7, C := true } (memOf 0 [1, 2, 3])).1.C = false ∧
    (Reset 0x1000 { cpuAt 0x2000 with A := 7, C := true } (memOf 0 [1, 2, 3])).2.Data 1 = 0 := by
  have h := Reset_state 0x1000 { cpuAt 0x2000 with A := 7, C := true } (memOf 0 [1, 2, 3])
  exact ⟨h.1, h.2.2.1, h.2.2.2.2.2.1, h.2.2.2.2.2.2.2.2.2.2.2.2 1 (by decide)⟩

/-! ## Bytes and bits -/

theorem and_255 (x : Nat) : x &&& 0xFF = x % 256 :=
  Nat.and_pow_two_sub_one_eq_mod x 8

theorem and_128 (x : Nat) : x &&& 0b10000000 = (x.testBit 7).toNat * 128 :=
  Nat.and_two_pow x 7

theorem and_128_pos (x : Nat) : decide (x &&& 0b10000000 > 0) = x.testBit 7 := by
  rw [and_128]
  cases x.testBit 7 <;> simp

theorem and_NegativeFlag_pos (x : Nat) : decide (x &&& NegativeFlag > 0) = x.testBit 7 :=
  and_128_pos x

set_option maxRecDepth 100000 in
theorem xor_255 (m : Nat) (h : m < 256) : m ^^^ 0xFF = 255 - m := by
  have key : ∀ k, k < 256 → k ^^^ 0xFF = 255 - k := by decide
  exact key m h

theorem word_or (lo hi : Nat) (hlo : lo < 256) (hhi : hi < 256) :
    (lo ||| hi <<< 8) % 65536 = lo + 256 * hi := by
  have h := Nat.mul_add_lt_is_or (i := 8) (b := lo) (by simpa using hlo) hi
  rw [Nat.shiftLeft_eq, Nat.lor_comm, Nat.mul_comm hi, ← h]
  omega

/-! ## ADC and SBC -/

/-- The low byte of the sum that `ADC` forms. -/
theorem ADC_A (operand : Nat) (cpu : CPU) :
    (ADC operand cpu).A = (cpu.A + operand + cpu.C.toNat) % 256 := by
  show ((cpu.A % 65536 + cpu.C.toNat) % 65536 + operand) % 65536 &&& 0xFF = _
  rw [and_255]
  omega

/-- The carry that `ADC` leaves, for byte operands. -/
theorem ADC_C (operand : Nat) (cpu : CPU) (hA : cpu.A < 256) (hm : operand < 256) :
    (ADC operand cpu).C = decide (cpu.A + operand + cpu.C.toNat > 255) := by
  have hC : cpu.C.toNat ≤ 1 := by cases cpu.C <;> simp
  show decide (((cpu.A % 65536 + cpu.C.toNat) % 65536 + operand) % 65536 > 0xFF) = _
  congr 1
  apply propext
  omega

/-- C5. For an accumulator `A` and an operand `m` that are bytes and any
carry-in `C` (the D flag plays no part), `ADC` leaves
`A' = (A + m + C) mod 256`, `C' = 1` iff `A + m + C > 255`, `Z' = 1` iff
`A' = 0`, and `N'` equal to bit 7 of `A'`. The immediate form `ADC #m` takes
`m` from the byte after the opcode. -/
theorem ADC_result (operand : Nat) (cpu : CPU) (hA : cpu.A < 256) (hm : operand < 256) :
    (ADC operand cpu).A = (cpu.A + operand + cpu.C.toNat) % 256 ∧
    (ADC operand cpu).C = decide (cpu.A + operand + cpu.C.toNat > 255) ∧
    (ADC operand cpu).Z = decide ((ADC operand cpu).A = 0) ∧
    (ADC operand cpu).N = (ADC operand cpu).A.testBit 7 ∧
    (∀ s : Machine, s.cpu = cpu → s.memory.Data ((s.cpu.PC + 1) % 65536) = operand →
      (exec INS_ADC_IM (FetchByte s).2).cpu =
        ADC operand { cpu with PC := ((cpu.PC + 1) % 65536 + 1) % 65536 }) := by
  refine ⟨ADC_A operand cpu, ADC_C operand cpu hA hm, rfl, and_NegativeFlag_pos _, ?_⟩
  intro s hs hop
  subst hs
  rw [← hop]
  rfl

/-- C5 at the spec's scenario: A = 0x50, C = 0, `ADC #0x50` gives A = 0xA0,
C = 0, Z = 0, N = 1 (and V = 1). -/
theorem ADC_result_witness :
    (ADC 0x50 { cpuAt 0x1000 with A := 0x50 }).A = 0xA0 ∧
    (ADC 0x50 { cpuAt 0x1000 with A := 0x50 }).C = false ∧
    (ADC 0x50 { cpuAt 0x1000 with A := 0x50 }).Z = false ∧
    (ADC 0x50 { cpuAt 0x1000 with A := 0x50 }).N = true ∧
    (ADC 0x50 { cpuAt 0x1000 with A := 0x50 }).V = true := by
  have h := ADC_result 0x50 { cpuAt 0x1000 with A := 0x50 } (by decide) (by decide)
  exact ⟨h.1, h.2.1, h.2.2.1, h.2.2.2.1, rfl⟩

/-- C6. The V flag that `ADC` computes with the sign-equality test equals the
overflow formula `((A_old ^ result) & (operand ^ result) & 0x80) != 0`, for
every accumulator, operand and carry-in. -/
theorem ADC_V_eq_overflowFormula (operand : Nat) (cpu : CPU) :
    (ADC operand cpu).V = overflowFormula cpu.A operand (ADC operand cpu).A := by
  show (decide (cpu.A &&& NegativeFlag = operand &&& NegativeFlag) &&
      decide ((ADC operand cpu).A &&& NegativeFlag ≠ cpu.A &&& NegativeFlag)) =
    (((cpu.A ^^^ (ADC operand cpu).A) &&& (operand ^^^ (ADC operand cpu).A) &&& 0x80) != 0)
  generalize (ADC operand cpu).A = r
  have e1 : cpu.A &&& NegativeFlag = (cpu.A.testBit 7).toNat * 128 := and_128 _
  have e2 : operand &&& NegativeFlag = (operand.testBit 7).toNat * 128 := and_128 _
  have e3 : r &&& NegativeFlag = (r.testBit 7).toNat * 128 := and_128 _
  have e4 : (cpu.A ^^^ r) &&& (operand ^^^ r) &&& 0x80 =
      (((cpu.A ^^^ r) &&& (operand ^^^ r)).testBit 7).toNat * 128 := and_128 _
  rw [e1, e2, e3, e4, Nat.testBit_and, Nat.testBit_xor, Nat.testBit_xor]
  cases cpu.A.testBit 7 <;> cases operand.testBit 7 <;> cases r.testBit 7 <;> decide

/-- C7. For an accumulator `A` and an operand `m` that are bytes and any
carry-in `C`, `SBC` (that is `ADC` of the complement of `m`) leaves
`A' = (A - m - (1 - C)) mod 256`, `C' = 1` iff `A ≥ m + (1 - C)`, `Z' = 1`
iff `A' = 0`, and `N'` equal to bit 7 of `A'`. -/
theorem SBC_result (operand : Nat) (cpu : CPU) (hA : cpu.A < 256) (hm : operand < 256) :
    ((SBC operand cpu).A : Int) =
      ((cpu.A : Int) - (operand : Int) - (1 - (cpu.C.toNat : Int))) % 256 ∧
    (SBC operand cpu).C = decide (cpu.A ≥ operand + (1 - cpu.C.toNat)) ∧
    (SBC operand cpu).Z = decide ((SBC operand cpu).A = 0) ∧
    (SBC operand cpu).N = (SBC operand cpu).A.testBit 7 := by
  have hC : cpu.C.toNat ≤ 1 := by cases cpu.C <;> simp
  have hx : (operand ^^^ 0xFF) % 256 = 255 - operand := by
    rw [xor_255 operand hm]; omega
  unfold SBC
  rw [hx]
  refine ⟨?_, ?_, rfl, and_NegativeFlag_pos _⟩
  · rw [ADC_A]; omega
  · rw [ADC_C (255 - operand) cpu hA (by omega)]
    congr 1
    apply propext
    omega

/-- C7 at the spec's scenario: A = 0x50, C = 1, `SBC #0xF0` gives A = 0x60
and C = 0 (borrow), Z = 0, N = 0. -/
theorem SBC_result_witness :
    ((SBC 0xF0 { cpuAt 0x1000 with A := 0x50, C := true }).A : Int) =
        ((0x50 : Int) - 0xF0 - (1 - 1)) % 256 ∧
    (SBC 0xF0 { cpuAt 0x1000 with A := 0x50, C := true }).C = false ∧
    (SBC 0xF0 { cpuAt 0x1000 with A := 0x50, C := true }).Z = false ∧
    (SBC 0xF0 { cpuAt 0x1000 with A := 0x50, C := true }).N = false := by
  have h := SBC_result 0xF0 { cpuAt 0x1000 with A := 0x50, C := true } (by decide) (by decide)
  exact ⟨h.1, h.2.1, h.2.2.1, h.2.2.2⟩

/-! ## What the addressing modes return -/

theorem AddrAbsoluteXY_fst (r : Nat) (s : Machine) :
    (AddrAbsoluteXY r s).1 = ((FetchWord s).1 + r) % 65536 := by
  unfold AddrAbsoluteXY
  dsimp only
  split <;> rfl

theorem AddrAbsoluteXY_cpu (r : Nat) (s : Machine) :
    (AddrAbsoluteXY r s).2.cpu = (FetchWord s).2.cpu := by
  unfold AddrAbsoluteXY
  dsimp only
  split <;> rfl

theorem AddrAbsoluteXY_memory (r : Nat) (s : Machine) :
    (AddrAbsoluteXY r s).2.memory = s.memory := by
  unfold AddrAbsoluteXY
  dsimp only
  split <;> rfl

theorem AddrIndirectY_fst (s : Machine) :
    (AddrIndirectY s).1 =
      ((ReadWord (FetchByte s).1 (FetchByte s).2).1 + s.cpu.Y) % 65536 := by
  unfold AddrIndirectY
  dsimp only
  split <;> rfl

theorem AddrIndirectY_cpu (s : Machine) :
    (AddrIndirectY s).2.cpu = (FetchByte s).2.cpu := by
  unfold AddrIndirectY
  dsimp only
  split <;> rfl

theorem AddrIndirectY_memory (s : Machine) :
    (AddrIndirectY s).2.memory = s.memory := by
  unfold AddrIndirectY
  dsimp only
  split <;> rfl

/-- The memory `memOf base bytes` is a memory of bytes when `bytes` is a list
of bytes. -/
theorem memOf_lt (base : Nat) (bytes : List Nat) (h : ∀ b ∈ bytes, b < 256) (a : Nat) :
    (memOf base bytes).Data a < 256 := by
  show (if base ≤ a then bytes.getD (a - base) 0 else 0) < 256
  split
  · rw [List.getD_eq_getElem?_getD]
    cases hb : bytes[a - base]? with
    | none => simp
    | some b => exact h b (List.getElem?_mem hb)
  · omega


/-- An iteration that fetches the opcode byte of the `case` labelled `i` runs
the body of that `case` on the machine the fetch left. -/
theorem step_of_decode (s : Machine) (i : Ins)
    (h : decode (s.memory.Data s.cpu.PC) = some i) : step s = .ok (exec i (FetchByte s).2) := by
  unfold step
  dsimp only
  have h1 : decode (FetchByte s).1 = some i := h
  rw [h1]

/-! ## Compares -/

/-- The flags that the lambda `Compare` sets, and what it leaves alone. -/
theorem Compare_flags (operand r : Nat) (cpu : CPU) :
    (Compare operand r cpu).C = decide (r ≥ operand) ∧
    (Compare operand r cpu).Z = decide (r = operand) ∧
    (Compare operand r cpu).N = ((((r : Int) - (operand : Int)) % 256).toNat).testBit 7 ∧
    (Compare operand r cpu).A = cpu.A ∧ (Compare operand r cpu).X = cpu.X ∧
    (Compare operand r cpu).Y = cpu.Y ∧ (Compare operand r cpu).SP = cpu.SP ∧
    (Compare operand r cpu).V = cpu.V ∧ (Compare operand r cpu).I = cpu.I ∧
    (Compare operand r cpu).D = cpu.D ∧ (Compare operand r cpu).B = cpu.B :=
  ⟨rfl, rfl, and_NegativeFlag_pos _, rfl, rfl, rfl, rfl, rfl, rfl, rfl, rfl⟩

set_option maxHeartbeats 4000000 in
/-- C8. Every compare opcode (CMP, CPX, CPY in each of its addressing modes),
run on a memory of bytes with register value `r` and operand `m`, sets
C = 1 iff r ≥ m, Z = 1 iff r = m and N to bit 7 of (r - m) mod 256, and
leaves A, X, Y, SP, V, I, D, B and the memory as they were. -/
theorem compare_instructions (i : Ins) (r : Reg) (mode : Mode) (s : Machine)
    (hi : (i, r, mode) ∈ compareOpcodes) (hmem : ∀ a, s.memory.Data a < 256) :
    (exec i (FetchByte s).2).cpu.C = decide (s.cpu.reg r ≥ operandOf mode s) ∧
    (exec i (FetchByte s).2).cpu.Z = decide (s.cpu.reg r = operandOf mode s) ∧
    (exec i (FetchByte s).2).cpu.N =
      ((((s.cpu.reg r : Int) - (operandOf mode s : Int)) % 256).toNat).testBit 7 ∧
    (exec i (FetchByte s).2).cpu.A = s.cpu.A ∧
    (exec i (FetchByte s).2).cpu.X = s.cpu.X ∧
    (exec i (FetchByte s).2).cpu.Y = s.cpu.Y ∧
    (exec i (FetchByte s).2).cpu.SP = s.cpu.SP ∧
    (exec i (FetchByte s).2).cpu.V = s.cpu.V ∧
    (exec i (FetchByte s).2).cpu.I = s.cpu.I ∧
    (exec i (FetchByte s).2).cpu.D = s.cpu.D ∧
    (exec i (FetchByte s).2).cpu.B = s.cpu.B ∧
    (exec i (FetchByte s).2).memory = s.memory := by
  have hw : ∀ a b, (s.memory.Data a ||| s.memory.Data b <<< 8) % 65536 =
      s.memory.Data a + 256 * s.memory.Data b := fun a b => word_or _ _ (hmem a) (hmem b)
  simp only [compareOpcodes, List.mem_cons, List.mem_singleton, Prod.mk.injEq,
    List.not_mem_nil, or_false] at hi
  rcases hi with h | h | h | h | h | h | h | h | h | h | h | h | h | h <;>
    obtain ⟨rfl, rfl, rfl⟩ := h <;>
    simp only [exec, Compare, toByte, reg, operandOf,
      effectiveAddress, wordAt, FetchByte, FetchWord, ReadByte, ReadWord, AddrZeroPage,
      AddrZeroPageXY, AddrAbsolute, AddrAbsoluteXY_fst, AddrAbsoluteXY_cpu,
      AddrAbsoluteXY_memory, AddrIndirectX, AddrIndirectY_fst, AddrIndirectY_cpu,
      AddrIndirectY_memory, and_NegativeFlag_pos, hw, true_and, and_true, and_self]

/-- C8 at a concrete input: `CMP #0x50` with A = 0x40 clears C and Z and sets
N (0x40 - 0x50 = 0xF0 mod 256). -/
theorem compare_instructions_witness :
    (exec INS_CMP_IM (FetchByte ⟨2, { cpuAt 0x1000 with A := 0x40 },
        memOf 0x1000 [0xC9, 0x50]⟩).2).cpu.C = false ∧
    (exec INS_CMP_IM (FetchByte ⟨2, { cpuAt 0x1000 with A := 0x40 },
        memOf 0x1000 [0xC9, 0x50]⟩).2).cpu.Z = false ∧
    (exec INS_CMP_IM (FetchByte ⟨2, { cpuAt 0x1000 with A := 0x40 },
        memOf 0x1000 [0xC9, 0x50]⟩).2).cpu.N = true := by
  have h := compare_instructions INS_CMP_IM .A .IM
    ⟨2, { cpuAt 0x1000 with A := 0x40 }, memOf 0x1000 [0xC9, 0x50]⟩
    (by simp [compareOpcodes]) (memOf_lt _ _ (by decide))
  exact ⟨h.1, h.2.1, h.2.2.1⟩

/-! ## Loads -/

set_option maxHeartbeats 4000000 in
/-- The effect of a load instruction on a memory of bytes. -/
theorem load_effect (i : Ins) (r : Reg) (mode : Mode) (s : Machine)
    (hi : (i, r, mode) ∈ loadOpcodes) (hmem : ∀ a, s.memory.Data a < 256) :
    (exec i (FetchByte s).2).cpu.reg r = operandOf mode s ∧
    (exec i (FetchByte s).2).cpu.Z = decide (operandOf mode s = 0) ∧
    (exec i (FetchByte s).2).cpu.N = (operandOf mode s).testBit 7 ∧
    (∀ q, q ≠ r → (exec i (FetchByte s).2).cpu.reg q = s.cpu.reg q) ∧
    (exec i (FetchByte s).2).cpu.SP = s.cpu.SP ∧
    (exec i (FetchByte s).2).cpu.C = s.cpu.C ∧
    (exec i (FetchByte s).2).cpu.I = s.cpu.I ∧
    (exec i (FetchByte s).2).cpu.D = s.cpu.D ∧
    (exec i (FetchByte s).2).cpu.B = s.cpu.B ∧
    (exec i (FetchByte s).2).cpu.V = s.cpu.V ∧
    (exec i (FetchByte s).2).memory = s.memory := by
  have hw : ∀ a b, (s.memory.Data a ||| s.memory.Data b <<< 8) % 65536 =
      s.memory.Data a + 256 * s.memory.Data b := fun a b => word_or _ _ (hmem a) (hmem b)
  simp only [loadOpcodes, List.mem_cons, List.mem_singleton, Prod.mk.injEq, List.not_mem_nil,
    or_false] at hi
  rcases hi with h | h | h | h | h | h | h | h | h | h | h | h | h | h | h | h | h | h <;>
    obtain ⟨rfl, rfl, rfl⟩ := h <;>
    simp only [exec, LoadRegister, LoadRegisterSetStatus, setA, setX, setY, reg, operandOf,
      effectiveAddress, wordAt, FetchByte, FetchWord, ReadByte, ReadWord, AddrZeroPage,
      AddrZeroPageXY, AddrAbsolute, AddrAbsoluteXY_fst, AddrAbsoluteXY_cpu,
      AddrAbsoluteXY_memory, AddrIndirectX, AddrIndirectY_fst, AddrIndirectY_cpu,
      AddrIndirectY_memory, and_128_pos, hw, true_and, and_true, ne_eq] <;>
    (intro q hq; cases q <;> simp_all [reg])

/-- The instruction `LDA #v` run through `Execute` with budget 2. -/
theorem LDA_IM_Execute (cpu : CPU) (memory : Mem) (v : Nat)
    (hop : memory.Data cpu.PC = 0xA9) (hv : memory.Data ((cpu.PC + 1) % 65536) = v) :
    Execute 2 cpu memory =
      .done (2, { cpu with PC := (cpu.PC + 2) % 65536, A := v, Z := decide (v = 0),
                           N := v.testBit 7 }, memory) := by
  have hd : decode 0xA9 = some INS_LDA_IM := rfl
  have h2 : (2 : Int).toNat = 2 := rfl
  have hpc : ((cpu.PC + 1) % 65536 + 1) % 65536 = (cpu.PC + 2) % 65536 := by omega
  have h32 : toS32 2 = 2 := rfl
  simp [Execute, h2, h32, ExecuteLoop, step, FetchByte, hop, hd, exec, LoadRegisterSetStatus, setA,
    hv, hpc, and_128_pos]

/-- C9. Every load opcode (LDA, LDX, LDY in each of its addressing modes),
run on a memory of bytes, leaves in its target register the operand (the
byte after the opcode for the immediate mode, else the byte at the mode's
effective address; the pointer of an indirect mode is the word at its
zero-page address), sets Z iff that byte is 0 and N to its bit 7, and leaves
the other two general registers, SP, the flags C, I, D, B, V and the memory
as they were. And `LDA #v` at address `p` run with budget 2 gives A = v,
PC = (p + 2) mod 65536 and returns 2. -/
theorem load_instructions :
    (∀ (i : Ins) (r : Reg) (mode : Mode) (s : Machine),
      (i, r, mode) ∈ loadOpcodes → (∀ a, s.memory.Data a < 256) →
      (exec i (FetchByte s).2).cpu.reg r = operandOf mode s ∧
      (exec i (FetchByte s).2).cpu.Z = decide (operandOf mode s = 0) ∧
      (exec i (FetchByte s).2).cpu.N = (operandOf mode s).testBit 7 ∧
      (∀ q, q ≠ r → (exec i (FetchByte s).2).cpu.reg q = s.cpu.reg q) ∧
      (exec i (FetchByte s).2).cpu.SP = s.cpu.SP ∧
      (exec i (FetchByte s).2).cpu.C = s.cpu.C ∧
      (exec i (FetchByte s).2).cpu.I = s.cpu.I ∧
      (exec i (FetchByte s).2).cpu.D = s.cpu.D ∧
      (exec i (FetchByte s).2).cpu.B = s.cpu.B ∧
      (exec i (FetchByte s).2).cpu.V = s.cpu.V ∧
      (exec i (FetchByte s).2).memory = s.memory) ∧
    (∀ (p v : Nat) (cpu : CPU) (memory : Mem),
      cpu.PC = p → memory.Data p = 0xA9 → memory.Data ((p + 1) % 65536) = v →
      ∃ cpu1, Execute 2 cpu memory = .done (2, cpu1, memory) ∧
        cpu1.A = v ∧ cpu1.PC = (p + 2) % 65536) := by
  refine ⟨load_effect, ?_⟩
  intro p v cpu memory hp hop hv
  subst hp
  exact ⟨_, LDA_IM_Execute cpu memory v hop hv, rfl, rfl⟩

/-- C9 at concrete inputs: `LDA $10` with the byte 0x80 in cell 0x10 gives
A = 0x80, Z = 0, N = 1; the spec's scenario `A9 00` at 0x1000 with budget 2
gives A = 0, PC = 0x1002 and returns 2. -/
theorem load_instructions_witness :
    ((exec INS_LDA_ZP (FetchByte ⟨3, cpuAt 0x10, memOf 0x10 [0xA5, 0x10]⟩).2).cpu.A = 0xA5 ∧
     (exec INS_LDA_ZP (FetchByte ⟨3, cpuAt 0x10, memOf 0x10 [0xA5, 0x10]⟩).2).cpu.Z = false ∧
     (exec INS_LDA_ZP (FetchByte ⟨3, cpuAt 0x10, memOf 0x10 [0xA5, 0x10]⟩).2).cpu.N = true) ∧
    (∃ cpu1, Execute 2 (cpuAt 0x1000) (memOf 0x1000 [0xA9, 0x00]) =
        .done (2, cpu1, memOf 0x1000 [0xA9, 0x00]) ∧ cpu1.A = 0 ∧ cpu1.PC = 0x1002) := by
  have h := load_instructions.1 INS_LDA_ZP .A .ZP ⟨3, cpuAt 0x10, memOf 0x10 [0xA5, 0x10]⟩
    (by simp [loadOpcodes]) (memOf_lt _ _ (by decide))
  exact ⟨⟨h.1, h.2.1, h.2.2.1⟩,
    load_instructions.2 0x1000 0 (cpuAt 0x1000) (memOf 0x1000 [0xA9, 0x00]) rfl rfl rfl⟩

/-! ## Stores -/

set_option maxHeartbeats 4000000 in
/-- C10. Every store opcode (STA, STX, STY in each of its addressing modes),
run on a memory of bytes, leaves the source register's value in the cell at
the mode's effective address (the pointer of an indirect mode is the word at
its zero-page address), every other cell as it was, and A, X, Y, SP and the
seven flags as they were. -/
theorem store_instructions (i : Ins) (r : Reg) (mode : Mode) (s : Machine)
    (hi : (i, r, mode) ∈ storeOpcodes) (hmem : ∀ a, s.memory.Data a < 256) :
    (exec i (FetchByte s).2).memory.Data (effectiveAddress mode s.cpu.PC s.cpu s.memory) =
      s.cpu.reg r ∧
    (∀ a, a ≠ effectiveAddress mode s.cpu.PC s.cpu s.memory →
      (exec i (FetchByte s).2).memory.Data a = s.memory.Data a) ∧
    (exec i (FetchByte s).2).cpu.A = s.cpu.A ∧
    (exec i (FetchByte s).2).cpu.X = s.cpu.X ∧
    (exec i (FetchByte s).2).cpu.Y = s.cpu.Y ∧
    (exec i (FetchByte s).2).cpu.SP = s.cpu.SP ∧
    (exec i (FetchByte s).2).cpu.C = s.cpu.C ∧
    (exec i (FetchByte s).2).cpu.Z = s.cpu.Z ∧
    (exec i (FetchByte s).2).cpu.I = s.cpu.I ∧
    (exec i (FetchByte s).2).cpu.D = s.cpu.D ∧
    (exec i (FetchByte s).2).cpu.B = s.cpu.B ∧
    (exec i (FetchByte s).2).cpu.V = s.cpu.V ∧
    (exec i (FetchByte s).2).cpu.N = s.cpu.N := by
  have hw : ∀ a b, (s.memory.Data a ||| s.memory.Data b <<< 8) % 65536 =
      s.memory.Data a + 256 * s.memory.Data b := fun a b => word_or _ _ (hmem a) (hmem b)
  simp only [storeOpcodes, List.mem_cons, List.mem_singleton, Prod.mk.injEq,
    List.not_mem_nil, or_false] at hi
  rcases hi with h | h | h | h | h | h | h | h | h | h | h | h | h <;>
    obtain ⟨rfl, rfl, rfl⟩ := h <;>
    simp only [exec, WriteByte, Mem.write, reg,
      effectiveAddress, wordAt, FetchByte, FetchWord, ReadByte, ReadWord, AddrZeroPage,
      AddrZeroPageXY, AddrAbsolute, AddrAbsoluteXY_5, AddrIndirectX, AddrIndirectY_6,
      hw, true_and, and_true, and_self, if_true, ne_eq] <;>
    (intro a ha; rw [if_neg ha])

/-- C10 at a concrete input: `STA $1234` with A = 0x42 writes 0x42 to the
cell 0x1234 and leaves the cell 0x1235 alone. -/
theorem store_instructions_witness :
    (exec INS_STA_ABS (FetchByte ⟨4, { cpuAt 0x1000 with A := 0x42 },
        memOf 0x1000 [0x8D, 0x34, 0x12]⟩).2).memory.Data 0x1234 = 0x42 ∧
    (exec INS_STA_ABS (FetchByte ⟨4, { cpuAt 0x1000 with A := 0x42 },
        memOf 0x1000 [0x8D, 0x34, 0x12]⟩).2).memory.Data 0x1235 = 0 := by
  have h := store_instructions INS_STA_ABS .A .ABS
    ⟨4, { cpuAt 0x1000 with A := 0x42 }, memOf 0x1000 [0x8D, 0x34, 0x12]⟩
    (by simp [storeOpcodes]) (memOf_lt _ _ (by decide))
  exact ⟨h.1, h.2.1 0x1235 (by decide)⟩

/-! ## Branches -/

theorem SByte_eq_signExtend (d : Nat) (h : d < 256) : SByte d = signExtend d := by
  unfold SByte signExtend
  rw [Nat.mod_eq_of_lt h]

/-- A branch whose condition is false does the operand fetch and no more. -/
theorem BranchIf_not_taken (p : CPU → Bool) (s : Machine) (h : p (FetchByte s).2.cpu = false) :
    BranchIf p s = (FetchByte s).2 := by
  unfold BranchIf
  simp [h]

/-- The program counter after a taken branch. -/
theorem BranchIf_taken_PC (p : CPU → Bool) (s : Machine) (h : p (FetchByte s).2.cpu = true) :
    (BranchIf p s).cpu.PC =
      toWord (((FetchByte s).2.cpu.PC : Int) + SByte (FetchByte s).1) := by
  unfold BranchIf
  simp only [h, if_true]
  split <;> rfl

/-- The cycle counter after a taken branch. -/
theorem BranchIf_taken_cycles (p : CPU → Bool) (s : Machine)
    (h : p (FetchByte s).2.cpu = true) :
    (BranchIf p s).cycles =
      s.cycles - (if toWord (((FetchByte s).2.cpu.PC : Int) + SByte (FetchByte s).1) / 256 =
        (FetchByte s).2.cpu.PC / 256 then 2 else 3) := by
  unfold BranchIf
  simp only [h, if_true, Nat.shiftRight_eq_div_pow]
  by_cases hp : toWord (((FetchByte s).2.cpu.PC : Int) + SByte (FetchByte s).1) / 2 ^ 8 =
      (FetchByte s).2.cpu.PC / 2 ^ 8
  · rw [if_neg (not_not.mpr hp), if_pos (by simpa using hp)]
    show s.cycles - 1 - 1 = s.cycles - 2
    omega
  · rw [if_pos hp, if_neg (by simpa using hp)]
    show s.cycles - 1 - 1 - 1 = s.cycles - 3
    omega

/-- What a branch leaves alone, taken or not. -/
theorem BranchIf_frame (p : CPU → Bool) (s : Machine) :
    (BranchIf p s).cpu.A = s.cpu.A ∧ (BranchIf p s).cpu.X = s.cpu.X ∧
    (BranchIf p s).cpu.Y = s.cpu.Y ∧ (BranchIf p s).cpu.SP = s.cpu.SP ∧
    (BranchIf p s).cpu.C = s.cpu.C ∧ (BranchIf p s).cpu.Z = s.cpu.Z ∧
    (BranchIf p s).cpu.I = s.cpu.I ∧ (BranchIf p s).cpu.D = s.cpu.D ∧
    (BranchIf p s).cpu.B = s.cpu.B ∧ (BranchIf p s).cpu.V = s.cpu.V ∧
    (BranchIf p s).cpu.N = s.cpu.N ∧ (BranchIf p s).memory = s.memory := by
  unfold BranchIf
  dsimp only
  split
  · split <;> exact ⟨rfl, rfl, rfl, rfl, rfl, rfl, rfl, rfl, rfl, rfl, rfl, rfl⟩
  · exact ⟨rfl, rfl, rfl, rfl, rfl, rfl, rfl, rfl, rfl, rfl, rfl, rfl⟩

/-- The body of a branch `case` is `BranchIf` on the opcode's condition, and
the condition reads flags only. -/
theorem exec_branch (i : Ins) (pred : CPU → Bool) (s : Machine)
    (hi : (i, pred) ∈ branchOpcodes) :
    exec i s = BranchIf pred s ∧ ∀ c : CPU, ∀ pc : Nat, pred { c with PC := pc } = pred c := by
  simp only [branchOpcodes, List.mem_cons, List.mem_singleton, Prod.mk.injEq, List.not_mem_nil,
    or_false] at hi
  rcases hi with h | h | h | h | h | h | h | h <;>
    obtain ⟨rfl, rfl⟩ := h <;> exact ⟨rfl, fun _ _ => rfl⟩

/-- C11. A branch opcode at address `p` with displacement byte `d`: when its
condition is false, PC becomes (p + 2) mod 65536 and 2 cycles are consumed;
when it is true, PC becomes (p + 2 + s) mod 65536, `s` being `d`
sign-extended, and 3 cycles are consumed if the new PC lies on the 256-byte
page of (p + 2) mod 65536, 4 otherwise. A, X, Y, SP, the flags and the
memory are unchanged in both cases. -/
theorem branch_instructions (i : Ins) (pred : CPU → Bool) (s : Machine)
    (hi : (i, pred) ∈ branchOpcodes) (hmem : ∀ a, s.memory.Data a < 256) :
    (pred s.cpu = false →
      (exec i (FetchByte s).2).cpu.PC = (s.cpu.PC + 2) % 65536 ∧
      (exec i (FetchByte s).2).cycles = s.cycles - 2) ∧
    (pred s.cpu = true →
      ((exec i (FetchByte s).2).cpu.PC : Int) =
        ((s.cpu.PC : Int) + 2 + signExtend (s.memory.Data ((s.cpu.PC + 1) % 65536))) % 65536 ∧
      (exec i (FetchByte s).2).cycles =
        s.cycles - (if (exec i (FetchByte s).2).cpu.PC / 256 = (s.cpu.PC + 2) % 65536 / 256
          then 3 else 4)) ∧
    (exec i (FetchByte s).2).cpu.A = s.cpu.A ∧ (exec i (FetchByte s).2).cpu.X = s.cpu.X ∧
    (exec i (FetchByte s).2).cpu.Y = s.cpu.Y ∧ (exec i (FetchByte s).2).cpu.SP = s.cpu.SP ∧
    (exec i (FetchByte s).2).cpu.C = s.cpu.C ∧ (exec i (FetchByte s).2).cpu.Z = s.cpu.Z ∧
    (exec i (FetchByte s).2).cpu.I = s.cpu.I ∧ (exec i (FetchByte s).2).cpu.D = s.cpu.D ∧
    (exec i (FetchByte s).2).cpu.B = s.cpu.B ∧ (exec i (FetchByte s).2).cpu.V = s.cpu.V ∧
    (exec i (FetchByte s).2).cpu.N = s.cpu.N ∧
    (exec i (FetchByte s).2).memory = s.memory := by
  obtain ⟨he, hflags⟩ := exec_branch i pred (FetchByte s).2 hi
  have hp1 : pred (FetchByte (FetchByte s).2).2.cpu = pred s.cpu := by
    show pred { { s.cpu with PC := (s.cpu.PC + 1) % 65536 } with
      PC := ((s.cpu.PC + 1) % 65536 + 1) % 65536 } = pred s.cpu
    rw [hflags, hflags]
  have hpc : (FetchByte (FetchByte s).2).2.cpu.PC = (s.cpu.PC + 2) % 65536 := by
    show ((s.cpu.PC + 1) % 65536 + 1) % 65536 = _
    omega
  have hd : (FetchByte (FetchByte s).2).1 = s.memory.Data ((s.cpu.PC + 1) % 65536) := rfl
  rw [he]
  refine ⟨?_, ?_, ?_⟩
  · intro hf
    rw [BranchIf_not_taken pred _ (hp1.trans hf)]
    exact ⟨hpc, by show s.cycles - 1 - 1 = s.cycles - 2; omega⟩
  · intro ht
    have hpc1 := BranchIf_taken_PC pred (FetchByte s).2 (hp1.trans ht)
    have hcy := BranchIf_taken_cycles pred (FetchByte s).2 (hp1.trans ht)
    rw [hpc, hd, SByte_eq_signExtend _ (hmem _)] at hpc1 hcy
    rw [FetchByte_cycles] at hcy
    rw [hpc1, hcy]
    constructor
    · unfold toWord; omega
    · split <;> omega
  · have hf := BranchIf_frame pred (FetchByte s).2
    exact hf

/-- C11 at the spec's scenario: `BEQ +2` at 0x10FD with Z = 1 ends with
PC = 0x1101 and takes 4 cycles (the new PC is on another page than 0x10FF);
with Z = 0 it ends with PC = 0x10FF after 2 cycles. -/
theorem branch_instructions_witness :
    ((exec INS_BEQ (FetchByte ⟨4, { cpuAt 0x10FD with Z := true },
        memOf 0x10FD [0xF0, 0x02]⟩).2).cpu.PC : Int) = 0x1101 ∧
    (exec INS_BEQ (FetchByte ⟨4, { cpuAt 0x10FD with Z := true },
        memOf 0x10FD [0xF0, 0x02]⟩).2).cycles = 0 ∧
    (exec INS_BEQ (FetchByte ⟨4, cpuAt 0x10FD, memOf 0x10FD [0xF0, 0x02]⟩).2).cpu.PC = 0x10FF ∧
    (exec INS_BEQ (FetchByte ⟨4, cpuAt 0x10FD, memOf 0x10FD [0xF0, 0x02]⟩).2).cycles = 2 := by
  have h1 := (branch_instructions INS_BEQ (fun c => c.Z)
    ⟨4, { cpuAt 0x10FD with Z := true }, memOf 0x10FD [0xF0, 0x02]⟩
    (by simp [branchOpcodes]) (memOf_lt _ _ (by decide))).2.1 rfl
  have h2 := (branch_instructions INS_BEQ (fun c => c.Z)
    ⟨4, cpuAt 0x10FD, memOf 0x10FD [0xF0, 0x02]⟩
    (by simp [branchOpcodes]) (memOf_lt _ _ (by decide))).1 rfl
  exact ⟨h1.1, h1.2, h2.1, h2.2⟩

/-! ## One instruction through `Execute` -/

/-- A call whose first instruction uses the budget up runs that instruction
and returns. -/
theorem Execute_one_instruction (b : Int) (cpu : CPU) (memory : Mem) (i : Ins) (hb : 0 < b)
    (hd : decode (memory.Data cpu.PC) = some i)
    (hc : (exec i (FetchByte ⟨b, cpu, memory⟩).2).cycles ≤ 0) :
    Execute b cpu memory =
      .done (toS32 (b - (exec i (FetchByte ⟨b, cpu, memory⟩).2).cycles),
        (exec i (FetchByte ⟨b, cpu, memory⟩).2).cpu,
        (exec i (FetchByte ⟨b, cpu, memory⟩).2).memory) := by
  obtain ⟨n, hn⟩ : ∃ n, b.toNat = n + 1 := ⟨b.toNat - 1, by omega⟩
  unfold Execute
  dsimp only
  rw [hn]
  simp only [ExecuteLoop]
  rw [if_pos (by exact hb), step_of_decode ⟨b, cpu, memory⟩ i hd]
  dsimp only
  rw [ExecuteLoop_of_nonpos n _ hc]

/-! ## Page crossing of the indexed loads -/

/-- C13, the code at two inputs. `LDA $10FF,X` with X = 1 reads the cell
0x1100, whose high byte differs from that of 0x10FF, and takes 4 cycles;
`LDA $1000,X` with X = 0xFF reads the cell 0x10FF, on the page of 0x1000, and
takes 5 cycles. -/
theorem LDA_ABSX_page_cross_cycles :
    Execute 1 { cpuAt 0x1000 with X := 1 }
        ((memOf 0x1000 [0xBD, 0xFF, 0x10]).write 0x1100 0x42) =
      .done (4, { cpuAt 0x1003 with X := 1, A := 0x42 },
        (memOf 0x1000 [0xBD, 0xFF, 0x10]).write 0x1100 0x42) ∧
    (0x10FF + 1) % 65536 / 256 ≠ 0x10FF / 256 ∧
    Execute 1 { cpuAt 0x1000 with X := 0xFF }
        ((memOf 0x1000 [0xBD, 0x00, 0x10]).write 0x10FF 0x42) =
      .done (5, { cpuAt 0x1003 with X := 0xFF, A := 0x42 },
        (memOf 0x1000 [0xBD, 0x00, 0x10]).write 0x10FF 0x42) ∧
    (0x1000 + 0xFF) % 65536 / 256 = 0x1000 / 256 :=
  ⟨rfl, by decide, rfl, by decide⟩

/-- C14, the code at the spec's scenario: the zero-page pointer at 0x20 holds
0x10FF, Y = 2, `LDA ($20),Y` at 0x1000. The load reads the cell 0x1101, on
another page than 0x10FF, and takes 5 cycles, not 6. -/
theorem LDA_INDY_page_cross_cycles :
    Execute 1 { cpuAt 0x1000 with Y := 2 }
        ((((memOf 0x1000 [0xB1, 0x20]).write 0x20 0xFF).write 0x21 0x10).write 0x1101 0x42) =
      .done (5, { cpuAt 0x1002 with Y := 2, A := 0x42 },
        (((memOf 0x1000 [0xB1, 0x20]).write 0x20 0xFF).write 0x21 0x10).write 0x1101 0x42) ∧
    (0x10FF + 2) % 65536 / 256 ≠ 0x10FF / 256 :=
  ⟨rfl, by decide⟩

/-! ## Indexed stores -/

/-- C15. `STA abs,X` and `STA abs,Y` take exactly 5 cycles and `STA (zp),Y`
takes exactly 6, whatever the base address, the pointer and the index
register hold; run alone through `Execute` with a budget of at most that
many cycles they make it return 5, 5 and 6. -/
theorem indexed_store_cycles :
    (∀ s : Machine,
      (exec INS_STA_ABSX (FetchByte s).2).cycles = s.cycles - 5 ∧
      (exec INS_STA_ABSY (FetchByte s).2).cycles = s.cycles - 5 ∧
      (exec INS_STA_INDY (FetchByte s).2).cycles = s.cycles - 6) ∧
    (∀ (b : Int) (cpu : CPU) (memory : Mem), 0 < b →
      (b ≤ 5 → memory.Data cpu.PC = 0x9D →
        ∃ cpu1 memory1, Execute b cpu memory = .done (5, cpu1, memory1)) ∧
      (b ≤ 5 → memory.Data cpu.PC = 0x99 →
        ∃ cpu1 memory1, Execute b cpu memory = .done (5, cpu1, memory1)) ∧
      (b ≤ 6 → memory.Data cpu.PC = 0x91 →
        ∃ cpu1 memory1, Execute b cpu memory = .done (6, cpu1, memory1))) := by
  have hx : ∀ s : Machine, (exec INS_STA_ABSX (FetchByte s).2).cycles = s.cycles - 5 := by
    intro s; show s.cycles - 1 - 2 - 1 - 1 = _; omega
  have hy : ∀ s : Machine, (exec INS_STA_ABSY (FetchByte s).2).cycles = s.cycles - 5 := by
    intro s; show s.cycles - 1 - 2 - 1 - 1 = _; omega
  have hi : ∀ s : Machine, (exec INS_STA_INDY (FetchByte s).2).cycles = s.cycles - 6 := by
    intro s; show s.cycles - 1 - 1 - 1 - 1 - 1 - 1 = _; omega
  refine ⟨fun s => ⟨hx s, hy s, hi s⟩, ?_⟩
  intro b cpu memory hb
  refine ⟨?_, ?_, ?_⟩
  · intro hb5 hop
    have hd : decode (memory.Data cpu.PC) = some INS_STA_ABSX := by rw [hop]; rfl
    have hc := hx ⟨b, cpu, memory⟩
    have h := Execute_one_instruction b cpu memory INS_STA_ABSX hb hd
      (by rw [hc]; show b - 5 ≤ 0; omega)
    rw [hc] at h
    have e : b - (b - 5) = 5 := by omega
    rw [e] at h
    exact ⟨_, _, h⟩
  · intro hb5 hop
    have hd : decode (memory.Data cpu.PC) = some INS_STA_ABSY := by rw [hop]; rfl
    have hc := hy ⟨b, cpu, memory⟩
    have h := Execute_one_instruction b cpu memory INS_STA_ABSY hb hd
      (by rw [hc]; show b - 5 ≤ 0; omega)
    rw [hc] at h
    have e : b - (b - 5) = 5 := by omega
    rw [e] at h
    exact ⟨_, _, h⟩
  · intro hb6 hop
    have hd : decode (memory.Data cpu.PC) = some INS_STA_INDY := by rw [hop]; rfl
    have hc := hi ⟨b, cpu, memory⟩
    have h := Execute_one_instruction b cpu memory INS_STA_INDY hb hd
      (by rw [hc]; show b - 6 ≤ 0; omega)
    rw [hc] at h
    have e : b - (b - 6) = 6 := by omega
    rw [e] at h
    exact ⟨_, _, h⟩

/-- C15 at concrete inputs: `STA $10FF,X` with X = 1 (the address crosses a
page) and `STA $1000,X` with X = 1 (it does not), each run with budget 1,
both return 5. -/
theorem indexed_store_cycles_witness :
    (∃ cpu1 memory1, Execute 1 { cpuAt 0x1000 with X := 1 } (memOf 0x1000 [0x9D, 0xFF, 0x10]) =
      .done (5, cpu1, memory1)) ∧
    (∃ cpu1 memory1, Execute 1 { cpuAt 0x1000 with X := 1 } (memOf 0x1000 [0x9D, 0x00, 0x10]) =
      .done (5, cpu1, memory1)) :=
  ⟨(indexed_store_cycles.2 1 { cpuAt 0x1000 with X := 1 } (memOf 0x1000 [0x9D, 0xFF, 0x10])
      (by decide)).1 (by decide) rfl,
   (indexed_store_cycles.2 1 { cpuAt 0x1000 with X := 1 } (memOf 0x1000 [0x9D, 0x00, 0x10])
      (by decide)).1 (by decide) rfl⟩

/-! ## Z and N after a register write -/

theorem toBit_toNat (b : Bool) : toBit b.toNat = b := by
  cases b <;> rfl

/-- The N flag that the shifts and rotates compute is bit 7 of the result. -/
theorem toBit_NegativeFlag (x : Nat) : toBit ((x &&& NegativeFlag) >>> 7) = x.testBit 7 := by
  have h : x &&& NegativeFlag = (x.testBit 7).toNat * 128 := and_128 x
  rw [h, Nat.shiftRight_eq_div_pow]
  have h2 : (x.testBit 7).toNat * 128 / 2 ^ 7 = (x.testBit 7).toNat := by omega
  rw [h2, toBit_toNat]

/-- A byte shifted right by one has bit 7 clear. -/
theorem testBit_shiftRight_byte (a : Nat) (h : a < 256) : (a >>> 1).testBit 7 = false := by
  apply Nat.testBit_lt_two_pow
  rw [Nat.shiftRight_eq_div_pow]
  omega

set_option maxHeartbeats 4000000 in
/-- C16. After every opcode that writes one of the registers A, X, Y (loads,
TAX, TAY, TXA, TYA, TSX, PLA, AND, ORA, EOR, INX, INY, DEX, DEY, ADC, SBC
and the accumulator forms of ASL, LSR, ROL, ROR), run with a byte in A,
Z = 1 iff the written register is 0 and N is bit 7 of the written register. -/
theorem register_write_flags (i : Ins) (r : Reg) (s : Machine)
    (h : writtenRegister i = some r) (hA : s.cpu.A < 256) :
    (exec i (FetchByte s).2).cpu.Z = decide ((exec i (FetchByte s).2).cpu.reg r = 0) ∧
    (exec i (FetchByte s).2).cpu.N = ((exec i (FetchByte s).2).cpu.reg r).testBit 7 := by
  have hl := testBit_shiftRight_byte s.cpu.A hA
  cases i <;> cases h <;>
    simp only [exec, reg, LoadRegister, LoadRegisterSetStatus, setA, setX, setY, And, Eor, Ora,
      ADC, SBC, ASL, LSR, ROL, ROR, FetchByte, ReadByte, PopByteFromStack, and_128_pos,
      and_NegativeFlag_pos, toBit_NegativeFlag, hl, and_self]

/-- C16 at concrete inputs: `LSR A` with A = 1 leaves A = 0, Z = 1, N = 0;
`DEX` with X = 0 leaves X = 0xFF, Z = 0, N = 1. -/
theorem register_write_flags_witness :
    ((exec INS_LSR_ACC (FetchByte ⟨2, { cpuAt 0x1000 with A := 1 }, memOf 0x1000 [0x4A]⟩).2).cpu.Z
        = true ∧
     (exec INS_LSR_ACC (FetchByte ⟨2, { cpuAt 0x1000 with A := 1 }, memOf 0x1000 [0x4A]⟩).2).cpu.N
        = false) ∧
    ((exec INS_DEX (FetchByte ⟨2, cpuAt 0x1000, memOf 0x1000 [0xCA]⟩).2).cpu.Z = false ∧
     (exec INS_DEX (FetchByte ⟨2, cpuAt 0x1000, memOf 0x1000 [0xCA]⟩).2).cpu.N = true) :=
  ⟨register_write_flags INS_LSR_ACC .A ⟨2, { cpuAt 0x1000 with A := 1 }, memOf 0x1000 [0x4A]⟩
      rfl (by decide),
   register_write_flags INS_DEX .X ⟨2, cpuAt 0x1000, memOf 0x1000 [0xCA]⟩ rfl (by decide)⟩

/-! ## The program counter after an instruction -/

/-- A branch that is not taken leaves the program counter behind its operand. -/
theorem branch_not_taken_PC (i : Ins) (pred : CPU → Bool) (s : Machine)
    (hi : (i, pred) ∈ branchOpcodes) (hf : pred s.cpu = false) :
    (exec i (FetchByte s).2).cpu.PC = (s.cpu.PC + 2) % 65536 := by
  obtain ⟨he, hflags⟩ := exec_branch i pred (FetchByte s).2 hi
  have hp1 : pred (FetchByte (FetchByte s).2).2.cpu = false := by
    show pred { { s.cpu with PC := (s.cpu.PC + 1) % 65536 } with
      PC := ((s.cpu.PC + 1) % 65536 + 1) % 65536 } = false
    rw [hflags, hflags, hf]
  rw [he, BranchIf_not_taken pred _ hp1]
  show ((s.cpu.PC + 1) % 65536 + 1) % 65536 = _
  omega

set_option maxHeartbeats 8000000 in
/-- C17. After every opcode other than JMP, JSR, RTS, RTI, BRK and a taken
branch, located at address `p`, PC = (p + len) mod 65536, where `len` is 1
for the implied and accumulator forms, 2 for the immediate, zero-page,
zero-page-indexed, (indirect,X), (indirect),Y and relative forms, and 3 for
the absolute and absolute-indexed forms. -/
theorem PC_after_instruction (i : Ins) (len : Nat) (s : Machine)
    (h : instructionLength i = some len)
    (hb : ∀ pred, (i, pred) ∈ branchOpcodes → pred s.cpu = false) :
    (exec i (FetchByte s).2).cpu.PC = (s.cpu.PC + len) % 65536 := by
  cases i
  case INS_BEQ =>
    cases h
    exact branch_not_taken_PC _ (fun c => c.Z) s (by simp [branchOpcodes])
      (hb (fun c => c.Z) (by simp [branchOpcodes]))
  case INS_BNE =>
    cases h
    exact branch_not_taken_PC _ (fun c => !c.Z) s (by simp [branchOpcodes])
      (hb (fun c => !c.Z) (by simp [branchOpcodes]))
  case INS_BCC =>
    cases h
    exact branch_not_taken_PC _ (fun c => !c.C) s (by simp [branchOpcodes])
      (hb (fun c => !c.C) (by simp [branchOpcodes]))
  case INS_BCS =>
    cases h
    exact branch_not_taken_PC _ (fun c => c.C) s (by simp [branchOpcodes])
      (hb (fun c => c.C) (by simp [branchOpcodes]))
  case INS_BMI =>
    cases h
    exact branch_not_taken_PC _ (fun c => c.N) s (by simp [branchOpcodes])
      (hb (fun c => c.N) (by simp [branchOpcodes]))
  case INS_BPL =>
    cases h
    exact branch_not_taken_PC _ (fun c => !c.N) s (by simp [branchOpcodes])
      (hb (fun c => !c.N) (by simp [branchOpcodes]))
  case INS_BVS =>
    cases h
    exact branch_not_taken_PC _ (fun c => c.V) s (by simp [branchOpcodes])
      (hb (fun c => c.V) (by simp [branchOpcodes]))
  case INS_BVC =>
    cases h
    exact branch_not_taken_PC _ (fun c => !c.V) s (by simp [branchOpcodes])
      (hb (fun c => !c.V) (by simp [branchOpcodes]))
  all_goals
    cases h <;>
    simp only [exec, FetchByte, FetchWord, ReadByte, ReadWord, WriteByte, AddrZeroPage,
      AddrZeroPageXY, AddrAbsolute, AddrAbsoluteXY_cpu, AddrAbsoluteXY_5, AddrIndirectX,
      AddrIndirectY_cpu, AddrIndirectY_6, LoadRegister, LoadRegisterSetStatus, setA, setX, setY,
      And, Eor, Ora, Bit, Inc, Dec, ADC, SBC, Compare, ASL, LSR, ROL, ROR, PushPSToStack,
      PushByteOntoStack, PopPSFromStack, PopByteFromStack, setPS] <;>
    omega

/-- C17 at concrete inputs: `LDA $1234,X` at 0xFFFE ends with PC = 1 (the
program counter wraps), and `BEQ` with Z = 0 at 0x1000 ends with
PC = 0x1002. -/
theorem PC_after_instruction_witness :
    (exec INS_LDA_ABSX (FetchByte ⟨4, cpuAt 0xFFFE, memOf 0 []⟩).2).cpu.PC = 1 ∧
    (exec INS_BEQ (FetchByte ⟨4, cpuAt 0x1000, memOf 0x1000 [0xF0, 0x02]⟩).2).cpu.PC = 0x1002 :=
  ⟨PC_after_instruction INS_LDA_ABSX 3 ⟨4, cpuAt 0xFFFE, memOf 0 []⟩ rfl
      (by intro pred hp; simp [branchOpcodes] at hp),
   PC_after_instruction INS_BEQ 2 ⟨4, cpuAt 0x1000, memOf 0x1000 [0xF0, 0x02]⟩ rfl
      (by
        intro pred hp
        simp only [branchOpcodes, List.mem_cons, List.mem_singleton, Prod.mk.injEq,
          List.not_mem_nil, or_false, false_and, false_or, true_and, reduceCtorEq] at hp
        subst hp
        rfl)⟩

/-! ## The word push and the word pop of `cos6502.hpp` -/

/-- The two bytes of a 16-bit value put together again. -/
theorem word_of_bytes (v : Nat) (h : v < 65536) :
    ((v &&& 0xFF) ||| ((v >>> 8) % 256) <<< 8) % 65536 = v := by
  rw [and_255, Nat.shiftRight_eq_div_pow, word_or _ _ (by omega) (by omega)]
  omega

/-- The cells that `PushPCToStack` writes, and the stack pointer it leaves. -/
theorem PushPCToStack_effect (s : Machine) (hSP : s.cpu.SP < 256) :
    (PushPCToStack s).memory.Data (0x0100 + s.cpu.SP) = s.cpu.PC &&& 0xFF ∧
    (PushPCToStack s).memory.Data (0x0100 + s.cpu.SP + 1) = (s.cpu.PC >>> 8) % 256 ∧
    (∀ a, a ≠ 0x0100 + s.cpu.SP → a ≠ 0x0100 + s.cpu.SP + 1 →
      (PushPCToStack s).memory.Data a = s.memory.Data a) ∧
    ((PushPCToStack s).cpu.SP : Int) = ((s.cpu.SP : Int) - 2) % 256 ∧
    (PushPCToStack s).cpu.PC = s.cpu.PC := by
  have ha : (0x0100 + s.cpu.SP) % 65536 = 0x0100 + s.cpu.SP := by omega
  refine ⟨?_, ?_, ?_, ?_, rfl⟩
  · show (if 0x0100 + s.cpu.SP = (0x0100 + s.cpu.SP) % 65536 + 1 then _
      else if 0x0100 + s.cpu.SP = (0x0100 + s.cpu.SP) % 65536 then _ else _) = _
    rw [ha, if_neg (by omega), if_pos rfl]
  · show (if 0x0100 + s.cpu.SP + 1 = (0x0100 + s.cpu.SP) % 65536 + 1 then _ else _) = _
    rw [ha, if_pos rfl]
  · intro a h1 h2
    show (if a = (0x0100 + s.cpu.SP) % 65536 + 1 then _
      else if a = (0x0100 + s.cpu.SP) % 65536 then _ else _) = _
    rw [ha, if_neg h2, if_neg h1]
  · show (((((s.cpu.SP : Int) - 2) % 256).toNat : Nat) : Int) = _
    omega

/-- The cells that `PopWordFromStack` reads, and the stack pointer it leaves. -/
theorem PopWordFromStack_effect (s : Machine) :
    (PopWordFromStack s).2.cpu.SP = (s.cpu.SP + 2) % 256 ∧
    (PopWordFromStack s).1 =
      (s.memory.Data (0x0100 + (s.cpu.SP + 2) % 256) |||
        s.memory.Data (0x0100 + (s.cpu.SP + 2) % 256 + 1) <<< 8) % 65536 := by
  have ha : (0x0100 + (s.cpu.SP + 2) % 256) % 65536 = 0x0100 + (s.cpu.SP + 2) % 256 := by omega
  have hb : (0x0100 + (s.cpu.SP + 2) % 256 + 1) % 65536 = 0x0100 + (s.cpu.SP + 2) % 256 + 1 := by
    omega
  refine ⟨rfl, ?_⟩
  show (s.memory.Data ((0x0100 + (s.cpu.SP + 2) % 256) % 65536) |||
    s.memory.Data (((0x0100 + (s.cpu.SP + 2) % 256) % 65536 + 1) % 65536) <<< 8) % 65536 = _
  rw [ha, hb]

/-- C18, the code at PC = 0x1234 and SP = 0xFF. `PushPCToStack` writes the
low byte 0x34 to the cell 0x01FF and the high byte 0x12 to the cell 0x0200,
leaves the cell 0x01FE alone and sets SP to 0xFD. `PopWordFromStack`, run
with SP = 0xFD on a stack that holds 0x12 in the cell 0x01FF and 0x34 in the
cell 0x01FE, sets SP to 0xFF and returns 0x0012, read from the cells 0x01FF
and 0x0200. -/
theorem PushPCToStack_cells :
    (PushPCToStack ⟨2, cpuAt 0x1234, memOf 0 []⟩).memory.Data 0x01FF = 0x34 ∧
    (PushPCToStack ⟨2, cpuAt 0x1234, memOf 0 []⟩).memory.Data 0x0200 = 0x12 ∧
    (PushPCToStack ⟨2, cpuAt 0x1234, memOf 0 []⟩).memory.Data 0x01FE = 0 ∧
    (PushPCToStack ⟨2, cpuAt 0x1234, memOf 0 []⟩).cpu.SP = 0xFD ∧
    (PopWordFromStack ⟨3, { cpuAt 0 with SP := 0xFD }, memOf 0x01FE [0x34, 0x12]⟩).1 = 0x0012 ∧
    (PopWordFromStack ⟨3, { cpuAt 0 with SP := 0xFD },
      memOf 0x01FE [0x34, 0x12]⟩).2.cpu.SP = 0xFF :=
  ⟨rfl, rfl, rfl, rfl, rfl, rfl⟩

/-- C19. `PushPCToStack` followed at once by `PopWordFromStack` returns the
16-bit value pushed and leaves SP at its value before the push, for every PC,
every stack pointer (also 0 and 1, where SP - 2 wraps) and every memory. -/
theorem push_pop_inverse (s : Machine) (hSP : s.cpu.SP < 256) (hPC : s.cpu.PC < 65536) :
    (PopWordFromStack (PushPCToStack s)).1 = s.cpu.PC ∧
    (PopWordFromStack (PushPCToStack s)).2.cpu.SP = s.cpu.SP ∧
    (PopWordFromStack (PushPCToStack s)).2.cpu.PC = s.cpu.PC := by
  obtain ⟨h1, h2, _, h4, h5⟩ := PushPCToStack_effect s hSP
  obtain ⟨p1, p2⟩ := PopWordFromStack_effect (PushPCToStack s)
  have hback : ((PushPCToStack s).cpu.SP + 2) % 256 = s.cpu.SP := by omega
  rw [hback] at p1 p2
  refine ⟨?_, p1, ?_⟩
  · rw [p2, h1, h2]
    exact word_of_bytes _ hPC
  · show (PushPCToStack s).cpu.PC = s.cpu.PC
    exact h5

/-- C19 at a concrete input where the stack pointer wraps: PC = 0x1234 and
SP = 1. -/
theorem push_pop_inverse_witness :
    (PopWordFromStack (PushPCToStack ⟨5, { cpuAt 0x1234 with SP := 1 }, memOf 0 []⟩)).1 =
      0x1234 ∧
    (PopWordFromStack (PushPCToStack ⟨5, { cpuAt 0x1234 with SP := 1 },
      memOf 0 []⟩)).2.cpu.SP = 1 ∧
    (PushPCToStack ⟨5, { cpuAt 0x1234 with SP := 1 }, memOf 0 []⟩).cpu.SP = 0xFF := by
  have h := push_pop_inverse ⟨5, { cpuAt 0x1234 with SP := 1 }, memOf 0 []⟩
    (by decide) (by decide)
  exact ⟨h.1, h.2.1, rfl⟩

/-! ## JSR and RTS -/

set_option maxRecDepth 100000 in
/-- The bits of a packed status byte with the B and U bits forced. -/
theorem statusByte_bits (c z i d b u v n : Bool) :
    ((c.toNat + 2 * z.toNat + 4 * i.toNat + 8 * d.toNat + 16 * b.toNat + 32 * u.toNat +
      64 * v.toNat + 128 * n.toNat) ||| 0b00010000 ||| 0b00100000).testBit 0 = c ∧
    ((c.toNat + 2 * z.toNat + 4 * i.toNat + 8 * d.toNat + 16 * b.toNat + 32 * u.toNat +
      64 * v.toNat + 128 * n.toNat) ||| 0b00010000 ||| 0b00100000).testBit 1 = z ∧
    ((c.toNat + 2 * z.toNat + 4 * i.toNat + 8 * d.toNat + 16 * b.toNat + 32 * u.toNat +
      64 * v.toNat + 128 * n.toNat) ||| 0b00010000 ||| 0b00100000).testBit 2 = i ∧
    ((c.toNat + 2 * z.toNat + 4 * i.toNat + 8 * d.toNat + 16 * b.toNat + 32 * u.toNat +
      64 * v.toNat + 128 * n.toNat) ||| 0b00010000 ||| 0b00100000).testBit 3 = d ∧
    ((c.toNat + 2 * z.toNat + 4 * i.toNat + 8 * d.toNat + 16 * b.toNat + 32 * u.toNat +
      64 * v.toNat + 128 * n.toNat) ||| 0b00010000 ||| 0b00100000).testBit 4 = true ∧
    ((c.toNat + 2 * z.toNat + 4 * i.toNat + 8 * d.toNat + 16 * b.toNat + 32 * u.toNat +
      64 * v.toNat + 128 * n.toNat) ||| 0b00010000 ||| 0b00100000).testBit 5 = true ∧
    ((c.toNat + 2 * z.toNat + 4 * i.toNat + 8 * d.toNat + 16 * b.toNat + 32 * u.toNat +
      64 * v.toNat + 128 * n.toNat) ||| 0b00010000 ||| 0b00100000).testBit 6 = v ∧
    ((c.toNat + 2 * z.toNat + 4 * i.toNat + 8 * d.toNat + 16 * b.toNat + 32 * u.toNat +
      64 * v.toNat + 128 * n.toNat) ||| 0b00010000 ||| 0b00100000).testBit 7 = n := by
  cases c <;> cases z <;> cases i <;> cases d <;> cases b <;> cases u <;> cases v <;>
    cases n <;> decide

/-- The bits of the status byte that PHP pushes. -/
theorem PS_pushed_bits (cpu : CPU) :
    (PS cpu ||| BreakFlag ||| UnusedFlag).testBit 0 = cpu.C ∧
    (PS cpu ||| BreakFlag ||| UnusedFlag).testBit 1 = cpu.Z ∧
    (PS cpu ||| BreakFlag ||| UnusedFlag).testBit 2 = cpu.I ∧
    (PS cpu ||| BreakFlag ||| UnusedFlag).testBit 3 = cpu.D ∧
    (PS cpu ||| BreakFlag ||| UnusedFlag).testBit 4 = true ∧
    (PS cpu ||| BreakFlag ||| UnusedFlag).testBit 5 = true ∧
    (PS cpu ||| BreakFlag ||| UnusedFlag).testBit 6 = cpu.V ∧
    (PS cpu ||| BreakFlag ||| UnusedFlag).testBit 7 = cpu.N :=
  statusByte_bits cpu.C cpu.Z cpu.I cpu.D cpu.B cpu.Unused cpu.V cpu.N

/-- C20. PHP followed at once by PLP leaves the flags C, Z, I, D, V and N at
their values before the PHP, leaves B = 0 and the unused bit = 0 although
the byte that PHP pushed has both bits set, and leaves SP, A, X and Y as
they were. -/
theorem PHP_PLP_restores (s : Machine) (hSP : s.cpu.SP < 256) :
    (exec INS_PLP (FetchByte (exec INS_PHP (FetchByte s).2)).2).cpu.C = s.cpu.C ∧
    (exec INS_PLP (FetchByte (exec INS_PHP (FetchByte s).2)).2).cpu.Z = s.cpu.Z ∧
    (exec INS_PLP (FetchByte (exec INS_PHP (FetchByte s).2)).2).cpu.I = s.cpu.I ∧
    (exec INS_PLP (FetchByte (exec INS_PHP (FetchByte s).2)).2).cpu.D = s.cpu.D ∧
    (exec INS_PLP (FetchByte (exec INS_PHP (FetchByte s).2)).2).cpu.V = s.cpu.V ∧
    (exec INS_PLP (FetchByte (exec INS_PHP (FetchByte s).2)).2).cpu.N = s.cpu.N ∧
    (exec INS_PLP (FetchByte (exec INS_PHP (FetchByte s).2)).2).cpu.B = false ∧
    (exec INS_PLP (FetchByte (exec INS_PHP (FetchByte s).2)).2).cpu.Unused = false ∧
    ((exec INS_PHP (FetchByte s).2).memory.Data (0x0100 + s.cpu.SP)).testBit 4 = true ∧
    ((exec INS_PHP (FetchByte s).2).memory.Data (0x0100 + s.cpu.SP)).testBit 5 = true ∧
    (exec INS_PLP (FetchByte (exec INS_PHP (FetchByte s).2)).2).cpu.SP = s.cpu.SP ∧
    (exec INS_PLP (FetchByte (exec INS_PHP (FetchByte s).2)).2).cpu.A = s.cpu.A ∧
    (exec INS_PLP (FetchByte (exec INS_PHP (FetchByte s).2)).2).cpu.X = s.cpu.X ∧
    (exec INS_PLP (FetchByte (exec INS_PHP (FetchByte s).2)).2).cpu.Y = s.cpu.Y := by
  have hsp : (toByte ((s.cpu.SP : Int) - 1) + 1) % 256 = s.cpu.SP := by
    unfold toByte; omega
  have ha : (0x0100 + s.cpu.SP) % 65536 = 0x0100 + s.cpu.SP := by omega
  obtain ⟨b0, b1, b2, b3, b4, b5, b6, b7⟩ := PS_pushed_bits s.cpu
  have hps : PS { s.cpu with PC := (s.cpu.PC + 1) % 65536 } = PS s.cpu := rfl
  simp only [exec, PushPSToStack, PushByteOntoStack, PopPSFromStack, PopByteFromStack,
    WriteByte, ReadByte, FetchByte, SPToAddress, Mem.write, setPS, hsp, ha, hps, if_true,
    b0, b1, b2, b3, b4, b5, b6, b7, and_self]

/-- C20 at a concrete input: with C, N and B set, PHP pushes 0xB1 (B and the
unused bit set) to the cell 0x01FF, and after PLP the flags C and N are set,
B and the unused bit are clear and SP is 0xFF again; the two instructions
run through `Execute` take 5 cycles. -/
theorem PHP_PLP_restores_witness :
    ((exec INS_PLP (FetchByte (exec INS_PHP (FetchByte
        ⟨5, { cpuAt 0x1000 with C := true, N := true, B := true },
          memOf 0x1000 [0x08, 0x28]⟩).2)).2).cpu.C = true ∧
     (exec INS_PLP (FetchByte (exec INS_PHP (FetchByte
        ⟨5, { cpuAt 0x1000 with C := true, N := true, B := true },
          memOf 0x1000 [0x08, 0x28]⟩).2)).2).cpu.N = true ∧
     (exec INS_PLP (FetchByte (exec INS_PHP (FetchByte
        ⟨5, { cpuAt 0x1000 with C := true, N := true, B := true },
          memOf 0x1000 [0x08, 0x28]⟩).2)).2).cpu.B = false ∧
     (exec INS_PLP (FetchByte (exec INS_PHP (FetchByte
        ⟨5, { cpuAt 0x1000 with C := true, N := true, B := true },
          memOf 0x1000 [0x08, 0x28]⟩).2)).2).cpu.SP = 0xFF) ∧
    Execute 3 { cpuAt 0x1000 with C := true, N := true, B := true }
        (memOf 0x1000 [0x08, 0x28]) =
      .done (5, { cpuAt 0x1002 with C := true, N := true },
        (memOf 0x1000 [0x08, 0x28]).write 0x01FF 0xB1) := by
  have h := PHP_PLP_restores
    ⟨5, { cpuAt 0x1000 with C := true, N := true, B := true }, memOf 0x1000 [0x08, 0x28]⟩
    (by decide)
  exact ⟨⟨h.1, h.2.2.2.2.2.1, h.2.2.2.2.2.2.1, h.2.2.2.2.2.2.2.2.2.2.1⟩, rfl⟩

/-! ## The implied register instructions -/

/-- C21, the code. Each of TAX, TAY, TXA, TYA, INX, INY, DEX, DEY does
`cycles -= 2` after the opcode fetch, so it takes 3 cycles from every state;
`TAX` run alone through `Execute` with a budget of 1 or of 2 returns 3. -/
theorem implied_register_cycles :
    (∀ s : Machine,
      (exec INS_TAX (FetchByte s).2).cycles = s.cycles - 3 ∧
      (exec INS_TAY (FetchByte s).2).cycles = s.cycles - 3 ∧
      (exec INS_TXA (FetchByte s).2).cycles = s.cycles - 3 ∧
      (exec INS_TYA (FetchByte s).2).cycles = s.cycles - 3 ∧
      (exec INS_INX (FetchByte s).2).cycles = s.cycles - 3 ∧
      (exec INS_INY (FetchByte s).2).cycles = s.cycles - 3 ∧
      (exec INS_DEX (FetchByte s).2).cycles = s.cycles - 3 ∧
      (exec INS_DEY (FetchByte s).2).cycles = s.cycles - 3) ∧
    Execute 1 { cpuAt 0x1000 with A := 5 } (memOf 0x1000 [0xAA]) =
      .done (3, { cpuAt 0x1001 with A := 5, X := 5 }, memOf 0x1000 [0xAA]) ∧
    Execute 2 { cpuAt 0x1000 with A := 5 } (memOf 0x1000 [0xAA]) =
      .done (3, { cpuAt 0x1001 with A := 5, X := 5 }, memOf 0x1000 [0xAA]) := by
  refine ⟨fun s => ?_, rfl, rfl⟩
  have h : s.cycles - 1 - 2 = s.cycles - 3 := by omega
  exact ⟨h, h, h, h, h, h, h, h⟩

/-! ## ROL and ROR -/

theorem toNat_and_one (c : Bool) : c.toNat &&& 0b00000001 = c.toNat := by
  cases c <;> rfl

/-- Bit 0 of the operand, as `ROR` takes it. -/
theorem toBit_and_one (m : Nat) : toBit (m &&& 0b00000001) = m.testBit 0 := by
  have h : m &&& 0b00000001 = m % 2 := Nat.and_pow_two_sub_one_eq_mod m 1
  rw [h, Nat.testBit_to_div_mod]
  unfold toBit
  congr 1
  apply propext
  simp

/-- The byte that `ROL` returns. -/
theorem ROL_fst (m : Nat) (s : Machine) :
    (ROL m s).1 = ((m <<< 1) ||| s.cpu.C.toNat) % 256 := by
  have hc : s.cpu.C.toNat < 2 ^ 1 := by cases s.cpu.C <;> decide
  have h1 := Nat.mul_add_lt_is_or hc (m % 128)
  have h2 := Nat.mul_add_lt_is_or hc m
  have e1 : (m <<< 1) % 256 = 2 ^ 1 * (m % 128) := by
    rw [Nat.shiftLeft_eq]; omega
  have e2 : m <<< 1 = 2 ^ 1 * m := by
    rw [Nat.shiftLeft_eq]; omega
  show ((m <<< 1) % 256 ||| (s.cpu.C.toNat &&& 0b00000001)) % 256 = _
  rw [toNat_and_one, e1, e2, ← h1, ← h2]
  omega

/-- The byte that `ROR` returns, for a byte operand. -/
theorem ROR_fst (m : Nat) (s : Machine) (hm : m < 256) :
    (ROR m s).1 = (m >>> 1) ||| (s.cpu.C.toNat <<< 7) := by
  have hx : m >>> 1 < 2 ^ 7 := by
    rw [Nat.shiftRight_eq_div_pow]; omega
  have hc : s.cpu.C.toNat ≤ 1 := by cases s.cpu.C <;> decide
  have h1 := Nat.mul_add_lt_is_or hx s.cpu.C.toNat
  have e : s.cpu.C.toNat <<< 7 = 2 ^ 7 * s.cpu.C.toNat := by
    rw [Nat.shiftLeft_eq]; omega
  show ((m >>> 1) ||| (s.cpu.C.toNat <<< 7)) % 256 = _
  rw [e, Nat.lor_comm, ← h1]
  omega

/-- C22. For an operand byte `m` and carry-in `c`, `ROL` returns
((m << 1) | c) mod 256 and leaves C = bit 7 of `m`; `ROR` returns
(m >> 1) | (c << 7) and leaves C = bit 0 of `m`; both leave Z = 1 iff the
result is 0 and N = bit 7 of the result, and charge exactly one cycle. The
accumulator forms take the operand from A and leave the result in A. -/
theorem ROL_ROR_result (m : Nat) (s : Machine) (hm : m < 256) :
    ((ROL m s).1 = ((m <<< 1) ||| s.cpu.C.toNat) % 256 ∧
     (ROL m s).2.cpu.C = m.testBit 7 ∧
     (ROL m s).2.cpu.Z = decide ((ROL m s).1 = 0) ∧
     (ROL m s).2.cpu.N = (ROL m s).1.testBit 7 ∧
     (ROL m s).2.cycles = s.cycles - 1) ∧
    ((ROR m s).1 = (m >>> 1) ||| (s.cpu.C.toNat <<< 7) ∧
     (ROR m s).2.cpu.C = m.testBit 0 ∧
     (ROR m s).2.cpu.Z = decide ((ROR m s).1 = 0) ∧
     (ROR m s).2.cpu.N = (ROR m s).1.testBit 7 ∧
     (ROR m s).2.cycles = s.cycles - 1) ∧
    ((exec INS_ROL_ACC s).cpu.A = (ROL s.cpu.A s).1 ∧
     (exec INS_ROL_ACC s).cycles = s.cycles - 1 ∧
     (exec INS_ROR_ACC s).cpu.A = (ROR s.cpu.A s).1 ∧
     (exec INS_ROR_ACC s).cycles = s.cycles - 1) :=
  ⟨⟨ROL_fst m s, toBit_NegativeFlag m, rfl, toBit_NegativeFlag _, rfl⟩,
   ⟨ROR_fst m s hm, toBit_and_one m, rfl, toBit_NegativeFlag _, rfl⟩,
   ⟨rfl, rfl, rfl, rfl⟩⟩

/-- C22 at concrete inputs: `ROL` of 0x81 with C = 1 gives 0x03 and C = 1;
`ROR` of 0x01 with C = 1 gives 0x80, C = 1 and N = 1. -/
theorem ROL_ROR_result_witness :
    ((ROL 0x81 ⟨2, { cpuAt 0 with C := true }, memOf 0 []⟩).1 = 0x03 ∧
     (ROL 0x81 ⟨2, { cpuAt 0 with C := true }, memOf 0 []⟩).2.cpu.C = true) ∧
    ((ROR 0x01 ⟨2, { cpuAt 0 with C := true }, memOf 0 []⟩).1 = 0x80 ∧
     (ROR 0x01 ⟨2, { cpuAt 0 with C := true }, memOf 0 []⟩).2.cpu.C = true ∧
     (ROR 0x01 ⟨2, { cpuAt 0 with C := true }, memOf 0 []⟩).2.cpu.N = true) := by
  have h1 := ROL_ROR_result 0x81 ⟨2, { cpuAt 0 with C := true }, memOf 0 []⟩ (by decide)
  have h2 := ROL_ROR_result 0x01 ⟨2, { cpuAt 0 with C := true }, memOf 0 []⟩ (by decide)
  exact ⟨⟨h1.1.1, h1.1.2.1⟩, ⟨h2.2.1.1, h2.2.1.2.1, h2.2.1.2.2.2.1⟩⟩

/-! ## LoadProg -/

/-- With the bound 65536 the loop of `LoadProg` is still running after any
number of iterations: its 16-bit loop variable is below the bound for good. -/
theorem LoadProgLoop_running (p : Nat → Nat) (loadAddr : Nat) (fuel : Nat) :
    ∀ (i at_ : Nat) (memory : Mem), i < 65536 →
      ∃ i1 at1 m1, LoadProgLoop p loadAddr 65536 fuel i at_ memory = .running i1 at1 m1 := by
  induction fuel with
  | zero =>
    intro i at_ memory hi
    exact ⟨i, at_, memory, by simp only [LoadProgLoop]; rw [if_pos hi]⟩
  | succ n ih =>
    intro i at_ memory hi
    simp only [LoadProgLoop]
    rw [if_pos hi]
    exact ih _ _ _ (Nat.mod_lt _ (by decide))

/-- With a bound below 65536 the loop of `LoadProg` returns after
`bound - i` iterations, having copied `prog[at_], prog[at_ + 1], ...` to the
cells `i, ..., bound - 1` and nothing else. -/
theorem LoadProgLoop_copies (p : Nat → Nat) (loadAddr bound : Nat) (hb : bound < 65536)
    (fuel : Nat) :
    ∀ (i at_ : Nat) (memory : Mem), i ≤ bound → at_ + (bound - i) < 4294967296 →
      bound - i ≤ fuel →
      ∃ m1, LoadProgLoop p loadAddr bound fuel i at_ memory = .returned loadAddr m1 ∧
        ∀ a, m1.Data a =
          if i ≤ a ∧ a < bound then p (at_ + (a - i)) else memory.Data a := by
  induction fuel with
  | zero =>
    intro i at_ memory hi _ hf
    refine ⟨memory, ?_, ?_⟩
    · simp only [LoadProgLoop]
      rw [if_neg (by omega)]
    · intro a
      rw [if_neg (by omega)]
  | succ n ih =>
    intro i at_ memory hi hat hf
    simp only [LoadProgLoop]
    by_cases hlt : i < bound
    · rw [if_pos hlt]
      have hi1 : (i + 1) % 65536 = i + 1 := by omega
      have ha1 : (at_ + 1) % 4294967296 = at_ + 1 := by omega
      rw [hi1, ha1]
      obtain ⟨m1, hm1, hd⟩ := ih (i + 1) (at_ + 1) (memory.write i (p at_)) (by omega)
        (by omega) (by omega)
      refine ⟨m1, hm1, ?_⟩
      intro a
      rw [hd a]
      by_cases hai : a = i
      · subst hai
        rw [if_neg (by omega), if_pos ⟨le_refl _, hlt⟩]
        show (if a = a then p at_ else memory.Data a) = _
        rw [if_pos rfl, Nat.sub_self, Nat.add_zero]
      · by_cases hin : i + 1 ≤ a ∧ a < bound
        · rw [if_pos hin, if_pos ⟨by omega, hin.2⟩]
          congr 1
          omega
        · rw [if_neg hin, if_neg (by omega)]
          show (if a = i then p at_ else memory.Data a) = _
          rw [if_neg hai]
    · rw [if_neg hlt]
      refine ⟨memory, rfl, ?_⟩
      intro a
      rw [if_neg (by omega)]

/-- When the program ends below the top of memory
(`loadAddr + numBytes - 2 < 65536`), `LoadProg` returns `loadAddr` after
`numBytes - 2` iterations, has set `memory[loadAddr + k] = prog[2 + k]` for
every `k < numBytes - 2`, and has left every other cell as it was. -/
theorem LoadProg_copies (p : Nat → Nat) (numBytes : Nat) (memory : Mem) (fuel : Nat)
    (h2 : 2 ≤ numBytes) (hfit : (p 0 ||| (p 1 <<< 8)) % 65536 + numBytes - 2 < 65536)
    (hfuel : numBytes - 2 ≤ fuel) :
    ∃ m1, LoadProg fuel (some p) numBytes memory
        = .returned ((p 0 ||| (p 1 <<< 8)) % 65536) m1 ∧
      (∀ k, k < numBytes - 2 → m1.Data ((p 0 ||| (p 1 <<< 8)) % 65536 + k) = p (2 + k)) ∧
      (∀ a, ¬ ((p 0 ||| (p 1 <<< 8)) % 65536 ≤ a ∧
          a < (p 0 ||| (p 1 <<< 8)) % 65536 + numBytes - 2) →
        m1.Data a = memory.Data a) := by
  generalize hla : (p 0 ||| (p 1 <<< 8)) % 65536 = la at hfit ⊢
  have hbound : ((((la : Nat) : Int) + (numBytes : Int) - 2) % 4294967296).toNat
      = la + numBytes - 2 := by omega
  obtain ⟨m1, hm1, hd⟩ := LoadProgLoop_copies p la (la + numBytes - 2) hfit fuel la 2 memory
    (by omega) (by omega) (by omega)
  refine ⟨m1, ?_, ?_, ?_⟩
  · unfold LoadProg
    dsimp only
    rw [hla, hbound]
    exact hm1
  · intro k hk
    rw [hd, if_pos (by omega)]
    congr 1
    omega
  · intro a ha
    rw [hd, if_neg ha]

/-- For a null buffer `LoadProg` returns 0 and leaves the memory alone. -/
theorem LoadProg_null (fuel numBytes : Nat) (memory : Mem) :
    LoadProg fuel none numBytes memory = .returned 0 memory :=
  rfl

/-- C23 fails at the top of memory. The buffer FF FF 42 (`numBytes = 3`) has
`loadAddr = 0xFFFF` and `loadAddr + numBytes - 2 = 65536`, which the claim
admits. `LoadProg` does not return on it: after any number of iterations its
loop is still running. After two iterations the loop variable has wrapped to
1, the buffer index stands at 4, past the 3 bytes of the buffer, and the
cell 0, which held 0x99, has been overwritten. -/
theorem LoadProg_top_of_memory :
    (∀ (fuel : Nat) (memory : Mem), ∃ i at_ m1,
      LoadProg fuel (some (bufferOf [0xFF, 0xFF, 0x42])) 3 memory = .running i at_ m1) ∧
    (∃ m1, LoadProg 2 (some (bufferOf [0xFF, 0xFF, 0x42])) 3 (memOf 0 [0x99])
        = .running 1 4 m1 ∧
      m1.Data 0xFFFF = 0x42 ∧ (memOf 0 [0x99]).Data 0 = 0x99 ∧ m1.Data 0 = 0) := by
  constructor
  · intro fuel memory
    exact LoadProgLoop_running (bufferOf [0xFF, 0xFF, 0x42]) 0xFFFF fuel 0xFFFF 2 memory
      (by decide)
  · exact ⟨_, rfl, rfl, rfl, rfl⟩

/-! ## Read-modify-write in absolute,X mode -/

/-- C24, the code. ASL, LSR, ROL and ROR abs,X take 7 cycles from every
state. INC and DEC abs,X do not: `INC $2000,X` takes 7 cycles with X = 0 and
8 cycles with X = 0xFF, and so does `DEC $2000,X`. -/
theorem RMW_ABSX_cycles :
    (∀ s : Machine,
      (exec INS_ASL_ABSX (FetchByte s).2).cycles = s.cycles - 7 ∧
      (exec INS_LSR_ABSX (FetchByte s).2).cycles = s.cycles - 7 ∧
      (exec INS_ROL_ABSX (FetchByte s).2).cycles = s.cycles - 7 ∧
      (exec INS_ROR_ABSX (FetchByte s).2).cycles = s.cycles - 7) ∧
    Execute 1 (cpuAt 0x1000) (memOf 0x1000 [0xFE, 0x00, 0x20]) =
      .done (7, cpuAt 0x1003, (memOf 0x1000 [0xFE, 0x00, 0x20]).write 0x2000 1) ∧
    Execute 1 { cpuAt 0x1000 with X := 0xFF } (memOf 0x1000 [0xFE, 0x00, 0x20]) =
      .done (8, { cpuAt 0x1003 with X := 0xFF },
        (memOf 0x1000 [0xFE, 0x00, 0x20]).write 0x20FF 1) ∧
    Execute 1 (cpuAt 0x1000) (memOf 0x1000 [0xDE, 0x00, 0x20]) =
      .done (7, { cpuAt 0x1003 with N := true },
        (memOf 0x1000 [0xDE, 0x00, 0x20]).write 0x2000 0xFF) ∧
    Execute 1 { cpuAt 0x1000 with X := 0xFF } (memOf 0x1000 [0xDE, 0x00, 0x20]) =
      .done (8, { cpuAt 0x1003 with X := 0xFF, N := true },
        (memOf 0x1000 [0xDE, 0x00, 0x20]).write 0x20FF 0xFF) := by
  refine ⟨fun s => ?_, rfl, rfl, rfl, rfl⟩
  have h : s.cycles - 1 - 2 - 1 - 1 - 1 - 1 = s.cycles - 7 := by omega
  exact ⟨h, h, h, h⟩

/-! ## Zero-page indexed addressing -/

/-- C25. `AddrZeroPageXY` returns (op + r) mod 256, `op` being the byte at
PC, which lies in the zero page; it advances PC by 1 and charges exactly 2
cycles, so that `LDA zp,X` takes 4 cycles in all. -/
theorem AddrZeroPageXY_result (r : Nat) (s : Machine) :
    (AddrZeroPageXY r s).1 = (s.memory.Data s.cpu.PC + r) % 256 ∧
    (AddrZeroPageXY r s).1 ≤ 0x00FF ∧
    (AddrZeroPageXY r s).2.cpu.PC = (s.cpu.PC + 1) % 65536 ∧
    (AddrZeroPageXY r s).2.cycles = s.cycles - 2 ∧
    (exec INS_LDA_ZPX (FetchByte s).2).cycles = s.cycles - 4 := by
  refine ⟨rfl, ?_, rfl, ?_, ?_⟩
  · show (s.memory.Data s.cpu.PC + r) % 256 ≤ 0x00FF
    omega
  · show s.cycles - 1 - 1 = s.cycles - 2
    omega
  · show s.cycles - 1 - 1 - 1 - 1 = s.cycles - 4
    omega

/-! ## (indirect,X) addressing -/

/-- C26 fails as stated. With the operand 0xF0 and X = 0x0F the pointer sits
at z = 0xFF; the cells 0xFF, 0x00 and 0x0100 hold 0x34, 0x12 and 0x56.
`AddrIndirectX` returns 0x5634, its high byte read from the cell 0x0100,
where the claim has 0x1234 with the high byte read from the cell 0x00. -/
theorem AddrIndirectX_counterexample :
    (AddrIndirectX ⟨4, { cpuAt 0x1000 with X := 0x0F },
      ((((memOf 0x1000 [0xF0]).write 0xFF 0x34).write 0x00 0x12).write 0x0100 0x56)⟩).1
        = 0x5634 ∧
    zeroPageWrappedPointer ((((memOf 0x1000 [0xF0]).write 0xFF 0x34).write 0x00 0x12).write
      0x0100 0x56) 0xF0 0x0F = 0x1234 :=
  ⟨rfl, rfl⟩

/-- A low byte and a shifted high byte make up a 16-bit value. -/
theorem word_or_eq (lo hi : Nat) (hlo : lo < 256) (hhi : hi < 256) :
    (lo ||| hi <<< 8) % 65536 = lo ||| hi <<< 8 := by
  have h := Nat.mul_add_lt_is_or (i := 8) (b := lo) (by simpa using hlo) hi
  rw [Nat.shiftLeft_eq, Nat.lor_comm, Nat.mul_comm hi, ← h]
  omega

/-- C26, amended. On a memory of bytes, with z = (op + X) mod 256,
`AddrIndirectX` returns memory[z] | memory[z + 1] << 8: the low pointer byte
comes from the zero page and the high byte from the cell after it, which is
the cell 0x0100 when z = 0xFF; for z below 0xFF both bytes come from the
zero page and the value is the one the claim gives. The mode charges 4
cycles. -/
theorem AddrIndirectX_result (s : Machine) (hmem : ∀ a, s.memory.Data a < 256) :
    (AddrIndirectX s).1 =
      s.memory.Data ((s.memory.Data s.cpu.PC + s.cpu.X) % 256) |||
        (s.memory.Data ((s.memory.Data s.cpu.PC + s.cpu.X) % 256 + 1) <<< 8) ∧
    ((s.memory.Data s.cpu.PC + s.cpu.X) % 256 ≠ 0xFF →
      (AddrIndirectX s).1 = zeroPageWrappedPointer s.memory (s.memory.Data s.cpu.PC) s.cpu.X) ∧
    (AddrIndirectX s).2.cycles = s.cycles - 4 := by
  have hz : ((s.memory.Data s.cpu.PC + s.cpu.X) % 256 + 1) % 65536 =
      (s.memory.Data s.cpu.PC + s.cpu.X) % 256 + 1 := by omega
  have h1 : (AddrIndirectX s).1 =
      s.memory.Data ((s.memory.Data s.cpu.PC + s.cpu.X) % 256) |||
        (s.memory.Data ((s.memory.Data s.cpu.PC + s.cpu.X) % 256 + 1) <<< 8) := by
    show (s.memory.Data ((s.memory.Data s.cpu.PC + s.cpu.X) % 256) |||
      s.memory.Data (((s.memory.Data s.cpu.PC + s.cpu.X) % 256 + 1) % 65536) <<< 8) % 65536 = _
    rw [hz, word_or_eq _ _ (hmem _) (hmem _)]
  refine ⟨h1, ?_, ?_⟩
  · intro hne
    have hw : ((s.memory.Data s.cpu.PC + s.cpu.X) % 256 + 1) % 256 =
        (s.memory.Data s.cpu.PC + s.cpu.X) % 256 + 1 := by omega
    rw [h1]
    unfold zeroPageWrappedPointer
    rw [hw]
  · show s.cycles - 1 - 1 - 1 - 1 = s.cycles - 4
    omega

/-- C26 amended, at the input of the counterexample: the pointer at
z = 0xFF gives 0x5634 and the mode takes 4 cycles. -/
theorem AddrIndirectX_result_witness :
    (AddrIndirectX ⟨4, { cpuAt 0x1000 with X := 0x0F },
      ((((memOf 0x1000 [0xF0]).write 0xFF 0x34).write 0x00 0x12).write 0x0100 0x56)⟩).1
        = 0x5634 ∧
    (AddrIndirectX ⟨4, { cpuAt 0x1000 with X := 0x0F },
      ((((memOf 0x1000 [0xF0]).write 0xFF 0x34).write 0x00 0x12).write 0x0100 0x56)⟩).2.cycles
        = 0 := by
  have h := AddrIndirectX_result ⟨4, { cpuAt 0x1000 with X := 0x0F },
      ((((memOf 0x1000 [0xF0]).write 0xFF 0x34).write 0x00 0x12).write 0x0100 0x56)⟩
    (by
      intro a
      show (if a = 0x0100 then 0x56 else if a = 0x00 then 0x12 else if a = 0xFF then 0x34
        else (memOf 0x1000 [0xF0]).Data a) < 256
      split
      · decide
      · split
        · decide
        · split
          · decide
          · exact memOf_lt _ _ (by decide) a)
  exact ⟨h.1, h.2.2⟩

/-! ## Cycle budgets: the handlers do not read the counter -/

theorem shift_cpu (d : Int) (s : Machine) : (shift d s).cpu = s.cpu := rfl

theorem shift_memory (d : Int) (s : Machine) : (shift d s).memory = s.memory := rfl

theorem shift_cycles (d : Int) (s : Machine) : (shift d s).cycles = s.cycles + d := rfl

/-- Charging `k` cycles commutes with `shift`. -/
theorem shift_charge (d k : Int) (s : Machine) (cpu : CPU) (memory : Mem) :
    ({ cycles := (shift d s).cycles - k, cpu := cpu, memory := memory } : Machine) =
      shift d { cycles := s.cycles - k, cpu := cpu, memory := memory } := by
  show ({ cycles := s.cycles + d - k, cpu := cpu, memory := memory } : Machine) =
    { cycles := s.cycles - k + d, cpu := cpu, memory := memory }
  rw [add_sub_right_comm]

/-- Replacing CPU and memory commutes with `shift`. -/
theorem shift_keep (d : Int) (s : Machine) (cpu : CPU) (memory : Mem) :
    ({ cycles := (shift d s).cycles, cpu := cpu, memory := memory } : Machine) =
      shift d { cycles := s.cycles, cpu := cpu, memory := memory } :=
  rfl

theorem FetchByte_shift (d : Int) (s : Machine) :
    FetchByte (shift d s) = ((FetchByte s).1, shift d (FetchByte s).2) := by
  simp only [FetchByte, shift_cpu, shift_memory, shift_charge]

theorem FetchWord_shift (d : Int) (s : Machine) :
    FetchWord (shift d s) = ((FetchWord s).1, shift d (FetchWord s).2) := by
  simp only [FetchWord, shift_cpu, shift_memory, shift_charge]

theorem ReadByte_shift (addr : Nat) (d : Int) (s : Machine) :
    ReadByte addr (shift d s) = ((ReadByte addr s).1, shift d (ReadByte addr s).2) := by
  simp only [ReadByte, shift_cpu, shift_memory, shift_charge]

theorem ReadWord_shift (addr : Nat) (d : Int) (s : Machine) :
    ReadWord addr (shift d s) = ((ReadWord addr s).1, shift d (ReadWord addr s).2) := by
  simp only [ReadWord, ReadByte_shift]

theorem WriteByte_shift (value addr : Nat) (d : Int) (s : Machine) :
    WriteByte value addr (shift d s) = shift d (WriteByte value addr s) := by
  simp only [WriteByte, shift_cpu, shift_memory, shift_charge]

theorem PopWordFromStack_shift (d : Int) (s : Machine) :
    PopWordFromStack (shift d s) = ((PopWordFromStack s).1, shift d (PopWordFromStack s).2) := by
  simp only [PopWordFromStack, shift_cpu, shift_memory, shift_keep, ReadWord_shift, shift_charge]

theorem AddrZeroPage_shift (d : Int) (s : Machine) :
    AddrZeroPage (shift d s) = ((AddrZeroPage s).1, shift d (AddrZeroPage s).2) := by
  simp only [AddrZeroPage, FetchByte_shift]

theorem AddrZeroPageXY_shift (regXY : Nat) (d : Int) (s : Machine) :
    AddrZeroPageXY regXY (shift d s) =
      ((AddrZeroPageXY regXY s).1, shift d (AddrZeroPageXY regXY s).2) := by
  simp only [AddrZeroPageXY, FetchByte_shift, shift_cpu, shift_memory, shift_charge]

theorem AddrAbsolute_shift (d : Int) (s : Machine) :
    AddrAbsolute (shift d s) = ((AddrAbsolute s).1, shift d (AddrAbsolute s).2) := by
  simp only [AddrAbsolute, FetchWord_shift]

theorem AddrAbsoluteXY_shift (regXY : Nat) (d : Int) (s : Machine) :
    AddrAbsoluteXY regXY (shift d s) =
      ((AddrAbsoluteXY regXY s).1, shift d (AddrAbsoluteXY regXY s).2) := by
  simp only [AddrAbsoluteXY, FetchWord_shift, shift_cpu, shift_memory, shift_charge]
  split <;> rfl

theorem AddrAbsoluteXY_5_shift (regXY : Nat) (d : Int) (s : Machine) :
    AddrAbsoluteXY_5 regXY (shift d s) =
      ((AddrAbsoluteXY_5 regXY s).1, shift d (AddrAbsoluteXY_5 regXY s).2) := by
  simp only [AddrAbsoluteXY_5, FetchWord_shift, shift_cpu, shift_memory, shift_charge]

theorem AddrIndirectX_shift (d : Int) (s : Machine) :
    AddrIndirectX (shift d s) = ((AddrIndirectX s).1, shift d (AddrIndirectX s).2) := by
  simp only [AddrIndirectX, FetchByte_shift, shift_cpu, shift_memory, shift_charge,
    ReadWord_shift]

theorem AddrIndirectY_shift (d : Int) (s : Machine) :
    AddrIndirectY (shift d s) = ((AddrIndirectY s).1, shift d (AddrIndirectY s).2) := by
  simp only [AddrIndirectY, FetchByte_shift, ReadWord_shift, shift_cpu, shift_memory,
    shift_charge]
  split <;> rfl

theorem AddrIndirectY_6_shift (d : Int) (s : Machine) :
    AddrIndirectY_6 (shift d s) = ((AddrIndirectY_6 s).1, shift d (AddrIndirectY_6 s).2) := by
  simp only [AddrIndirectY_6, FetchByte_shift, ReadWord_shift, shift_cpu, shift_memory,
    shift_charge]

theorem PushByteOntoStack_shift (value : Nat) (d : Int) (s : Machine) :
    PushByteOntoStack value (shift d s) = shift d (PushByteOntoStack value s) := by
  simp only [PushByteOntoStack, WriteByte_shift, shift_cpu, shift_memory, shift_keep]

theorem PopByteFromStack_shift (d : Int) (s : Machine) :
    PopByteFromStack (shift d s) = ((PopByteFromStack s).1, shift d (PopByteFromStack s).2) := by
  simp only [PopByteFromStack, shift_cpu, shift_memory, shift_keep, ReadByte_shift]

theorem WriteWord_shift (value address : Nat) (d : Int) (s : Machine) :
    WriteWord value address (shift d s) = shift d (WriteWord value address s) := by
  simp only [WriteWord, shift_cpu, shift_memory, shift_charge]

theorem PushWordToStack_shift (value : Nat) (d : Int) (s : Machine) :
    PushWordToStack value (shift d s) = shift d (PushWordToStack value s) := by
  simp only [PushWordToStack, WriteWord_shift, shift_cpu, shift_memory, shift_keep]

theorem PushPCMinusOneToStack_shift (d : Int) (s : Machine) :
    PushPCMinusOneToStack (shift d s) = shift d (PushPCMinusOneToStack s) := by
  simp only [PushPCMinusOneToStack, PushWordToStack_shift, shift_cpu]

theorem PushPCPlusOneToStack_shift (d : Int) (s : Machine) :
    PushPCPlusOneToStack (shift d s) = shift d (PushPCPlusOneToStack s) := by
  simp only [PushPCPlusOneToStack, PushWordToStack_shift, shift_cpu]

theorem LoadRegister_shift (addr : Nat) (setReg : Nat → CPU → CPU) (d : Int) (s : Machine) :
    LoadRegister addr setReg (shift d s) = shift d (LoadRegister addr setReg s) := by
  simp only [LoadRegister, ReadByte_shift, shift_cpu, shift_memory, shift_keep]

theorem And_shift (addr : Nat) (d : Int) (s : Machine) :
    And addr (shift d s) = shift d (And addr s) := by
  simp only [And, ReadByte_shift, shift_cpu, shift_memory, shift_keep]

theorem Eor_shift (addr : Nat) (d : Int) (s : Machine) :
    Eor addr (shift d s) = shift d (Eor addr s) := by
  simp only [Eor, ReadByte_shift, shift_cpu, shift_memory, shift_keep]

theorem Ora_shift (addr : Nat) (d : Int) (s : Machine) :
    Ora addr (shift d s) = shift d (Ora addr s) := by
  simp only [Ora, ReadByte_shift, shift_cpu, shift_memory, shift_keep]

theorem Bit_shift (addr : Nat) (d : Int) (s : Machine) :
    Bit addr (shift d s) = shift d (Bit addr s) := by
  simp only [Bit, ReadByte_shift, shift_cpu, shift_memory, shift_keep]

theorem Inc_shift (addr : Nat) (d : Int) (s : Machine) :
    Inc addr (shift d s) = shift d (Inc addr s) := by
  simp only [Inc, ReadByte_shift, WriteByte_shift, shift_cpu, shift_memory, shift_keep]

theorem Dec_shift (addr : Nat) (d : Int) (s : Machine) :
    Dec addr (shift d s) = shift d (Dec addr s) := by
  simp only [Dec, ReadByte_shift, WriteByte_shift, shift_cpu, shift_memory, shift_keep]

theorem BranchIf_shift (predicate : CPU → Bool) (d : Int) (s : Machine) :
    BranchIf predicate (shift d s) = shift d (BranchIf predicate s) := by
  simp only [BranchIf, FetchByte_shift, shift_cpu, shift_memory]
  split
  · split <;> simp only [shift, add_sub_right_comm]
  · rfl

theorem ASL_shift (operand : Nat) (d : Int) (s : Machine) :
    ASL operand (shift d s) = ((ASL operand s).1, shift d (ASL operand s).2) := by
  simp only [ASL, shift_cpu, shift_memory, shift_charge]

theorem LSR_shift (operand : Nat) (d : Int) (s : Machine) :
    LSR operand (shift d s) = ((LSR operand s).1, shift d (LSR operand s).2) := by
  simp only [LSR, shift_cpu, shift_memory, shift_charge]

theorem ROL_shift (operand : Nat) (d : Int) (s : Machine) :
    ROL operand (shift d s) = ((ROL operand s).1, shift d (ROL operand s).2) := by
  simp only [ROL, shift_cpu, shift_memory, shift_charge]

theorem ROR_shift (operand : Nat) (d : Int) (s : Machine) :
    ROR operand (shift d s) = ((ROR operand s).1, shift d (ROR operand s).2) := by
  simp only [ROR, shift_cpu, shift_memory, shift_charge]

theorem PushPSToStack_shift (d : Int) (s : Machine) :
    PushPSToStack (shift d s) = shift d (PushPSToStack s) := by
  simp only [PushPSToStack, PushByteOntoStack_shift, shift_cpu]

theorem PopPSFromStack_shift (d : Int) (s : Machine) :
    PopPSFromStack (shift d s) = shift d (PopPSFromStack s) := by
  simp only [PopPSFromStack, PopByteFromStack_shift, shift_cpu, shift_memory, shift_keep]

set_option maxHeartbeats 8000000 in
/-- No handler of the switch reads the cycle counter: run with `d` more
cycles, it does the same to the CPU and the memory and charges the same. -/
theorem exec_shift (i : Ins) (d : Int) (s : Machine) :
    exec i (shift d s) = shift d (exec i s) := by
  cases i <;>
    simp only [exec, FetchByte_shift, FetchWord_shift, ReadByte_shift, ReadWord_shift,
      WriteByte_shift, PopWordFromStack_shift, AddrZeroPage_shift, AddrZeroPageXY_shift,
      AddrAbsolute_shift, AddrAbsoluteXY_shift, AddrAbsoluteXY_5_shift, AddrIndirectX_shift,
      AddrIndirectY_shift, AddrIndirectY_6_shift, PushByteOntoStack_shift,
      PopByteFromStack_shift, PushPCMinusOneToStack_shift, PushPCPlusOneToStack_shift,
      LoadRegister_shift, And_shift, Eor_shift, Ora_shift, Bit_shift, Inc_shift, Dec_shift,
      BranchIf_shift, ASL_shift, LSR_shift, ROL_shift, ROR_shift, PushPSToStack_shift,
      PopPSFromStack_shift, shift_cpu, shift_memory] <;>
    (try simp only [shift, add_sub_right_comm])

/-- One iteration of the dispatch loop does not read the cycle counter. -/
theorem step_shift (d : Int) (s : Machine) :
    step (shift d s) =
      match step s with
      | .ok s1 => .ok (shift d s1)
      | .error code => .error code := by
  unfold step
  simp only [FetchByte_shift]
  cases decode (FetchByte s).1 with
  | none => rfl
  | some i => simp only [exec_shift]

/-- The loop exits with a counter that is not above the one it started with. -/
theorem ExecuteLoop_done_le (fuel : Nat) (s final : Machine)
    (h : ExecuteLoop fuel s = .done final) : final.cycles ≤ s.cycles := by
  induction fuel generalizing s with
  | zero =>
    simp only [ExecuteLoop] at h
    split at h
    · cases h
    · injection h with h; subst h; exact le_refl _
  | succ n ih =>
    simp only [ExecuteLoop] at h
    split at h
    · split at h
      · rename_i s1 hstep
        have h1 := ih s1 h
        have h2 := step_cycles hstep
        omega
      · cases h
    · injection h with h; subst h; exact le_refl _

/-- Fuel beyond the cycle counter changes nothing. -/
theorem ExecuteLoop_fuel (f : Nat) : ∀ (g : Nat) (s : Machine),
    s.cycles ≤ f → s.cycles ≤ g → ExecuteLoop f s = ExecuteLoop g s := by
  induction f with
  | zero =>
    intro g s hf _
    rw [ExecuteLoop_of_nonpos 0 s (by simpa using hf),
      ExecuteLoop_of_nonpos g s (by simpa using hf)]
  | succ n ih =>
    intro g s hf hg
    by_cases hpos : 0 < s.cycles
    · cases g with
      | zero => simp at hg; omega
      | succ g1 =>
        simp only [ExecuteLoop]
        rw [if_pos hpos, if_pos hpos]
        cases hstep : step s with
        | error code => rfl
        | ok s1 =>
          have h2 := step_cycles hstep
          exact ih g1 s1 (by push_cast at hf; omega) (by push_cast at hg; omega)
    · rw [ExecuteLoop_of_nonpos _ s (by omega), ExecuteLoop_of_nonpos _ s (by omega)]

/-- A run that the loop has finished is a prefix of every run with a larger
budget: with `d` more cycles the loop comes by the state in which the
shorter run ended, `d` cycles being left over. -/
theorem ExecuteLoop_shift (f : Nat) : ∀ (s s1 : Machine) (d : Int) (g : Nat),
    ExecuteLoop f s = .done s1 → 0 ≤ d → s.cycles + d ≤ g →
      ExecuteLoop g (shift d s) = ExecuteLoop g (shift d s1) := by
  induction f with
  | zero =>
    intro s s1 d g h _ _
    simp only [ExecuteLoop] at h
    split at h
    · cases h
    · injection h with h; subst h; rfl
  | succ n ih =>
    intro s s1 d g h hd hg
    simp only [ExecuteLoop] at h
    split at h
    · rename_i hpos
      split at h
      · rename_i s2 hstep
        have h2 := step_cycles hstep
        have h3 := ExecuteLoop_done_le n s2 s1 h
        cases g with
        | zero => simp at hg; omega
        | succ g1 =>
          have hs : step (shift d s) = .ok (shift d s2) := by
            rw [step_shift, hstep]
          have hp : (shift d s).cycles > 0 := by
            show s.cycles + d > 0
            omega
          have e1 : ExecuteLoop (g1 + 1) (shift d s) = ExecuteLoop g1 (shift d s2) := by
            simp only [ExecuteLoop]
            rw [if_pos hp, hs]
          rw [e1, ih s2 s1 d g1 h hd (by push_cast at hg; omega)]
          exact ExecuteLoop_fuel g1 (g1 + 1) (shift d s1)
            (by show s1.cycles + d ≤ _; push_cast at hg; omega)
            (by show s1.cycles + d ≤ _; push_cast at hg ⊢; omega)
      · cases h
    · injection h with h; subst h; rfl

/-- A call of `Execute` with a positive `s32` budget that returns at least
its budget has returned the budget minus the final counter: the difference
has not overflowed `s32`. -/
theorem toS32_not_wrapped (b f : Int) (hb : 0 < b) (hmax : b ≤ 2147483647) (hf0 : f ≤ 0)
    (hf7 : -7 ≤ f) (h : b ≤ toS32 (b - f)) : toS32 (b - f) = b - f := by
  unfold toS32 at h ⊢
  omega

/-- C27. Budget slicing composes where no call overflows `s32`. Let
`Execute(n)` from a CPU state and a memory return `c` and leave `cpu1` and
`memory1`, with `n` and `m` positive, `c + m` an `s32`, and `n ≤ c` (the
first call has not overflowed: a result that has wrapped is negative). If
`Execute(m)` from `cpu1` and `memory1` returns `r` and leaves `cpu2` and
`memory2`, with `m ≤ r` (the second call has not overflowed) and `c + r` an
`s32`, then `Execute(c + m)` from the first state returns `c + r` and leaves
`cpu2` and `memory2`; if the second call throws, `Execute(c + m)` throws the
same; and `Execute(c + m)` throws if and only if the second call does. -/
theorem Execute_slicing (n m : Int) (cpu : CPU) (memory : Mem)
    (c : Int) (cpu1 : CPU) (memory1 : Mem) (hn : 0 < n) (hm : 0 < m)
    (hnc : n ≤ c) (hcm : c + m ≤ 2147483647)
    (h : Execute n cpu memory = .done (c, cpu1, memory1)) :
    (∀ r cpu2 memory2, Execute m cpu1 memory1 = .done (r, cpu2, memory2) →
      m ≤ r → c + r ≤ 2147483647 →
      Execute (c + m) cpu memory = .done (c + r, cpu2, memory2)) ∧
    (∀ code cpu2 memory2, Execute m cpu1 memory1 = .thrown code cpu2 memory2 →
      Execute (c + m) cpu memory = .thrown code cpu2 memory2) ∧
    ((∃ code cpu2 memory2, Execute (c + m) cpu memory = .thrown code cpu2 memory2) ↔
      (∃ code cpu2 memory2, Execute m cpu1 memory1 = .thrown code cpu2 memory2)) := by
  have key : ∃ s1 : Machine, ExecuteLoop n.toNat ⟨n, cpu, memory⟩ = .done s1 ∧
      c = n - s1.cycles ∧ cpu1 = s1.cpu ∧ memory1 = s1.memory := by
    unfold Execute at h
    dsimp only at h
    split at h
    · rename_i s1 hloop
      injection h with h
      injection h with hc h
      injection h with hcpu hmem
      have hs1 := ExecuteLoop_done_nonpos _ _ _ hloop
      have ho1 := ExecuteLoop_done_overshoot _ _ _ (by exact hn) hloop
      rw [toS32_not_wrapped n s1.cycles hn (by omega) hs1 ho1 (by rw [hc]; exact hnc)] at hc
      exact ⟨s1, hloop, hc.symm, hcpu.symm, hmem.symm⟩
    · cases h
    · cases h
  obtain ⟨s1, hloop, hc, hcpu, hmem⟩ := key
  have hs1 := ExecuteLoop_done_nonpos _ _ _ hloop
  have hsh := ExecuteLoop_shift n.toNat ⟨n, cpu, memory⟩ s1 (c + m - n) (c + m).toNat hloop
    (by omega) (by show n + (c + m - n) ≤ (((c + m).toNat : Nat) : Int); omega)
  have e1 : shift (c + m - n) ⟨n, cpu, memory⟩ = ⟨c + m, cpu, memory⟩ := by
    show (⟨n + (c + m - n), cpu, memory⟩ : Machine) = _
    rw [add_sub_cancel]
  have e2 : shift (c + m - n) s1 = ⟨m, cpu1, memory1⟩ := by
    show (⟨s1.cycles + (c + m - n), s1.cpu, s1.memory⟩ : Machine) = _
    rw [hcpu, hmem]
    congr 1
    omega
  rw [e1, e2] at hsh
  have hfuel := ExecuteLoop_fuel (c + m).toNat m.toNat ⟨m, cpu1, memory1⟩
    (by show m ≤ (((c + m).toNat : Nat) : Int); omega)
    (by show m ≤ ((m.toNat : Nat) : Int); omega)
  rw [hfuel] at hsh
  have hA : Execute (c + m) cpu memory =
      match ExecuteLoop m.toNat ⟨m, cpu1, memory1⟩ with
      | .done s => .done (toS32 (c + m - s.cycles), s.cpu, s.memory)
      | .thrown code c2 m2 => .thrown code c2 m2
      | .unfinished => .unfinished := by
    unfold Execute
    dsimp only
    rw [hsh]
  have hB : Execute m cpu1 memory1 =
      match ExecuteLoop m.toNat ⟨m, cpu1, memory1⟩ with
      | .done s => .done (toS32 (m - s.cycles), s.cpu, s.memory)
      | .thrown code c2 m2 => .thrown code c2 m2
      | .unfinished => .unfinished := rfl
  rw [hA, hB]
  cases hl : ExecuteLoop m.toNat ⟨m, cpu1, memory1⟩ with
  | done s2 =>
    dsimp only
    have hs2 := ExecuteLoop_done_nonpos _ _ _ hl
    have ho2 := ExecuteLoop_done_overshoot _ _ _ (by exact hm) hl
    refine ⟨?_, ?_, ?_⟩
    · intro r cpu2 memory2 h2 hmr hcr
      injection h2 with h2
      injection h2 with hr h2
      injection h2 with hcpu2 hmem2
      subst hcpu2 hmem2
      rw [toS32_not_wrapped m s2.cycles hm (by omega) hs2 ho2 (by rw [hr]; exact hmr)] at hr
      rw [toS32_of_range (c + m - s2.cycles) (by omega) (by omega)]
      congr 2
      omega
    · intro code cpu2 memory2 h2
      cases h2
    · constructor
      · rintro ⟨code, c2, m2, h2⟩
        cases h2
      · rintro ⟨code, c2, m2, h2⟩
        cases h2
  | thrown code c2 m2 =>
    dsimp only
    refine ⟨?_, ?_, Iff.rfl⟩
    · intro r cpu2 memory2 h2
      cases h2
    · intro code cpu2 memory2 h2
      exact h2
  | unfinished =>
    dsimp only
    refine ⟨?_, ?_, Iff.rfl⟩
    · intro r cpu2 memory2 h2
      cases h2
    · intro code cpu2 memory2 h2
      cases h2

/-- C27 at a concrete input: on `LDA #5; NOP; NOP`, `Execute(1)` returns 2
after the load, `Execute(3)` from there returns 4 after the two `NOP`, and
`Execute(2 + 3)` from the start returns 2 + 4 in the same final state. -/
theorem Execute_slicing_witness :
    Execute 1 (cpuAt 0x1000) (memOf 0x1000 [0xA9, 0x05, 0xEA, 0xEA]) =
      .done (2, { cpuAt 0x1002 with A := 5 }, memOf 0x1000 [0xA9, 0x05, 0xEA, 0xEA]) ∧
    Execute 3 { cpuAt 0x1002 with A := 5 } (memOf 0x1000 [0xA9, 0x05, 0xEA, 0xEA]) =
      .done (4, { cpuAt 0x1004 with A := 5 }, memOf 0x1000 [0xA9, 0x05, 0xEA, 0xEA]) ∧
    Execute (2 + 3) (cpuAt 0x1000) (memOf 0x1000 [0xA9, 0x05, 0xEA, 0xEA]) =
      .done (2 + 4, { cpuAt 0x1004 with A := 5 }, memOf 0x1000 [0xA9, 0x05, 0xEA, 0xEA]) :=
  ⟨rfl, rfl,
    (Execute_slicing 1 3 (cpuAt 0x1000) (memOf 0x1000 [0xA9, 0x05, 0xEA, 0xEA]) 2
      { cpuAt 0x1002 with A := 5 } (memOf 0x1000 [0xA9, 0x05, 0xEA, 0xEA])
      (by decide) (by decide) (by decide) (by decide) rfl).1 4 { cpuAt 0x1004 with A := 5 }
      (memOf 0x1000 [0xA9, 0x05, 0xEA, 0xEA]) rfl (by decide) (by decide)⟩

/-! ## Termination -/

/-- C28. `Execute` terminates for every CPU state, memory and budget. No
handler of the switch increases the cycle counter; every iteration of the
dispatch loop that completes lowers it by at least 1, the cycle of the
opcode fetch; so the loop, given max(budget, 0) iterations or more, has by
then returned or thrown, and `Execute` returns or throws. -/
theorem Execute_terminates (b : Int) (cpu : CPU) (memory : Mem) :
    (∀ (i : Ins) (s : Machine), (exec i s).cycles ≤ s.cycles) ∧
    (∀ s : Machine, (FetchByte s).2.cycles = s.cycles - 1) ∧
    (∀ s s1 : Machine, step s = .ok s1 → s1.cycles ≤ s.cycles - 1) ∧
    (∀ fuel : Nat, max b 0 ≤ (fuel : Int) →
      ExecuteLoop fuel ⟨b, cpu, memory⟩ ≠ .unfinished) ∧
    ExecuteLoop (max b 0).toNat ⟨b, cpu, memory⟩ ≠ .unfinished ∧
    Execute b cpu memory ≠ .unfinished := by
  refine ⟨fun i s => (exec_cycles i s).2, fun s => rfl, fun s s1 h => (step_cycles h).2,
    ?_, ?_, Execute_finishes b cpu memory⟩
  · intro fuel hf
    exact ExecuteLoop_finishes fuel ⟨b, cpu, memory⟩ (by show b ≤ (fuel : Int); omega)
  · exact ExecuteLoop_finishes _ ⟨b, cpu, memory⟩
      (by show b ≤ (((max b 0).toNat : Nat) : Int); omega)

/-- C28 at a concrete input: the iteration that runs `NOP` with 2 cycles on
the counter leaves 0, which is at most 2 - 1; the loop given max(2, 0) = 2
iterations is not still running, and `Execute(2)` is not either. -/
theorem Execute_terminates_witness :
    step ⟨2, cpuAt 0x1000, memOf 0x1000 [0xEA]⟩ = .ok ⟨0, cpuAt 0x1001, memOf 0x1000 [0xEA]⟩ ∧
    (0 : Int) ≤ 2 - 1 ∧
    max (2 : Int) 0 ≤ ((2 : Nat) : Int) ∧
    ExecuteLoop 2 ⟨2, cpuAt 0x1000, memOf 0x1000 [0xEA]⟩ ≠ .unfinished ∧
    Execute 2 (cpuAt 0x1000) (memOf 0x1000 [0xEA]) ≠ .unfinished :=
  ⟨rfl,
    (Execute_terminates 2 (cpuAt 0x1000) (memOf 0x1000 [0xEA])).2.2.1
      ⟨2, cpuAt 0x1000, memOf 0x1000 [0xEA]⟩ ⟨0, cpuAt 0x1001, memOf 0x1000 [0xEA]⟩ rfl,
    by decide,
    (Execute_terminates 2 (cpuAt 0x1000) (memOf 0x1000 [0xEA])).2.2.2.1 2 (by decide),
    (Execute_terminates 2 (cpuAt 0x1000) (memOf 0x1000 [0xEA])).2.2.2.2.2⟩

/-! ## The page-cross test as it is written -/

/-- The word that `FetchWord` returns is a 16-bit value. -/
theorem FetchWord_lt (s : Machine) : (FetchWord s).1 < 65536 :=
  Nat.mod_lt _ (by decide)

/-- The word that `ReadWord` returns is a 16-bit value. -/
theorem ReadWord_lt (a : Nat) (s : Machine) : (ReadWord a s).1 < 65536 :=
  Nat.mod_lt _ (by decide)

/-- C29. With `b` the base address that `AddrAbsoluteXY` fetches and `r` its
index byte, the function returns (b + r) mod 65536 and charges its extra
cycle iff r = 0xFF and b + 0xFF ≤ 0xFFFF. With `p` the pointer that
`AddrIndirectY` reads and Y a byte, the function returns (p + Y) mod 65536
and charges its extra cycle iff Y = 0xFF and p + 0xFF ≤ 0xFFFF. -/
theorem page_cross_test (r : Nat) (s : Machine) (hr : r < 256) (hY : s.cpu.Y < 256) :
    ((AddrAbsoluteXY r s).1 = ((FetchWord s).1 + r) % 65536 ∧
     (AddrAbsoluteXY r s).2.cycles =
       s.cycles - 2 - (if r = 0xFF ∧ (FetchWord s).1 + 0xFF ≤ 0xFFFF then 1 else 0)) ∧
    ((AddrIndirectY s).1 =
       ((ReadWord (FetchByte s).1 (FetchByte s).2).1 + s.cpu.Y) % 65536 ∧
     (AddrIndirectY s).2.cycles =
       s.cycles - 3 -
         (if s.cpu.Y = 0xFF ∧ (ReadWord (FetchByte s).1 (FetchByte s).2).1 + 0xFF ≤ 0xFFFF
          then 1 else 0)) := by
  have hb := FetchWord_lt s
  have hp := ReadWord_lt (FetchByte s).1 (FetchByte s).2
  refine ⟨⟨AddrAbsoluteXY_fst r s, ?_⟩, ⟨AddrIndirectY_fst s, ?_⟩⟩
  · unfold AddrAbsoluteXY
    dsimp only
    by_cases h : r = 0xFF ∧ (FetchWord s).1 + 0xFF ≤ 0xFFFF
    · rw [if_pos h, if_pos (by omega)]
      show s.cycles - 2 - 1 = _
      rfl
    · rw [if_neg h, if_neg (by omega)]
      show s.cycles - 2 = _
      omega
  · unfold AddrIndirectY
    dsimp only
    have hy : (ReadWord (FetchByte s).1 (FetchByte s).2).2.cpu.Y = s.cpu.Y := rfl
    rw [hy]
    by_cases h : s.cpu.Y = 0xFF ∧ (ReadWord (FetchByte s).1 (FetchByte s).2).1 + 0xFF ≤ 0xFFFF
    · rw [if_pos h, if_pos (by omega)]
      show s.cycles - 1 - 1 - 1 - 1 = _
      omega
    · rw [if_neg h, if_neg (by omega)]
      show s.cycles - 1 - 1 - 1 = _
      omega

/-- C29 at concrete inputs: base 0x1000 with index 0xFF is charged the extra
cycle (3 cycles), base 0x10FF with index 1 is not (2 cycles), and base
0xFF80 with index 0xFF, which wraps to 0x007F, is not. -/
theorem page_cross_test_witness :
    (AddrAbsoluteXY 0xFF ⟨3, cpuAt 0, memOf 0 [0x00, 0x10]⟩).2.cycles = 0 ∧
    (AddrAbsoluteXY 0x01 ⟨3, cpuAt 0, memOf 0 [0xFF, 0x10]⟩).2.cycles = 1 ∧
    ((AddrAbsoluteXY 0xFF ⟨3, cpuAt 0, memOf 0 [0x80, 0xFF]⟩).1 = 0x007F ∧
     (AddrAbsoluteXY 0xFF ⟨3, cpuAt 0, memOf 0 [0x80, 0xFF]⟩).2.cycles = 1) :=
  ⟨(page_cross_test 0xFF ⟨3, cpuAt 0, memOf 0 [0x00, 0x10]⟩ (by decide) (by decide)).1.2,
   (page_cross_test 0x01 ⟨3, cpuAt 0, memOf 0 [0xFF, 0x10]⟩ (by decide) (by decide)).1.2,
   (page_cross_test 0xFF ⟨3, cpuAt 0, memOf 0 [0x80, 0xFF]⟩ (by decide) (by decide)).1⟩

end CPU

end cp6502
